import Mathlib

/-!
# resource-contracts-api: the search query compiler and the tabular export

A shallow embedding of `internal/queries/search2.go` (parameter normalisation and
`SearchV2`) and of the row construction of `CSV` in `internal/document/process.go`,
together with the parts of the Go standard library and of the Elasticsearch client
(`gopkg.in/olivere/elastic.v5`) those functions call.

Go strings are Lean strings, Go `int` is a 64-bit integer held in `Int`,
`[]interface{}` slices are lists and Go maps are association lists read with the
zero-value rule of the Go index expression.
-/

namespace ResourceContracts

/-! ## Go primitives -/

/-- Dynamic value stored in an `interface{}` slot of a query: the code stores Go
`int`s (years, districts) and `string`s (everything else). -/
inductive GoValue where
  | int (n : Int)
  | str (s : String)
  deriving DecidableEq, Repr

/-- Go `map[string]string`, as an association list. -/
abbrev GoMap := List (String × String)

/-- Go index expression `m[k]` on a `map[string]string`: the stored value, or the
zero value `""` when the key is absent. -/
def GoMap.index (m : GoMap) (k : String) : String :=
  match m.lookup k with
  | some v => v
  | none => ""

/-- How a computation can stop early: `skip` is the `continue` of a loop over hits,
`panic` a Go panic (a failed type assertion, an explicit `panic(err)`). -/
inductive Fault where
  | skip
  | panic
  deriving DecidableEq, Repr

/-- Error kinds of `strconv`: `ErrSyntax` and `ErrRange`. -/
inductive NumError where
  | errSyntax
  | errRange
  deriving DecidableEq, Repr

/-- Value of a decimal digit byte, `none` for any other character. -/
def digitVal (c : Char) : Option Nat :=
  if 48 ≤ c.toNat ∧ c.toNat ≤ 57 then some (c.toNat - 48) else none

/-- Largest magnitude of a negative Go `int` (64-bit): `2^63`. -/
def intCutoff : Nat := 9223372036854775808

/-- Largest Go `uint64`: `2^64 - 1`. -/
def maxUint64 : Nat := 18446744073709551615

/-- Loop of Go `strconv.ParseUint` for base 10 and 64 bits, `n` being the number read
so far: the bytes are read left to right; a byte that is not a digit ends the loop
with a syntax error and the value 0; a digit with which the number would leave the
`uint64` range ends it with a range error and the largest `uint64`, whatever
follows. -/
def parseUintLoop : Nat → List Char → Nat × Option NumError
  | n, [] => (n, none)
  | n, c :: cs =>
    match digitVal c with
    | none => (0, some NumError.errSyntax)
    | some d =>
      if maxUint64 / 10 + 1 ≤ n then (maxUint64, some NumError.errRange)
      else if maxUint64 < n * 10 + d then (maxUint64, some NumError.errRange)
      else parseUintLoop (n * 10 + d) cs

/-- Go `strconv.ParseUint(s, 10, 0)` with a 64-bit `int`. -/
def ParseUint : List Char → Nat × Option NumError
  | [] => (0, some NumError.errSyntax)
  | cs => parseUintLoop 0 cs

/-- Go `strconv.ParseInt(s, 10, 0)` with a 64-bit `int`: the sign is taken off, the
rest is read by `ParseUint`; a syntax error gives 0, and a number outside the `int`
range (also one that left the `uint64` range) gives the nearest bound with a range
error. -/
def ParseInt (s : List Char) : Int × Option NumError :=
  if s = [] then (0, some NumError.errSyntax)
  else
    let body : Bool × List Char :=
      match s with
      | '+' :: rest => (false, rest)
      | '-' :: rest => (true, rest)
      | cs => (false, cs)
    match ParseUint body.2 with
    | (_, some NumError.errSyntax) => (0, some NumError.errSyntax)
    | (un, _) =>
      if body.1 = false ∧ intCutoff ≤ un then
        ((intCutoff : Int) - 1, some NumError.errRange)
      else if body.1 = true ∧ intCutoff < un then
        (-(intCutoff : Int), some NumError.errRange)
      else if body.1 then (-(un : Int), none)
      else ((un : Int), none)

/-- Go `strconv.Atoi` for a 64-bit `int`: the value together with the error. It is
`ParseInt(s, 10, 0)`; the short cut that `Atoi` takes for a text of fewer than 19
bytes reads the sign and the digits in the same way and returns the same value and
the same kind of error. -/
def Atoi (s : String) : Int × Option NumError :=
  ParseInt s.data

/-- Go `strconv.ParseBool`: the accepted spellings of true and false; any other
string is an error and the returned value is `false`. -/
def ParseBool (s : String) : Bool × Option NumError :=
  if s = "1" ∨ s = "t" ∨ s = "T" ∨ s = "TRUE" ∨ s = "true" ∨ s = "True" then (true, none)
  else if s = "0" ∨ s = "f" ∨ s = "F" ∨ s = "FALSE" ∨ s = "false" ∨ s = "False" then
    (false, none)
  else (false, some NumError.errSyntax)

/-- Split a character list at every occurrence of `sep`; the result always has at
least one piece, and the empty input gives one empty piece. -/
def splitChars (sep : Char) : List Char → List (List Char)
  | [] => [[]]
  | c :: cs =>
    if c = sep then [] :: splitChars sep cs
    else
      match splitChars sep cs with
      | [] => [[c]]
      | piece :: pieces => (c :: piece) :: pieces

/-- Go `strings.Split(s, sep)` for a one-character separator: all substrings of `s`
between separators, in order; `Split "" sep = [""]`. -/
def Split (s : String) (sep : Char) : List String :=
  (splitChars sep s.data).map String.mk

/-! ## The Elasticsearch client objects built by `SearchV2` -/

/-- Leaf queries the compiler creates. -/
inductive Query where
  /-- Client call `elastic.NewTermsQuery(name, values...)`. -/
  | terms (name : String) (values : List GoValue)
  /-- Client call `elastic.NewMatchPhraseQuery(name, value)`. -/
  | matchPhrase (name : String) (value : GoValue)
  /-- Client call `elastic.NewSimpleQueryStringQuery(text)` with its `Field` list and
  `DefaultOperator`. -/
  | simpleQueryString (queryText : String) (fields : List String)
      (defaultOperator : Option String)
  deriving DecidableEq, Repr

/-- Client struct `elastic.BoolQuery`: the clause lists. `SearchV2` never calls
`MinimumShouldMatch`, `MustNot` or `Boost`, so those settings keep their defaults
and are left out. -/
structure BoolQuery where
  mustClauses : List Query := []
  filterClauses : List Query := []
  shouldClauses : List Query := []
  deriving DecidableEq, Repr

/-- Client call `elastic.NewBoolQuery()`. -/
def NewBoolQuery : BoolQuery := {}

/-- Client call `(*BoolQuery).Must(queries...)`. -/
def BoolQuery.Must (b : BoolQuery) (qs : List Query) : BoolQuery :=
  { b with mustClauses := b.mustClauses ++ qs }

/-- Client call `(*BoolQuery).Filter(filters...)`. -/
def BoolQuery.Filter (b : BoolQuery) (qs : List Query) : BoolQuery :=
  { b with filterClauses := b.filterClauses ++ qs }

/-- Client call `(*BoolQuery).Should(queries...)`. -/
def BoolQuery.Should (b : BoolQuery) (qs : List Query) : BoolQuery :=
  { b with shouldClauses := b.shouldClauses ++ qs }

/-- Client struct `elastic.Highlight`: the highlighted fields and the global options. -/
structure Highlight where
  fields : List String := []
  preTags : List String := []
  postTags : List String := []
  fragmentSize : Option Int := none
  numOfFragments : Option Int := none
  deriving DecidableEq, Repr

/-- Client call `elastic.NewHighlight()`. -/
def NewHighlight : Highlight := {}

/-- Client call `(*Highlight).PreTags(tags...)`. -/
def Highlight.PreTags (h : Highlight) (tags : List String) : Highlight :=
  { h with preTags := h.preTags ++ tags }

/-- Client call `(*Highlight).PostTags(tags...)`. -/
def Highlight.PostTags (h : Highlight) (tags : List String) : Highlight :=
  { h with postTags := h.postTags ++ tags }

/-- Client call `(*Highlight).Field(name)`: adds a highlighted field. -/
def Highlight.Field (h : Highlight) (name : String) : Highlight :=
  { h with fields := h.fields ++ [name] }

/-- Client call `(*Highlight).FragmentSize(n)`. -/
def Highlight.FragmentSize (h : Highlight) (n : Int) : Highlight :=
  { h with fragmentSize := some n }

/-- Client call `(*Highlight).NumOfFragments(n)`. -/
def Highlight.NumOfFragments (h : Highlight) (n : Int) : Highlight :=
  { h with numOfFragments := some n }

/-- Sort directive `Sort(field, ascending)`. -/
structure SortSpec where
  field : String
  ascending : Bool
  deriving DecidableEq, Repr

/-- Client rule for the values given to `From` and `Size`
(`elastic.SearchSource.Source`): the request body gets the key with the value,
unless the value is -1, which the client keeps for "not set" and leaves out. -/
def sentInt (n : Int) : Option Int :=
  if n = -1 then none else some n

/-- The search request `SearchV2` hands to the index client (`client.Search()` after
`Query`, `Highlight`, `Sort`, `From`, `Size`). `from_` and `size` are the keys
`from` and `size` of the request body, `none` when the body has no such key. The
index and type names come from the environment and are left out. -/
structure SearchRequest where
  query : BoolQuery
  highlight : Option Highlight
  sort : Option SortSpec
  from_ : Option Int
  size : Option Int
  deriving DecidableEq, Repr

/-! ## Vocabulary tables (package `correction`) -/

/-- The five package-level lookup tables of package `correction` that the compiler
and the export read (`correction.Resources`, `correction.ContractTypes`,
`correction.DocumentTypes`, `correction.DocumentTypesReverse`,
`correction.ContractTypesReverse`). Their contents are data; every function below
takes them as an argument. -/
structure Vocabulary where
  Resources : GoMap
  ContractTypes : GoMap
  DocumentTypes : GoMap
  DocumentTypesReverse : GoMap
  ContractTypesReverse : GoMap
  deriving DecidableEq, Repr

/-! ## `SearchParams` and its setters (`internal/queries/search2.go`) -/

/-- Default page size `_defaultSize`. -/
def _defaultSize : Int := 10

/-- Default offset `_defaultFrom`. -/
def _defaultFrom : Int := 0

/-- Go struct `SearchParams`. The `[]interface{}` fields are typed by what the
setters store in them: `int`s in `years` and `district`, `string`s in the others.
`sortBy` and `order` are pointers allocated by `NewSearchParams`, the only
constructor of the struct; the embedding keeps the pointees. -/
structure SearchParams where
  q : String
  years : List Int
  resources : List String
  companies : String
  governments : String
  contractTypes : List String
  documentTypes : List String
  annotationCategory : List String
  annotated : Bool
  province : String
  district : List Int
  size : Int
  from_ : Int
  sortBy : String
  order : Bool
  deriving DecidableEq, Repr

/-- Loop of lines 74-80 and 130-136: append the integer of every part that
`Atoi` accepts, skip (`continue`) the others. -/
def appendParsedInts (acc : List Int) (parts : List String) : List Int :=
  parts.foldl (fun out part =>
    match (Atoi part).2 with
    | some _ => out
    | none => out ++ [(Atoi part).1]) acc

/-- Loop of lines 84-86, 90-93, 105-107 and 143-145: append every part. -/
def appendParts (acc : List String) (parts : List String) : List String :=
  parts.foldl (fun out part => out ++ [part]) acc

/-- Go function `NewSearchParams`. -/
def NewSearchParams (q years contractTypes resources companies governments
    documentTypes : String) : SearchParams :=
  let _years : List Int :=
    if years ≠ "" then appendParsedInts [] (Split years ',') else []
  let _contractTypes : List String :=
    if contractTypes ≠ "" then appendParts [] (Split contractTypes ',') else []
  let _resources : List String :=
    if resources ≠ "" then appendParts [] (Split resources ',') else []
  let _companies : String := if companies ≠ "" then companies else ""
  let _governments : String := if governments ≠ "" then governments else ""
  let _documentTypes : List String :=
    if documentTypes ≠ "" then appendParts [] (Split documentTypes ',') else []
  { q := q
    resources := _resources
    years := _years
    contractTypes := _contractTypes
    companies := _companies
    governments := _governments
    documentTypes := _documentTypes
    annotationCategory := []
    annotated := false
    province := ""
    district := []
    size := 0
    from_ := 0
    sortBy := ""
    order := false }

/-- Go method `SetProvince`. -/
def SetProvince (s : SearchParams) (province : String) : SearchParams :=
  { s with province := province }

/-- Go method `SetDistrict`. -/
def SetDistrict (s : SearchParams) (district : String) : SearchParams :=
  let _districts : List Int :=
    if district ≠ "" then appendParsedInts [] (Split district ',') else []
  { s with district := _districts }

/-- Go method `SetAnnotationCategories`. -/
def SetAnnotationCategories (s : SearchParams) (categories : String) : SearchParams :=
  if categories ≠ "" then
    { s with annotationCategory := appendParts s.annotationCategory (Split categories ',') }
  else s

/-- Go method `SetAnnotated`. -/
def SetAnnotated (s : SearchParams) (annotated : Bool) : SearchParams :=
  { s with annotated := annotated }

/-- Go method `SetSortBy`. -/
def SetSortBy (s : SearchParams) (sortBy : String) : SearchParams :=
  if sortBy ≠ "" then
    if sortBy = "country" then { s with sortBy := "metadata.country_name.keyword" }
    else if sortBy = "year" then { s with sortBy := "metadata.signature_date" }
    else if sortBy = "contract_name" then { s with sortBy := "metadata.contract_name.keyword" }
    else if sortBy = "resource" then { s with sortBy := "metadata.resource_raw.keyword" }
    else if sortBy = "contract_type" then { s with sortBy := "metadata.contract_type.keyword" }
    else s
  else { s with sortBy := "metadata.signature_date", order := false }

/-- Go method `SetOrder`: a failed `ParseBool` is logged and its value (`false`) is
stored all the same. -/
def SetOrder (s : SearchParams) (order : String) : SearchParams :=
  if order ≠ "" then { s with order := (ParseBool order).1 } else s

/-- Go method `SetSize`: the error of `Atoi` is ignored and its value stored. -/
def SetSize (s : SearchParams) (size : String) : SearchParams :=
  if size = "" then { s with size := _defaultSize }
  else { s with size := (Atoi size).1 }

/-- Go method `SetFrom`: the error of `Atoi` is ignored and its value stored. -/
def SetFrom (s : SearchParams) (fromArg : String) : SearchParams :=
  if fromArg = "" then { s with from_ := _defaultFrom }
  else { s with from_ := (Atoi fromArg).1 }

/-- Parameter normalisation of the `/api/search` handler (`cmd/front-service/main.go`,
lines 131-166), `query` being `c.Query` (the empty string for an absent parameter).
A malformed `annotated` value makes the handler panic. -/
def searchHandlerParams (query : String → String) : Except Fault SearchParams :=
  let params := NewSearchParams (query "q") (query "year") (query "contract_type")
    (query "resource") (query "company") (query "government") (query "document_type")
  let params :=
    if query "province" ≠ "" then SetProvince params (query "province") else params
  let params :=
    if query "district" ≠ "" then SetDistrict params (query "district") else params
  let params :=
    if query "annotation_category" ≠ "" then
      SetAnnotationCategories params (query "annotation_category")
    else params
  let checked : Except Fault SearchParams :=
    if query "annotated" ≠ "" then
      match (ParseBool (query "annotated")).2 with
      | some _ => Except.error Fault.panic
      | none => Except.ok (SetAnnotated params (ParseBool (query "annotated")).1)
    else Except.ok params
  checked >>= fun params =>
    let params := SetSize params (query "size")
    let params := SetFrom params (query "from")
    let params := SetSortBy params (query "sort_by")
    let params := SetOrder params (query "is_asc")
    Except.ok params

/-! ## The query compiler `SearchV2` -/

/-- Field list of the full-text clause (`fields`, lines 270-286). -/
def ftsFields : List String :=
  [ "metadata.contract_name",
    "metadata.project_title",
    "metadata.open_contracting_id",
    "metadata.country_code",
    "metadata.country_name",
    "metadata.resource",
    "metadata.resource_raw",
    "metadata.language",
    "metadata.company_name",
    "metadata.type_of_contract",
    "metadata.show_pdf_text",
    "metadata.category",
    "metadata_string",
    "pdf_text_string" ]

/-- Highlighted fields (`highlights`, lines 288-291). -/
def highlightFields : List String :=
  [ "pdf_text_string",
    "metadata_string" ]

/-- Go `*elastic.SimpleQueryStringQuery` under construction. -/
structure SimpleQueryStringQuery where
  queryText : String
  fields : List String := []
  defaultOperator : Option String := none
  deriving DecidableEq, Repr

/-- Client call `elastic.NewSimpleQueryStringQuery(text)`. -/
def NewSimpleQueryStringQuery (text : String) : SimpleQueryStringQuery :=
  { queryText := text }

/-- Client call `(*SimpleQueryStringQuery).Field(name)`. -/
def SimpleQueryStringQuery.Field (f : SimpleQueryStringQuery) (name : String) :
    SimpleQueryStringQuery :=
  { f with fields := f.fields ++ [name] }

/-- Client call `(*SimpleQueryStringQuery).DefaultOperator(op)`. -/
def SimpleQueryStringQuery.DefaultOperator (f : SimpleQueryStringQuery) (op : String) :
    SimpleQueryStringQuery :=
  { f with defaultOperator := some op }

/-- The finished full-text query as a clause of the bool query. -/
def SimpleQueryStringQuery.toQuery (f : SimpleQueryStringQuery) : Query :=
  Query.simpleQueryString f.queryText f.fields f.defaultOperator

/-- Go function `SearchV2`, up to the request it sends: the bool query, the
highlight, the sort directive and the pagination. -/
def SearchV2 (voc : Vocabulary) (params : SearchParams) : SearchRequest :=
  let boolQuery := NewBoolQuery
  let filters : List Query := []
  let phrases : List Query := []
  let filters :=
    if params.years.length ≠ 0 then
      filters ++ [Query.terms "metadata.signature_year" (params.years.map GoValue.int)]
    else filters
  let filters :=
    if params.resources.length ≠ 0 then
      filters ++ [Query.terms "metadata.resource" (params.resources.map GoValue.str)]
    else filters
  let filters :=
    if params.province ≠ "" then
      filters ++ [Query.terms "metadata.provinces.province" [GoValue.str params.province]]
    else filters
  let filters :=
    if params.district.length > 0 then
      filters ++ [Query.terms "metadata.provinces.district" (params.district.map GoValue.int)]
    else filters
  let filters :=
    if params.documentTypes.length > 0 then
      params.documentTypes.foldl (fun acc documentType =>
        acc ++ [Query.terms "metadata.document_type.keyword"
          [GoValue.str (voc.DocumentTypesReverse.index documentType)]]) filters
    else filters
  let filters :=
    if params.contractTypes.length > 0 then
      params.contractTypes.foldl (fun acc t =>
        acc ++ [Query.terms "metadata.contract_type.keyword"
          [GoValue.str (voc.ContractTypesReverse.index t)]]) filters
    else filters
  let phrases :=
    if params.annotationCategory.length > 0 then
      params.annotationCategory.foldl (fun acc t =>
        acc ++ [Query.matchPhrase "annotations_category" (GoValue.str t)]) phrases
    else phrases
  let filters :=
    if params.governments.length > 0 then
      filters ++ [Query.terms "metadata.government_entity.entity.keyword"
        [GoValue.str params.governments]]
    else filters
  let filters :=
    if params.companies.length > 0 then
      filters ++ [Query.terms "metadata.company_name.keyword" [GoValue.str params.companies]]
    else filters
  let ftsQuery : Option SimpleQueryStringQuery := none
  let highlight : Option Highlight :=
    some ((NewHighlight.PreTags ["<strong>"]).PostTags ["</strong>"])
  let ftsQuery :=
    if params.q ≠ "" then
      some ((ftsFields.foldl (fun f field => f.Field field)
        (NewSimpleQueryStringQuery params.q)).DefaultOperator "AND")
    else ftsQuery
  let highlight :=
    if params.q ≠ "" then
      highlightFields.foldl (fun hl h =>
        hl.map (fun x => ((x.Field h).FragmentSize 50).NumOfFragments 2)) highlight
    else highlight
  let boolQuery := if phrases.length > 0 then boolQuery.Should phrases else boolQuery
  let boolQuery := if filters.length > 0 then boolQuery.Filter filters else boolQuery
  let boolQuery :=
    match ftsQuery with
    | some f => boolQuery.Must [f.toQuery]
    | none => boolQuery
  let reqHighlight : Option Highlight :=
    match highlight with
    | some h => some h
    | none => none
  { query := boolQuery
    highlight := reqHighlight
    sort := some { field := params.sortBy, ascending := params.order }
    from_ := sentInt params.from_
    size := sentInt params.size }

/-! ## Matching rule of the index for a bool query -/

/-- Documented matching rule of an Elasticsearch 5 `bool` query in query context,
given which leaf clauses a document matches (`ev`): every must-clause and every
filter clause has to match; should-clauses are required (at least one) only when
the query has neither a must-clause nor a filter clause, and otherwise only
influence the score (the default when `minimum_should_match` is not set, which is
how `SearchV2` leaves it). -/
def BoolQuery.matches (ev : Query → Bool) (b : BoolQuery) : Bool :=
  b.mustClauses.all ev && b.filterClauses.all ev &&
    (if b.mustClauses.isEmpty && b.filterClauses.isEmpty && !b.shouldClauses.isEmpty then
       b.shouldClauses.any ev
     else true)

/-! ## Decoded JSON and the tabular export (`internal/document/process.go`) -/

/-- Go `strconv.Itoa`. -/
def Itoa (n : Int) : String := toString n

/-- Worker of `Replace` on character lists: `fuel` bounds the number of steps, `n`
counts the replacements still allowed. -/
def replaceChars (old new : List Char) : Nat → Nat → List Char → List Char
  | 0, _, s => s
  | _ + 1, 0, s => s
  | fuel + 1, n + 1, s =>
    if old.isPrefixOf s = true then
      new ++ replaceChars old new fuel n (s.drop old.length)
    else
      match s with
      | [] => []
      | c :: cs => c :: replaceChars old new fuel (n + 1) cs

/-- Go `strings.Replace(s, old, new, n)` for a non-empty `old` and `n ≥ 0`: the
first `n` non-overlapping occurrences of `old`, left to right, become `new`. -/
def Replace (s old new : String) (n : Nat) : String :=
  String.mk (replaceChars old.data new.data (s.data.length + 1) n s.data)

/-- Value that `json.Unmarshal` stores in an `interface{}`: `nil`, `bool`, `float64`
(held as a rational), `string`, `[]interface{}` and `map[string]interface{}`. -/
inductive JSON where
  | null
  | bool (b : Bool)
  | num (x : Rat)
  | str (s : String)
  | arr (items : List JSON)
  | obj (members : List (String × JSON))

/-- Go `map[string]interface{}`. -/
abbrev JObject := List (String × JSON)

/-- Go index expression `m[k]` on a `map[string]interface{}`: `nil` when absent. -/
def JObject.index (m : JObject) (k : String) : JSON :=
  match m.lookup k with
  | some v => v
  | none => JSON.null

/-- Type assertion `v.(string)`; panics on any other dynamic type. -/
def JSON.assertString : JSON → Except Fault String
  | JSON.str s => Except.ok s
  | _ => Except.error Fault.panic

/-- Type assertion `v.([]interface{})`; panics on any other dynamic type. -/
def JSON.assertArray : JSON → Except Fault (List JSON)
  | JSON.arr items => Except.ok items
  | _ => Except.error Fault.panic

/-- Type assertion `v.(map[string]interface{})`; panics on any other dynamic type. -/
def JSON.assertObject : JSON → Except Fault JObject
  | JSON.obj members => Except.ok members
  | _ => Except.error Fault.panic

/-- What `CSV` reads from its surroundings: the package variable `PUBLIC_URL`, the
unit names returned by `sql.GetProvincesAllUnits` (a `map[int]string`), and the text
`fmt.Sprint` prints for a value that is not a string. -/
structure ExportEnv where
  PUBLIC_URL : String
  units : List (Int × String)
  sprintOther : JSON → String

/-- Go index expression `units[id]` on the `map[int]string`: `""` when absent. -/
def ExportEnv.unit (env : ExportEnv) (id : Int) : String :=
  match env.units.lookup id with
  | some name => name
  | none => ""

/-- Go `fmt.Sprint(item)`: a string prints as itself. -/
def ExportEnv.Sprint (env : ExportEnv) : JSON → String
  | JSON.str s => s
  | v => env.sprintOther v

/-- Go function `convertToString`. The `int` and `[]string` cases of its type switch
cannot occur for a value decoded from JSON and fall under the default. -/
def convertToString (env : ExportEnv) : JSON → String
  | JSON.str val => val
  | JSON.arr val => String.intercalate ";" (val.map env.Sprint)
  | _ => ""

/-- One search hit: its id and its decoded `_source` (`none` when `json.Unmarshal`
fails on the bytes). -/
structure Hit where
  Id : String
  Source : Option JSON

/-- Part of `elastic.SearchResult` that `CSV` reads. -/
structure SearchResult where
  TotalHits : Int
  Hits : List Hit

/-- Loop of lines 320-331 of `CSV`: the province/district cell. -/
def provincesLoop (env : ExportEnv) (provinces : String) :
    List JSON → Except Fault String
  | [] => Except.ok provinces
  | p :: rest => do
    let u ← p.assertObject
    let province ← (JObject.index u "province").assertString
    let district ← (JObject.index u "district").assertString
    let pid := (Atoi province).1
    let did := (Atoi district).1
    if pid > 0 ∧ did > 0 then
      provincesLoop env (provinces ++ (env.unit pid ++ " " ++ env.unit did ++ ";")) rest
    else
      provincesLoop env provinces rest

/-- Loop of lines 334-336 of `CSV`: the government cell. -/
def governmentsLoop (governments : String) : List JSON → Except Fault String
  | [] => Except.ok governments
  | gov :: rest => do
    let g ← gov.assertObject
    let entity ← (JObject.index g "entity").assertString
    governmentsLoop (governments ++ (entity ++ ";")) rest

/-- Loop of lines 339-341 of `CSV`: the resource cell. -/
def resourcesLoop (voc : Vocabulary) (resources : String) :
    List JSON → Except Fault String
  | [] => Except.ok resources
  | res :: rest => do
    let r ← res.assertString
    resourcesLoop voc (resources ++ (voc.Resources.index r ++ ";")) rest

/-- Header row of the export (lines 287-302). -/
def csvHeader : List String :=
  [ "#",
    "Гэрээний нэр",
    "Эрдсийн төрөл",
    "Гэрээний төрөл",
    "Гэрээ байгуулсан огноо",
    "Баримт бичгийн төрөл",
    "Аймаг / Сум",
    "Гэрээ байгуулсан төрийн байгууллага",
    "Компанийн нэр",
    "Төслийн нэр",
    "Гэрээний файл",
    "OCID",
    "Аннотацийн текст",
    "Метадата текст" ]

/-- Body of the loop of `CSV` (lines 307-369) for the hit at position `index`: the
row appended to `data`, `skip` when the hit is passed over, `panic` when a type
assertion fails. -/
def csvRow (env : ExportEnv) (voc : Vocabulary) (index : Nat) (hit : Hit) :
    Except Fault (List String) := do
  let contract : JObject ←
    match hit.Source with
    | some (JSON.obj members) => Except.ok members
    | some JSON.null => Except.ok []
    | _ => Except.error Fault.skip
  let metadata : JObject ←
    match JObject.index contract "metadata" with
    | JSON.obj members => Except.ok members
    | _ => Except.error Fault.skip
  let provinceItems ← (JObject.index metadata "provinces").assertArray
  let provinces ← provincesLoop env "" provinceItems
  let governmentItems ← (JObject.index metadata "government_entity").assertArray
  let governments ← governmentsLoop "" governmentItems
  let resourceItems ← (JObject.index metadata "resource").assertArray
  let resources ← resourcesLoop voc "" resourceItems
  let find := "https://admin.iltodgeree.mn/app"
  let replace := env.PUBLIC_URL ++ "/storage"
  let metadataString : String :=
    match JObject.index contract "metadata_string" with
    | JSON.str text => convertToString env (JSON.str (Replace text find replace 2))
    | _ => ""
  let contractName ← (JObject.index metadata "contract_name").assertString
  let ocid ← (JObject.index metadata "open_contracting_id").assertString
  Except.ok
    [ Itoa (index + 1) ++ ".",
      contractName,
      resources,
      voc.ContractTypes.index (convertToString env (JObject.index metadata "contract_type")),
      convertToString env (JObject.index metadata "signature_date"),
      voc.DocumentTypes.index (convertToString env (JObject.index metadata "document_type")),
      provinces,
      governments,
      convertToString env (JObject.index metadata "company_name"),
      convertToString env (JObject.index metadata "project_title"),
      env.PUBLIC_URL ++ "/api/contracts/download/" ++ hit.Id ++ "/pdf",
      ocid,
      convertToString env (JObject.index contract "annotations_string"),
      metadataString ]

/-- Loop of `CSV` over the hits (line 306), `index` being the position of the first
hit of the list and `data` the rows collected so far. -/
def csvRows (env : ExportEnv) (voc : Vocabulary) :
    Nat → List Hit → List (List String) → Except Fault (List (List String))
  | _, [], data => Except.ok data
  | index, hit :: rest, data =>
    match csvRow env voc index hit with
    | Except.ok row => csvRows env voc (index + 1) rest (data ++ [row])
    | Except.error Fault.skip => csvRows env voc (index + 1) rest data
    | Except.error Fault.panic => Except.error Fault.panic

/-- Go function `CSV`, up to the lines it writes: the header followed by one row per
exported hit. -/
def CSV (env : ExportEnv) (voc : Vocabulary) (searchResult : SearchResult) :
    Except Fault (List (List String)) := do
  let data ←
    if searchResult.TotalHits > 0 then csvRows env voc 0 searchResult.Hits []
    else Except.ok []
  Except.ok (csvHeader :: data)

/-! ## The Elasticsearch client holder (`internal/app_context/elasticsearch.go`) -/

/-- A client object, identified by the order of its creation. -/
structure Client where
  serial : Nat
  deriving DecidableEq, Repr

/-- Go struct `Elastic`: the two client pointers, `none` for `nil`. -/
structure Elastic where
  client : Option Client := none
  clientV5 : Option Client := none
  deriving DecidableEq, Repr

/-- What a method call on the package variable `ElasticInstance` can change: the
variable itself and the number of clients created so far. -/
structure ElasticState where
  ElasticInstance : Elastic
  created : Nat
  deriving DecidableEq, Repr

/-- Client constructor (`elastic.NewClient`, `elasticsearch.NewClient`): when the
constructor succeeds it returns a new client and no error, otherwise `nil` and an
error. Returns the client, the error flag and the new creation count. -/
def NewClient (succeeds : Bool) (created : Nat) : Option Client × Bool × Nat :=
  if succeeds then (some { serial := created }, false, created + 1)
  else (none, true, created)

/-- Go method `func (e Elastic) GetV5()`. The receiver `e` is a value: the method
works on its own copy of the struct, which is returned here as third component and
which the caller never sees. Results: the client, the error flag, the method's copy
of the receiver, the creation count. -/
def Elastic.GetV5 (e : Elastic) (succeeds : Bool) (created : Nat) :
    Option Client × Bool × Elastic × Nat :=
  if e.clientV5 = none then
    let made := NewClient succeeds created
    let e := { e with clientV5 := made.1 }
    (e.clientV5, made.2.1, e, made.2.2)
  else (e.clientV5, false, e, created)

/-- Go method `func (e Elastic) Get()`, with the results of `Elastic.GetV5`. -/
def Elastic.Get (e : Elastic) (succeeds : Bool) (created : Nat) :
    Option Client × Bool × Elastic × Nat :=
  if e.client = none then
    let made := NewClient succeeds created
    let e := { e with client := made.1 }
    (e.client, made.2.1, e, made.2.2)
  else (e.client, false, e, created)

/-- The call `ElasticInstance.GetV5()`: the method receives a copy of the package
variable, so the variable keeps its value; only the creation count moves on. -/
def callGetV5 (succeeds : Bool) (s : ElasticState) : (Option Client × Bool) × ElasticState :=
  let r := s.ElasticInstance.GetV5 succeeds s.created
  ((r.1, r.2.1), { ElasticInstance := s.ElasticInstance, created := r.2.2.2 })

/-- The call `ElasticInstance.Get()`. -/
def callGet (succeeds : Bool) (s : ElasticState) : (Option Client × Bool) × ElasticState :=
  let r := s.ElasticInstance.Get succeeds s.created
  ((r.1, r.2.1), { ElasticInstance := s.ElasticInstance, created := r.2.2.2 })

/-- State at program start: `var ElasticInstance Elastic` is the zero value and no
client has been created. -/
def initialElasticState : ElasticState :=
  { ElasticInstance := {}, created := 0 }

/-! ## Counting queries (`internal/queries/count.go`, `annotations.go`) -/

/-- Go struct `structs.ResultItem` (the score is left out). -/
structure ResultItem where
  Index : String
  TypeName : String
  Source : JObject

/-- Go struct `structs.Result`: the total number of hits of a response. -/
structure Result where
  Total : Int
  deriving DecidableEq, Repr

/-- Go struct `structs.ResultWithHits`: the total and the hits listed in the body. -/
structure ResultWithHits where
  Total : Int
  Hits : List ResultItem

/-- What `structs.Result` keeps of a body that lists hits. -/
def ResultWithHits.toResult (r : ResultWithHits) : Result :=
  { Total := r.Total }

/-- Outcome of `client.Search(...)` followed by the decoding of the body into the
struct `α`: `failed` when the call itself returns an error; otherwise the answer of
the index with its error status (`res.IsError()`) and the decoded body, `none` when
`Decode` fails. -/
inductive IndexReply (α : Type) where
  | failed
  | answered (isError : Bool) (decoded : Option α)

/-- The request options given to `client.Search`. -/
structure IndexSearch where
  index : String
  documentType : String
  size : Option Int
  body : Option String
  deriving DecidableEq, Repr

/-- The errors the counting functions return. -/
inductive QueryError where
  | marshal
  | executing
  | response
  | decoding
  deriving DecidableEq, Repr

/-- Package variable `defaultSize` (`internal/queries/base.go`). -/
def defaultSize : Int := 10000

/-- Package variable `documentType` (`internal/queries/annotations.go`). -/
def documentType : String := "annotations"

/-- Go `json.Marshal` of a `map[string]interface{}` with the single entry
`key: value`, for a key and a string value that need no escaping. -/
def marshalEntry (key value : String) : String :=
  "\x7b\"" ++ key ++ "\":\"" ++ value ++ "\"\x7d"

/-- Go method `BuildQueryBoolMust`, given the marshalled arguments (the marshalling
of a map of strings cannot fail). -/
def BuildQueryBoolMust (jsonBytes : String) : String :=
  "\x7b\n\t\t\"query\": \x7b\n\t\t\t\"bool\": \x7b\n\t\t\t\t\"must\": \x7b\n\t\t\t\t\t\"term\": "
    ++ jsonBytes ++ "\n\t\t\t\t\x7d\n\t\t\t\x7d\n\t\t\x7d\n\t\x7d"

/-- The request `GetStatesCount` sends for the province `id` (lines 13-29). -/
def statesCountSearch (indexName : String) (id : Int) : IndexSearch :=
  let documentType := "state_contracts"
  let query := BuildQueryBoolMust (marshalEntry "provinces.province" (Itoa id))
  { index := indexName, documentType := documentType, size := some defaultSize,
    body := some query }

/-- Go function `GetStatesCount`; `search` is the index, answering a request. -/
def GetStatesCount (indexName : String) (search : IndexSearch → IndexReply ResultWithHits)
    (id : Int) : Int × Option QueryError :=
  match search (statesCountSearch indexName id) with
  | IndexReply.failed => (0, some QueryError.executing)
  | IndexReply.answered isError decoded =>
    if isError then (0, some QueryError.response)
    else
      match decoded with
      | none => (0, some QueryError.decoding)
      | some result => ((result.Hits.length : Int), none)

/-- The request `GetAnnotationsCount` sends (lines 15-18). -/
def annotationsCountSearch (indexName : String) : IndexSearch :=
  { index := indexName, documentType := documentType, size := none, body := none }

/-- Go function `GetAnnotationsCount`. -/
def GetAnnotationsCount (indexName : String) (search : IndexSearch → IndexReply Result) :
    Int × Option QueryError :=
  match search (annotationsCountSearch indexName) with
  | IndexReply.failed => (0, some QueryError.executing)
  | IndexReply.answered isError decoded =>
    if isError then (0, some QueryError.response)
    else
      match decoded with
      | none => (0, some QueryError.decoding)
      | some result => (result.Total, none)

/-- Go struct `structs.Annotation`. -/
structure Annotation where
  ContractID : String
  OpenContractID : String
  ID : Int
  AnnotationID : Int
  Quote : String
  Text : String
  Category : String
  CategoryKey : String
  ArticleReference : String
  PageNo : Int
  Ranges : String
  Cluster : String
  deriving DecidableEq, Repr

/-- Type assertion `v.(int)` on a value decoded from JSON: such a value is never a
Go `int` (numbers are `float64`), so the assertion panics. -/
def JSON.assertInt (_ : JSON) : Except Fault Int :=
  Except.error Fault.panic

/-- Pointer indirection `*p`: panics on the nil pointer. -/
def deref {α : Type} : Option α → Except Fault α
  | some value => Except.ok value
  | none => Except.error Fault.panic

/-- The composite literal of lines 89-102: the annotation read from a hit. -/
def annotationOfItem (item : ResultItem) : Except Fault Annotation := do
  let contractID ← (JObject.index item.Source "contract_id").assertString
  let openContractID ← (JObject.index item.Source "open_contracting_id").assertString
  let id ← (JObject.index item.Source "id").assertInt
  let annotationID ← (JObject.index item.Source "annotation_id").assertInt
  let quote ← (JObject.index item.Source "quote").assertString
  let text ← (JObject.index item.Source "text").assertString
  let category ← (JObject.index item.Source "cateogry").assertString
  let categoryKey ← (JObject.index item.Source "category_key").assertString
  let articleReference ← (JObject.index item.Source "article_reference").assertString
  let pageNo ← (JObject.index item.Source "page_no").assertInt
  let ranges ← (JObject.index item.Source "ranges").assertString
  let cluster ← (JObject.index item.Source "cluster").assertString
  Except.ok
    { ContractID := contractID, OpenContractID := openContractID, ID := id,
      AnnotationID := annotationID, Quote := quote, Text := text, Category := category,
      CategoryKey := categoryKey, ArticleReference := articleReference, PageNo := pageNo,
      Ranges := ranges, Cluster := cluster }

/-- Loop of lines 88-103 of `GetAnnotationPages`: for every hit,
`*response = append(*response, ...)`; the arguments of `append` are evaluated left
to right, the indirection `*response` first. -/
def appendAnnotations (response : Option (List Annotation)) :
    List ResultItem → Except Fault (Option (List Annotation))
  | [] => Except.ok response
  | item :: rest => do
    let current ← deref response
    let element ← annotationOfItem item
    appendAnnotations (some (current ++ [element])) rest

/-- Go function `GetAnnotationPages`, from the reply of the index on: the named
result `response` is a pointer that starts as `nil` and is never assigned. The
result is the pair `(response, err)`, or a panic. -/
def GetAnnotationPages (reply : IndexReply ResultWithHits) :
    Except Fault (Option (List Annotation) × Option QueryError) :=
  let response : Option (List Annotation) := none
  match reply with
  | IndexReply.failed => Except.ok (none, some QueryError.executing)
  | IndexReply.answered _ decoded =>
    match decoded with
    | none => Except.ok (none, some QueryError.decoding)
    | some result =>
      match appendAnnotations response result.Hits with
      | Except.error fault => Except.error fault
      | Except.ok response => Except.ok (response, none)

/-! ## The document export (`internal/document/docx.go`, `process.go`) -/

/-- Worker of `ReplaceAll` on character lists; `fuel` bounds the number of steps. -/
def replaceAllChars (old new : List Char) : Nat → List Char → List Char
  | 0, s => s
  | fuel + 1, s =>
    if old.isPrefixOf s = true then
      new ++ replaceAllChars old new fuel (s.drop old.length)
    else
      match s with
      | [] => []
      | c :: cs => c :: replaceAllChars old new fuel cs

/-- Go `strings.Replace(s, old, new, -1)` for a non-empty `old`: every occurrence of
`old`, found left to right without overlap in one pass, becomes `new`. -/
def ReplaceAll (s old new : String) : String :=
  String.mk (replaceAllChars old.data new.data (s.data.length + 1) s.data)

/-- Go `regexp.MustCompile(pattern).ReplaceAllString(src, repl)` for a pattern
without metacharacters: its matches are the occurrences of the pattern text, found
left to right without overlap. -/
def ReplaceAllString (pattern src repl : String) : String :=
  ReplaceAll src pattern repl

/-- Part of `xml.EscapeText`: the characters XML allows (`isInCharacterRange`). -/
def isInCharacterRange (c : Char) : Bool :=
  c.toNat = 0x09 || c.toNat = 0x0A || c.toNat = 0x0D ||
    (0x20 ≤ c.toNat && c.toNat ≤ 0xD7FF) ||
    (0xE000 ≤ c.toNat && c.toNat ≤ 0xFFFD) ||
    (0x10000 ≤ c.toNat && c.toNat ≤ 0x10FFFF)

/-- Part of `xml.EscapeText`: the text written for one character. -/
def escapeChar (c : Char) : List Char :=
  if c = Char.ofNat 34 then "&#34;".data
  else if c = Char.ofNat 39 then "&#39;".data
  else if c = '&' then "&amp;".data
  else if c = '<' then "&lt;".data
  else if c = '>' then "&gt;".data
  else if c = '\t' then "&#x9;".data
  else if c = '\n' then "&#xA;".data
  else if c = '\r' then "&#xD;".data
  else if isInCharacterRange c then [c]
  else [Char.ofNat 0xFFFD]

/-- Go function `XmlEscape`: `xml.EscapeText` into a buffer, which cannot fail. -/
def XmlEscape (value : String) : String :=
  String.mk (value.data.flatMap escapeChar)

/-- Go function `CreateTitle`. -/
def CreateTitle (title : String) : String :=
  "<w:p><w:pPr><w:pStyle w:val=\"Heading1\" /></w:pPr><w:proofErr w:type=\"gramStart\" /><w:r><w:t>"
    ++ title ++ "</w:t></w:r><w:proofErr w:type=\"gramEnd\" /></w:p>"

/-- Go function `CreateParagraph`. -/
def CreateParagraph (text : String) : String :=
  "<w:p><w:r><w:t>" ++ text ++ "</w:t></w:r></w:p>"

/-- Go function `createHeader`. -/
def createHeader : String :=
  "<?xml version=\"1.0\" encoding=\"UTF-8\" standalone=\"yes\"?><w:document xmlns:wpc=\"http://schemas.microsoft.com/office/word/2010/wordprocessingCanvas\" " ++
    "xmlns:cx=\"http://schemas.microsoft.com/office/drawing/2014/chartex\" xmlns:cx1=\"http://schemas.microsoft.com/office/drawing/2015/9/8/chartex\" " ++
    "xmlns:cx2=\"http://schemas.microsoft.com/office/drawing/2015/10/21/chartex\" xmlns:cx3=\"http://schemas.microsoft.com/office/drawing/2016/5/9/chartex\" " ++
    "xmlns:cx4=\"http://schemas.microsoft.com/office/drawing/2016/5/10/chartex\" xmlns:cx5=\"http://schemas.microsoft.com/office/drawing/2016/5/11/chartex\" " ++
    "xmlns:cx6=\"http://schemas.microsoft.com/office/drawing/2016/5/12/chartex\" xmlns:cx7=\"http://schemas.microsoft.com/office/drawing/2016/5/13/chartex\" " ++
    "xmlns:cx8=\"http://schemas.microsoft.com/office/drawing/2016/5/14/chartex\" xmlns:mc=\"http://schemas.openxmlformats.org/markup-compatibility/2006\" " ++
    "xmlns:aink=\"http://schemas.microsoft.com/office/drawing/2016/ink\" xmlns:am3d=\"http://schemas.microsoft.com/office/drawing/2017/model3d\" " ++
    "xmlns:o=\"urn:schemas-microsoft-com:office:office\" xmlns:r=\"http://schemas.openxmlformats.org/officeDocument/2006/relationships\" " ++
    "xmlns:m=\"http://schemas.openxmlformats.org/officeDocument/2006/math\" xmlns:v=\"urn:schemas-microsoft-com:vml\" " ++
    "xmlns:wp14=\"http://schemas.microsoft.com/office/word/2010/wordprocessingDrawing\" " ++
    "xmlns:wp=\"http://schemas.openxmlformats.org/drawingml/2006/wordprocessingDrawing\" " ++
    "xmlns:w10=\"urn:schemas-microsoft-com:office:word\" xmlns:w=\"http://schemas.openxmlformats.org/wordprocessingml/2006/main\" " ++
    "xmlns:w14=\"http://schemas.microsoft.com/office/word/2010/wordml\" xmlns:w15=\"http://schemas.microsoft.com/office/word/2012/wordml\" " ++
    "xmlns:w16cex=\"http://schemas.microsoft.com/office/word/2018/wordml/cex\" xmlns:w16cid=\"http://schemas.microsoft.com/office/word/2016/wordml/cid\" " ++
    "xmlns:w16=\"http://schemas.microsoft.com/office/word/2018/wordml\" xmlns:w16sdtdh=\"http://schemas.microsoft.com/office/word/2020/wordml/sdtdatahash\" " ++
    "xmlns:w16se=\"http://schemas.microsoft.com/office/word/2015/wordml/symex\" xmlns:wpg=\"http://schemas.microsoft.com/office/word/2010/wordprocessingGroup\" " ++
    "xmlns:wpi=\"http://schemas.microsoft.com/office/word/2010/wordprocessingInk\" xmlns:wne=\"http://schemas.microsoft.com/office/word/2006/wordml\" " ++
    "xmlns:wps=\"http://schemas.microsoft.com/office/word/2010/wordprocessingShape\" mc:Ignorable=\"w14 " ++
    "w15 w16se w16cid w16 w16cex w16sdtdh wp14\"><w:body><w:sdt><w:sdtPr><w:id w:val=\"1747684861\"/>" ++
    "<w:docPartObj><w:docPartGallery w:val=\"Table of Contents\"/><w:docPartUnique/></w:docPartObj>" ++
    "</w:sdtPr><w:sdtEndPr><w:rPr><w:rFonts w:asciiTheme=\"minorHAnsi\" w:eastAsiaTheme=\"minorHAnsi\" " ++
    "w:hAnsiTheme=\"minorHAnsi\" w:cstheme=\"minorBidi\"/><w:b/><w:bCs/><w:noProof/><w:color " ++
    "w:val=\"auto\"/><w:sz w:val=\"22\"/><w:szCs w:val=\"22\"/></w:rPr></w:sdtEndPr><w:sdtContent>" ++
    "<w:p w14:paraId=\"59CA73FE\" w14:textId=\"11208235\" w:rsidR=\"00B1484F\" w:rsidRDefault=\"00B1484F\">" ++
    "<w:pPr><w:pStyle w:val=\"TOCHeading\"/></w:pPr><w:r><w:t>Contents</w:t></w:r></w:p>" ++
    "<w:p w14:paraId=\"46D0C7E4\" w14:textId=\"65D40068\" w:rsidR=\"00B1484F\" w:rsidRDefault=\"00B1484F\">" ++
    "<w:fldSimple w:instr=\" TOC \\o &quot;1-3&quot; \\h \\z \\u \"><w:r><w:rPr><w:b/><w:bCs/>" ++
    "<w:noProof/></w:rPr><w:t>No table of contents entries found.</w:t></w:r></w:fldSimple>" ++
    "</w:p></w:sdtContent></w:sdt><w:p w14:paraId=\"44DF0BFB\" w14:textId=\"77777777\" w:rsidR=\"00F61DEF\" " ++
    "w:rsidRDefault=\"000448CE\"/><w:sectPr w:rsidR=\"00F61DEF\"><w:headerReference w:type=\"even\" " ++
    "r:id=\"rId7\"/><w:headerReference w:type=\"default\" r:id=\"rId8\"/><w:footerReference " ++
    "w:type=\"even\" r:id=\"rId9\"/><w:footerReference w:type=\"default\" r:id=\"rId10\"/><w:headerReference " ++
    "w:type=\"first\" r:id=\"rId11\"/><w:footerReference w:type=\"first\" r:id=\"rId12\"/><w:pgSz " ++
    "w:w=\"12240\" w:h=\"15840\"/><w:pgMar w:top=\"1440\" w:right=\"1440\" w:bottom=\"1440\" w:left=\"1440\" " ++
    "w:header=\"720\" w:footer=\"720\" w:gutter=\"0\"/><w:cols w:space=\"720\"/><w:docGrid w:linePitch=\"360\"/>" ++
    "</w:sectPr>"

/-- Go function `CreateFooter`. -/
def CreateFooter : String :=
  "</w:body></w:document>"

/-- Lines 77-78 and 158-159: the full text with every pair of newlines replaced by
one newline, then every `&nbsp;` replaced by a blank. -/
def sanitizedText (pdfText : String) : String :=
  let singleLined := ReplaceAllString "\n\n" pdfText "\n"
  let sanitized := ReplaceAll singleLined "&nbsp;" " "
  sanitized

/-- Lines 79 and 160: the paragraphs, `strings.Split(sanitized, "\n")`. -/
def contentLines (pdfText : String) : List String :=
  Split (sanitizedText pdfText) '\n'

/-- Lines 80-82 and 161-163: what the loop over the paragraphs writes. -/
def writeParagraphs (content : List String) : String :=
  String.join (content.map (fun line => CreateParagraph (XmlEscape line)))

/-- The `word/document.xml` that `ProcessSingle` writes (lines 64-85) for a document
whose decoded source is `source` (`none` when `json.Unmarshal` fails: its error is
ignored and `contract` stays nil). Fails with a panic when a type assertion does. -/
def singleDocumentXml (source : Option JSON) : Except Fault String :=
  let contract : JObject :=
    match source with
    | some (JSON.obj members) => members
    | _ => []
  (JObject.index contract "metadata").assertObject >>= fun metadata =>
  (JObject.index metadata "contract_name").assertString >>= fun contractName =>
  (JObject.index contract "pdf_text_string").assertString >>= fun pdfText =>
  Except.ok (createHeader ++ CreateTitle contractName
    ++ writeParagraphs (contentLines pdfText) ++ CreateFooter)

/-- Body of the loop of `Process` (lines 143-163) for the hit at position `index`:
the text written for it, `skip` when the hit is passed over, `panic` when a type
assertion fails. -/
def processHit (index : Nat) (hit : Hit) : Except Fault String :=
  let decoded : Except Fault JObject :=
    match hit.Source with
    | some (JSON.obj members) => Except.ok members
    | some JSON.null => Except.ok []
    | _ => Except.error Fault.skip
  decoded >>= fun contract =>
  let checked : Except Fault JObject :=
    match JObject.index contract "metadata" with
    | JSON.obj members => Except.ok members
    | _ => Except.error Fault.skip
  checked >>= fun metadata =>
  (JObject.index metadata "contract_name").assertString >>= fun contractName =>
  (JObject.index contract "pdf_text_string").assertString >>= fun pdfText =>
  Except.ok (CreateTitle (Itoa (index + 1) ++ ". " ++ contractName)
    ++ writeParagraphs (contentLines pdfText))

/-- Whether `json.Unmarshal` of line 144 returns an error for the hit. -/
def unmarshalFails (hit : Hit) : Bool :=
  match hit.Source with
  | some (JSON.obj _) => false
  | some JSON.null => false
  | _ => true

/-- Loop of `Process` over the hits (line 142), `index` being the position of the
first hit of the list. The state is the text written so far and whether the
variable `err` of the function holds an error: line 144 assigns it in every
iteration, and nothing resets it. -/
def processHits : Nat → List Hit → String × Bool → Except Fault (String × Bool)
  | _, [], state => Except.ok state
  | index, hit :: rest, state =>
    match processHit index hit with
    | Except.ok text => processHits (index + 1) rest (state.1 ++ text, unmarshalFails hit)
    | Except.error Fault.skip => processHits (index + 1) rest (state.1, unmarshalFails hit)
    | Except.error Fault.panic => Except.error Fault.panic

/-- Lines 141-165 of `Process`: the text written for the hits and the state of `err`
after the loop; `err` is nil before it (`regexp.Compile` succeeded). -/
def processBody (searchResult : SearchResult) : Except Fault (String × Bool) :=
  if searchResult.TotalHits > 0 then processHits 0 searchResult.Hits ("", false)
  else Except.ok ("", false)

/-- The `word/document.xml` that `Process` writes (lines 134-167). -/
def documentXml (searchResult : SearchResult) : Except Fault String :=
  processBody searchResult >>= fun state =>
  Except.ok (createHeader ++ state.1 ++ CreateFooter)

/-- How a run of an export function ends: it returns, it panics, or the process
exits (`log.Fatal`, `log.Fatalf`). -/
inductive RunEnd where
  | returned
  | panicked
  | exited
  deriving DecidableEq, Repr

/-- What an export function does to the file system and to the response. -/
inductive Effect where
  | mkdir (path : String)
  | create (path : String)
  | close (path : String)
  | flush
  | removeAll (path : String)
  | serve (path : String)
  deriving DecidableEq, Repr

/-- How one statement ends. -/
inductive Outcome where
  | done
  | panics
  | exits
  deriving DecidableEq, Repr

/-- One statement of the body of an export function: a call with its outcome and
what it does when it completes, or a `defer` with what its function does when it is
run. -/
inductive Stmt where
  | call (outcome : Outcome) (effects : List Effect)
  | deferCall (effects : List Effect)
  deriving DecidableEq, Repr

/-- One run of an export function: how it ends and what it has done, in order. -/
structure ExportRun where
  finish : RunEnd
  effects : List Effect
  deriving DecidableEq, Repr

/-- Go semantics of a function body with `defer`: the statements run in order; a
deferred function is put on a stack when its `defer` statement is reached; the
stack is run, last first, when the function returns or panics, and is not run when
the process exits. -/
def runBody : List Stmt → List (List Effect) → List Effect → ExportRun
  | [], deferred, soFar => { finish := RunEnd.returned, effects := soFar ++ deferred.flatten }
  | Stmt.deferCall effects :: rest, deferred, soFar => runBody rest (effects :: deferred) soFar
  | Stmt.call Outcome.done effects :: rest, deferred, soFar =>
    runBody rest deferred (soFar ++ effects)
  | Stmt.call Outcome.panics _ :: _, deferred, soFar =>
    { finish := RunEnd.panicked, effects := soFar ++ deferred.flatten }
  | Stmt.call Outcome.exits _ :: _, _, soFar => { finish := RunEnd.exited, effects := soFar }

/-- The paths given to the executed calls of `os.RemoveAll`. -/
def ExportRun.removed (run : ExportRun) : List String :=
  run.effects.filterMap (fun effect =>
    match effect with
    | Effect.removeAll path => some path
    | _ => none)

/-- Outcome of a block that builds a value: a failed type assertion panics. -/
def buildOutcome {α : Type} : Except Fault α → Outcome
  | Except.ok _ => Outcome.done
  | Except.error _ => Outcome.panics

/-- Helper `Check(err)` of package `document`, whose file is not among the sources:
it is taken to do nothing for a nil error; what it does for an error
(`checkFailure`: it goes on, panics or exits) is a parameter. `failed` tells whether
the error it is given is not nil. -/
def Check (checkFailure : Outcome) (failed : Bool) : Outcome :=
  if failed then checkFailure else Outcome.done

/-- State of the variable `err` of `Process` when line 168 is reached. -/
def errAfterLoop (searchResult : SearchResult) : Bool :=
  match processBody searchResult with
  | Except.ok state => state.2
  | Except.error _ => false

/-- Go function `ProcessSingle`, as a run in which `mkdir` and `os.Create` succeed
(so that the `Check` calls of lines 52 and 58 are given nil). `zipCloseFails` tells
whether `zipWriter.Close` returns an error (`log.Fatal`). The `Check` calls of lines
69 and 86 are given the nil error of `regexp.Compile`; the errors of
`json.Unmarshal` and of `file.Write` are not looked at. -/
def ProcessSingle (checkFailure : Outcome) (DOCUMENT_PATH id : String)
    (source : Option JSON) (zipCloseFails : Bool) : ExportRun :=
  let documentPath := DOCUMENT_PATH ++ "/result/" ++ id
  let target := "/" ++ id ++ ".docx"
  let path := documentPath ++ target
  runBody
    [ Stmt.call Outcome.done [Effect.mkdir documentPath],
      Stmt.call (Check checkFailure false) [],
      Stmt.call Outcome.done [Effect.create path],
      Stmt.call (Check checkFailure false) [],
      Stmt.deferCall [Effect.close path],
      Stmt.call (Check checkFailure false) [],
      Stmt.call (buildOutcome (singleDocumentXml source)) [],
      Stmt.call (Check checkFailure false) [],
      Stmt.call (if zipCloseFails then Outcome.exits else Outcome.done) [],
      Stmt.call Outcome.done [],
      Stmt.deferCall [Effect.removeAll documentPath],
      Stmt.call Outcome.done [Effect.serve path] ] [] []

/-- Go function `Process`, as a run in which `mkdir` and `os.Create` succeed (so that
the `Check` calls of lines 122 and 128 are given nil). The `Check` of line 139 is
given the nil error of `regexp.Compile`; the `Check` of line 168 is given `err` as
the loop left it, that is the error of the last `json.Unmarshal`. -/
def Process (checkFailure : Outcome) (DOCUMENT_PATH id : String)
    (searchResult : SearchResult) (zipCloseFails : Bool) : ExportRun :=
  let documentPath := DOCUMENT_PATH ++ "/result/" ++ id
  let target := "/" ++ id ++ ".docx"
  let path := documentPath ++ target
  runBody
    [ Stmt.call Outcome.done [Effect.mkdir documentPath],
      Stmt.call (Check checkFailure false) [],
      Stmt.call Outcome.done [Effect.create path],
      Stmt.call (Check checkFailure false) [],
      Stmt.deferCall [Effect.close path],
      Stmt.call (Check checkFailure false) [],
      Stmt.call (buildOutcome (processBody searchResult)) [],
      Stmt.call (Check checkFailure (errAfterLoop searchResult)) [],
      Stmt.call (if zipCloseFails then Outcome.exits else Outcome.done) [],
      Stmt.call Outcome.done [],
      Stmt.deferCall [Effect.removeAll documentPath],
      Stmt.call Outcome.done [Effect.serve path] ] [] []

/-- Go function `CSV`, as a run in which `sql.GetProvincesAllUnits`, `mkdir` and
`os.Create` succeed (so that the `Check` calls of lines 240 and 244 are given nil);
the error of `json.Unmarshal` is not looked at after the loop. `headerWriteFails` tells whether writing the header returns an
error (`log.Fatalf`); a row that cannot be written is logged only. The function
deferred last is given `filename`. -/
def CSV.run (DOCUMENT_PATH : String) (env : ExportEnv) (voc : Vocabulary) (id : String)
    (searchResult : SearchResult) (headerWriteFails : Bool) : ExportRun :=
  let documentPath := DOCUMENT_PATH ++ "/result/" ++ id
  let target := "/" ++ id ++ ".tsv"
  let filename := documentPath ++ target
  runBody
    [ Stmt.call Outcome.done [],
      Stmt.call Outcome.done [Effect.mkdir documentPath],
      Stmt.call Outcome.done [Effect.create filename],
      Stmt.deferCall [Effect.close filename],
      Stmt.deferCall [Effect.flush],
      Stmt.call (buildOutcome (CSV env voc searchResult)) [],
      Stmt.call (if headerWriteFails then Outcome.exits else Outcome.done) [],
      Stmt.call Outcome.done [],
      Stmt.deferCall [Effect.removeAll filename],
      Stmt.call Outcome.done [Effect.serve filename] ] [] []

/-! ## Reference readings of the claims and example inputs -/

/-- The filter clauses of the compiled query, clause group by clause group, in the
order the compiler appends them. -/
def filterGroups (voc : Vocabulary) (p : SearchParams) : List (List Query) :=
  [ if p.years = [] then [] else
      [Query.terms "metadata.signature_year" (p.years.map GoValue.int)],
    if p.resources = [] then [] else
      [Query.terms "metadata.resource" (p.resources.map GoValue.str)],
    if p.province = "" then [] else
      [Query.terms "metadata.provinces.province" [GoValue.str p.province]],
    if p.district = [] then [] else
      [Query.terms "metadata.provinces.district" (p.district.map GoValue.int)],
    p.documentTypes.map (fun d =>
      Query.terms "metadata.document_type.keyword"
        [GoValue.str (voc.DocumentTypesReverse.index d)]),
    p.contractTypes.map (fun t =>
      Query.terms "metadata.contract_type.keyword"
        [GoValue.str (voc.ContractTypesReverse.index t)]),
    if p.governments = "" then [] else
      [Query.terms "metadata.government_entity.entity.keyword" [GoValue.str p.governments]],
    if p.companies = "" then [] else
      [Query.terms "metadata.company_name.keyword" [GoValue.str p.companies]] ]

/-- Vocabulary in which every table is empty. -/
def emptyVocabulary : Vocabulary :=
  { Resources := [], ContractTypes := [], DocumentTypes := [],
    DocumentTypesReverse := [], ContractTypesReverse := [] }

/-- Vocabulary with one entry in each table. -/
def sampleVocabulary : Vocabulary :=
  { Resources := [("gold", "Gold")], ContractTypes := [("psa", "Production sharing")],
    DocumentTypes := [("lic", "License")],
    DocumentTypesReverse := [("License", "lic")],
    ContractTypesReverse := [("Production sharing", "psa")] }

/-- Parameters with one resource and one annotation category, nothing else. -/
def goldRoyalties : SearchParams :=
  SetAnnotationCategories (NewSearchParams "" "" "" "gold" "" "" "") "royalties"

/-- Parameters with one resource and nothing else (`q` empty, no document type). -/
def goldOnly : SearchParams :=
  NewSearchParams "" "" "" "gold" "" "" ""

/-- Parameters in which nothing is set. -/
def nothingSet : SearchParams :=
  NewSearchParams "" "" "" "" "" "" ""

/-- A document that matches every terms clause and no other clause. -/
def matchesTermsOnly : Query → Bool
  | Query.terms _ _ => true
  | _ => false

/-- The integers of the comma-separated tokens of `s` that parse as integers, in
input order: the reading of the claim on year and district lists. -/
def parsedTokens (s : String) : List Int :=
  (Split s ',').filterMap (fun token =>
    if (Atoi token).2 = none then some (Atoi token).1 else none)

/-- Export surroundings with two named units. -/
def sampleEnv : ExportEnv :=
  { PUBLIC_URL := "https://public.example"
    units := [(1, "Arkhangai"), (5, "Erdenebulgan")]
    sprintOther := fun _ => "" }

/-- Metadata of a contract whose resource, contract type and document type have no
entry in the display tables of `sampleVocabulary`. -/
def unmappedMetadata : JObject :=
  [ ("contract_name", JSON.str "Oyu"),
    ("open_contracting_id", JSON.str "ocds-1"),
    ("provinces", JSON.arr []),
    ("government_entity", JSON.arr []),
    ("resource", JSON.arr [JSON.str "copper"]),
    ("contract_type", JSON.str "lease"),
    ("document_type", JSON.str "permit") ]

/-- A hit carrying `unmappedMetadata`. -/
def unmappedHit : Hit :=
  { Id := "h1", Source := some (JSON.obj [("metadata", JSON.obj unmappedMetadata)]) }

/-- A request with a single parameter, `year=2019,2020,abc`. -/
def yearsOnlyRequest (key : String) : String :=
  if key = "year" then "2019,2020,abc" else ""

/-- The six multi-value facet lists of the parameters: years, contract types,
resources, document types, districts, annotation categories. -/
def facetLists (p : SearchParams) :
    List Int × List String × List String × List String × List Int × List String :=
  (p.years, p.contractTypes, p.resources, p.documentTypes, p.district, p.annotationCategory)

/-- The parameters the handler builds for `yearsOnlyRequest`. -/
def yearsOnlyParams : SearchParams :=
  { q := "", years := [2019, 2020], resources := [], companies := "", governments := "",
    contractTypes := [], documentTypes := [], annotationCategory := [], annotated := false,
    province := "", district := [], size := 10, from_ := 0,
    sortBy := "metadata.signature_date", order := false }

/-- Segment with its leading and trailing whitespace removed: the reading of
"trimmed" in the claim on multi-value fields. -/
def trimSegment (s : String) : String :=
  String.mk ((s.data.dropWhile Char.isWhitespace).reverse.dropWhile Char.isWhitespace).reverse

/-- Segments of `s` split on `,`, each trimmed, the empty ones removed: the reading
of the claim on multi-value fields. -/
def trimmedSegments (s : String) : List String :=
  ((Split s ',').map trimSegment).filter (fun segment => segment ≠ "")

/-- The sort field and the sort order held by the parameters. -/
def sortState (p : SearchParams) : String × Bool := (p.sortBy, p.order)

/-- A request with a single parameter, `sort_by=population`, which is not one of the
sort fields `SetSortBy` knows. -/
def unknownSortRequest (key : String) : String :=
  if key = "sort_by" then "population" else ""

/-- The parameters the handler builds for `unknownSortRequest`. -/
def unknownSortParams : SearchParams :=
  { q := "", years := [], resources := [], companies := "", governments := "",
    contractTypes := [], documentTypes := [], annotationCategory := [], annotated := false,
    province := "", district := [], size := 10, from_ := 0, sortBy := "", order := false }

/-- A request with a single parameter, `is_asc=true` (no sort field). -/
def ascendingRequest (key : String) : String :=
  if key = "is_asc" then "true" else ""

/-- The parameters the handler builds for `ascendingRequest`. -/
def ascendingParams : SearchParams :=
  { q := "", years := [], resources := [], companies := "", governments := "",
    contractTypes := [], documentTypes := [], annotationCategory := [], annotated := false,
    province := "", district := [], size := 10, from_ := 0,
    sortBy := "metadata.signature_date", order := true }

/-- The ten decimal digit characters. -/
def decimalDigits : List Char := ['0', '1', '2', '3', '4', '5', '6', '7', '8', '9']

/-- The number that a text of decimal digits denotes when it is read left to right
from `acc` on, with no bound; `none` for a text with a character that is not a
digit. -/
def parseDigitsAux : Nat → List Char → Option Nat
  | acc, [] => some acc
  | acc, c :: cs =>
    match digitVal c with
    | some d => parseDigitsAux (acc * 10 + d) cs
    | none => none

/-- The number that a non-empty text of decimal digits denotes, with no bound. -/
def parseDigits : List Char → Option Nat
  | [] => none
  | cs => parseDigitsAux 0 cs

/-- A text without its leading sign character, if it has one. -/
def unsignedPart (s : String) : List Char :=
  match s.data with
  | '-' :: rest => rest
  | '+' :: rest => rest
  | cs => cs

/-- A text is a decimal integer when it is an optional sign followed by one or more
decimal digits: the reading of "numeric" input. -/
def isDecimalInteger (s : String) : Bool :=
  !(unsignedPart s).isEmpty && (unsignedPart s).all (fun c => decimalDigits.contains c)

/-- The text of a decimal integer: a sign (nothing, `+` or `-`) followed by the
characters of its digits, most significant first. -/
def decimalText (sign : List Char) (digits : List Nat) : String :=
  String.mk (sign ++ digits.map Nat.digitChar)

/-- The natural number that a list of decimal digits (most significant first)
denotes. -/
def decimalMagnitude (digits : List Nat) : Nat :=
  Nat.ofDigits 10 digits.reverse

/-- The integer that a sign and a list of decimal digits (most significant first)
denote. -/
def decimalNumber (sign : List Char) (digits : List Nat) : Int :=
  if sign = ['-'] then -((decimalMagnitude digits : Nat) : Int)
  else ((decimalMagnitude digits : Nat) : Int)

/-- A request with `size=abc` and `from=x1`, neither of which is a number. -/
def nonNumericPagingRequest (key : String) : String :=
  if key = "size" then "abc" else if key = "from" then "x1" else ""

/-- The parameters the handler builds for `nonNumericPagingRequest`. -/
def nonNumericPagingParams : SearchParams :=
  { q := "", years := [], resources := [], companies := "", governments := "",
    contractTypes := [], documentTypes := [], annotationCategory := [], annotated := false,
    province := "", district := [], size := 0, from_ := 0,
    sortBy := "metadata.signature_date", order := false }

/-- A request with a single parameter, `annotated=maybe`, not a boolean. -/
def malformedAnnotatedRequest (key : String) : String :=
  if key = "annotated" then "maybe" else ""

/-- A request with a single parameter, `is_asc=maybe`, not a boolean. -/
def malformedOrderRequest (key : String) : String :=
  if key = "is_asc" then "maybe" else ""

/-- A province/district item of the metadata carries the pair of id texts `pair`: it
is an object whose `province` and `district` members are these strings. -/
def carriesPair (item : JSON) (pair : String × String) : Prop :=
  ∃ u : JObject, item = JSON.obj u ∧ JObject.index u "province" = JSON.str pair.1 ∧
    JObject.index u "district" = JSON.str pair.2

/-- Text that the loop of lines 320-331 appends to the cell for a pair of id texts:
the two unit names and a `;` when the values `Atoi` returns for both ids, its errors
left aside, are greater than 0, nothing otherwise. -/
def pairContribution (env : ExportEnv) (pair : String × String) : String :=
  if 0 < (Atoi pair.1).1 ∧ 0 < (Atoi pair.2).1 then
    env.unit (Atoi pair.1).1 ++ " " ++ env.unit (Atoi pair.2).1 ++ ";"
  else ""

/-- Metadata with one province/district pair whose province id,
`9223372036854775808`, is beyond the `int` range. -/
def outOfRangePairMetadata : JObject :=
  [ ("contract_name", JSON.str "Oyu"),
    ("open_contracting_id", JSON.str "ocds-1"),
    ("provinces", JSON.arr
      [ JSON.obj [("province", JSON.str "9223372036854775808"), ("district", JSON.str "5")] ]),
    ("government_entity", JSON.arr []),
    ("resource", JSON.arr []) ]

/-- A hit carrying `outOfRangePairMetadata`. -/
def outOfRangePairHit : Hit :=
  { Id := "h4", Source := some (JSON.obj [("metadata", JSON.obj outOfRangePairMetadata)]) }

/-- Metadata with the province/district pairs `(0, 5)` and `(1, 5)`. -/
def twoPairsMetadata : JObject :=
  [ ("contract_name", JSON.str "Oyu"),
    ("open_contracting_id", JSON.str "ocds-1"),
    ("provinces", JSON.arr
      [ JSON.obj [("province", JSON.str "0"), ("district", JSON.str "5")],
        JSON.obj [("province", JSON.str "1"), ("district", JSON.str "5")] ]),
    ("government_entity", JSON.arr
      [ JSON.obj [("entity", JSON.str "Ministry")],
        JSON.obj [("entity", JSON.str "Province")] ]),
    ("resource", JSON.arr [JSON.str "gold"]) ]

/-- A hit carrying `twoPairsMetadata`. -/
def twoPairsHit : Hit :=
  { Id := "h2", Source := some (JSON.obj [("metadata", JSON.obj twoPairsMetadata)]) }

/-- A government item of the metadata carries the entity name `name`: it is an
object whose `entity` member is that string. -/
def carriesEntity (item : JSON) (name : String) : Prop :=
  ∃ g : JObject, item = JSON.obj g ∧ JObject.index g "entity" = JSON.str name

/-- The internal storage prefix that `CSV` rewrites (`find`, line 344). -/
def internalPrefix : String := "https://admin.iltodgeree.mn/app"

/-- The text `old` does not occur in `text` at any position before `k`. -/
def noOccurrenceBefore (old text : String) (k : Nat) : Prop :=
  ∀ i, i < k → old.data.isPrefixOf (text.data.drop i) = false

/-- Number of positions of `text` at which `old` occurs. -/
def occurrenceCount (old text : String) : Nat :=
  ((List.range text.length).filter (fun i => old.data.isPrefixOf (text.data.drop i))).length

/-- Metadata text with three links under the internal prefix. -/
def threeLinksText : String :=
  "see https://admin.iltodgeree.mn/app/1 https://admin.iltodgeree.mn/app/2 https://admin.iltodgeree.mn/app/3"

/-- A hit whose metadata text is `threeLinksText`. -/
def threeLinksHit : Hit :=
  { Id := "h3",
    Source := some (JSON.obj
      [ ("metadata", JSON.obj unmappedMetadata),
        ("metadata_string", JSON.str threeLinksText) ]) }

/-- The row that `csvRow` builds for `threeLinksHit` at position 0. -/
def threeLinksRow : List String :=
  [ "1.", "Oyu", ";", "", "", "", "", "", "", "",
    "https://public.example/api/contracts/download/h3/pdf", "ocds-1", "",
    "see https://public.example/storage/1 https://public.example/storage/2 https://admin.iltodgeree.mn/app/3" ]

/-- A list of texts, each followed by `;`: the form of the list cells of the
export. -/
def semicolonTerminated (items : List String) : String :=
  String.join (items.map (fun item => item ++ ";"))

/-- A hit of the `state_contracts` type with an empty source. -/
def emptyItem : ResultItem :=
  { Index := "contracts", TypeName := "state_contracts", Source := [] }

/-- A decoded body that lists seven hits. -/
def sevenHits : ResultWithHits :=
  { Total := 7,
    Hits := [emptyItem, emptyItem, emptyItem, emptyItem, emptyItem, emptyItem, emptyItem] }

/-- An index that answers every request with `sevenHits`. -/
def sevenHitsIndex (_ : IndexSearch) : IndexReply ResultWithHits :=
  IndexReply.answered false (some sevenHits)

/-- Rule of the index for the `size` of a search (Elasticsearch search API): the
response lists the first `size` of the hits found, 10 of them when the request
gives no size. `found` is the list of hits the index finds for a request. -/
def pagedIndex (found : IndexSearch → List ResultItem) (request : IndexSearch) :
    IndexReply ResultWithHits :=
  let size : Int :=
    match request.size with
    | some n => n
    | none => 10
  IndexReply.answered false
    (some { Total := (found request).length, Hits := (found request).take size.toNat })

/-- An index answers within the size asked for: a response to a request with a
non-negative `size` lists at most that many hits. -/
def respectsSize (search : IndexSearch → IndexReply ResultWithHits) : Prop :=
  ∀ (request : IndexSearch) (n : Int) (isError : Bool) (result : ResultWithHits),
    request.size = some n → 0 ≤ n →
      search request = IndexReply.answered isError (some result) →
        (result.Hits.length : Int) ≤ n

/-- An index that finds seven hits for every request. -/
def sevenFound (_ : IndexSearch) : List ResultItem :=
  [emptyItem, emptyItem, emptyItem, emptyItem, emptyItem, emptyItem, emptyItem]

/-- An index that answers every request with a total of 162 hits. -/
def totalIndex (_ : IndexSearch) : IndexReply Result :=
  IndexReply.answered false (some { Total := 162 })

/-- A decoded body with one complete annotation hit. -/
def oneAnnotationHit : ResultWithHits :=
  { Total := 1,
    Hits :=
      [ { Index := "contracts", TypeName := "annotations",
          Source :=
            [ ("contract_id", JSON.str "12"), ("open_contracting_id", JSON.str "ocds-1"),
              ("id", JSON.num 1), ("annotation_id", JSON.num 1),
              ("quote", JSON.str "q"), ("text", JSON.str "t"),
              ("cateogry", JSON.str "c"), ("category_key", JSON.str "k"),
              ("article_reference", JSON.str "a"), ("page_no", JSON.num 3),
              ("ranges", JSON.str "r"), ("cluster", JSON.str "General") ] } ] }

/-- A full text with a run of three newlines. -/
def threeNewlinesText : String := "a\n\n\nb"

/-- A full text whose newlines come in pairs, with one `&nbsp;`. -/
def pairedNewlinesText : String := "a\n\nb&nbsp;c\n\nd"

/-- A contract whose name holds `<` and `&`, with a two-paragraph text that holds
them too. -/
def markupContract : JObject :=
  [ ("metadata", JSON.obj [("contract_name", JSON.str "A<B&C")]),
    ("pdf_text_string", JSON.str "x<y\n\np&q") ]

/-- The metadata of `markupContract`. -/
def markupMetadata : JObject := [("contract_name", JSON.str "A<B&C")]

/-- A result whose only hit has a source that does not decode. -/
def undecodableResult : SearchResult :=
  { TotalHits := 1, Hits := [{ Id := "a", Source := none }] }

/-- A result with no hit. -/
def emptyResult : SearchResult := { TotalHits := 0, Hits := [] }

/-- A result with two hits: the source of the first does not decode, the second is
`markupContract`. -/
def undecodableFirstResult : SearchResult :=
  { TotalHits := 2,
    Hits := [ { Id := "a", Source := none },
              { Id := "b", Source := some (JSON.obj markupContract) } ] }

/-! ## Shared lemmas -/

theorem foldl_append_singleton {α β : Type} (f : α → β) (xs : List α) (acc : List β) :
    xs.foldl (fun out x => out ++ [f x]) acc = acc ++ xs.map f := by
  induction xs generalizing acc with
  | nil => simp
  | cons x xs ih => simp [ih]

theorem string_eq_empty_iff (s : String) : s = "" ↔ s.data = [] := by
  constructor
  · intro h; rw [h]
  · intro h; exact String.ext h

theorem string_length_pos_iff (s : String) : s.length > 0 ↔ s ≠ "" := by
  rw [Ne, string_eq_empty_iff, String.length, gt_iff_lt, List.length_pos]

theorem ite_foldl_eq {α β : Type} (f : α → β) (xs : List α) (acc : List β) :
    (if xs.length > 0 then xs.foldl (fun out x => out ++ [f x]) acc else acc)
      = acc ++ xs.map f := by
  cases xs with
  | nil => simp
  | cons x xs => simp [foldl_append_singleton]

theorem ite_filter_eq (b : BoolQuery) (fs : List Query) :
    (if fs.length > 0 then b.Filter fs else b) = b.Filter fs := by
  cases fs with
  | nil => simp [BoolQuery.Filter]
  | cons x xs => simp

theorem ite_should_eq (b : BoolQuery) (fs : List Query) :
    (if fs.length > 0 then b.Should fs else b) = b.Should fs := by
  cases fs with
  | nil => simp [BoolQuery.Should]
  | cons x xs => simp

theorem ite_append_eq {α : Type} (c : Prop) [Decidable c] (acc xs : List α) :
    (if c then acc ++ xs else acc) = acc ++ (if c then xs else []) := by
  split <;> simp

theorem except_bind_eq_ok {ε α β : Type} (x : Except ε α) (f : α → Except ε β) (b : β) :
    (x >>= f) = Except.ok b ↔ ∃ a, x = Except.ok a ∧ f a = Except.ok b := by
  cases x with
  | error e => simp [bind, Except.bind]
  | ok a => simp [bind, Except.bind]

/-- The filter clauses `SearchV2` hands to `Filter` are the clause groups in order. -/
theorem SearchV2_filterClauses (voc : Vocabulary) (p : SearchParams) :
    (SearchV2 voc p).query.filterClauses = (filterGroups voc p).flatten := by
  simp only [SearchV2, ite_foldl_eq, ite_filter_eq, ite_should_eq, filterGroups, ite_append_eq]
  cases hq : decide (p.q ≠ "") <;> simp at hq <;>
  simp [hq, BoolQuery.Filter, BoolQuery.Should, BoolQuery.Must, NewBoolQuery,
    string_length_pos_iff, List.length_pos, List.length_eq_zero]

/-- The should-clauses are one phrase clause per annotation category. -/
theorem SearchV2_shouldClauses (voc : Vocabulary) (p : SearchParams) :
    (SearchV2 voc p).query.shouldClauses
      = p.annotationCategory.map (fun t =>
          Query.matchPhrase "annotations_category" (GoValue.str t)) := by
  simp only [SearchV2, ite_foldl_eq, ite_filter_eq, ite_should_eq, ite_append_eq]
  cases hq : decide (p.q ≠ "") <;> simp at hq <;>
  simp [hq, BoolQuery.Filter, BoolQuery.Should, BoolQuery.Must, NewBoolQuery]

/-- The must-clauses: nothing for an empty `q`, else the one full-text clause. -/
theorem SearchV2_mustClauses (voc : Vocabulary) (p : SearchParams) :
    (SearchV2 voc p).query.mustClauses
      = if p.q = "" then []
        else [Query.simpleQueryString p.q ftsFields (some "AND")] := by
  simp only [SearchV2, ite_foldl_eq, ite_filter_eq, ite_should_eq, ite_append_eq]
  cases hq : decide (p.q ≠ "") <;> simp at hq <;>
  simp [hq, BoolQuery.Filter, BoolQuery.Should, BoolQuery.Must, NewBoolQuery,
    SimpleQueryStringQuery.toQuery, SimpleQueryStringQuery.DefaultOperator, ftsFields,
    SimpleQueryStringQuery.Field, NewSimpleQueryStringQuery]

/-! ## C1: number of filter clauses -/

/-- C2, as stated, fails: with a resource filter and one annotation category, a
document that matches the resource clause and no phrase clause satisfies the
compiled query. -/
theorem should_required_counterexample :
    goldRoyalties.annotationCategory ≠ [] ∧
    (SearchV2 sampleVocabulary
      goldRoyalties).query.matches matchesTermsOnly = true ∧
    (SearchV2 sampleVocabulary
      goldRoyalties).query.shouldClauses.any matchesTermsOnly = false := by
  decide

/-- C2, amended: with at least one annotation category, a document satisfies the
compiled query exactly when it matches the full-text clause (if any) and every
filter clause, and, only when `q` is empty and there is no filter clause, also at
least one of the phrase clauses. -/
theorem should_required_only_alone (voc : Vocabulary) (p : SearchParams)
    (ev : Query → Bool) (hcat : p.annotationCategory ≠ []) :
    ((SearchV2 voc p).query.matches ev = true ↔
      (∀ c ∈ (SearchV2 voc p).query.mustClauses, ev c = true) ∧
      (∀ c ∈ (SearchV2 voc p).query.filterClauses, ev c = true) ∧
      (p.q = "" ∧ (SearchV2 voc p).query.filterClauses = [] →
        ∃ t ∈ p.annotationCategory,
          ev (Query.matchPhrase "annotations_category" (GoValue.str t)) = true)) := by
  have hs := SearchV2_shouldClauses voc p
  have hm := SearchV2_mustClauses voc p
  by_cases hq : p.q = ""
  · rw [if_pos hq] at hm
    by_cases hf : (SearchV2 voc p).query.filterClauses = []
    · simp [BoolQuery.matches, hs, hm, hf, hq, hcat]
    · simp [BoolQuery.matches, hs, hm, hf, hq, hcat]
  · rw [if_neg hq] at hm
    simp [BoolQuery.matches, hs, hm, hq, hcat]

/-- Witness for C2 (amended): a resource filter with one annotation category. -/
theorem should_required_only_alone_witness :
    goldRoyalties.annotationCategory ≠ [] ∧
    ((SearchV2 sampleVocabulary goldRoyalties).query.matches
          matchesTermsOnly = true ↔
      (∀ c ∈ (SearchV2 sampleVocabulary goldRoyalties).query.mustClauses,
          matchesTermsOnly c = true) ∧
      (∀ c ∈ (SearchV2 sampleVocabulary goldRoyalties).query.filterClauses,
          matchesTermsOnly c = true) ∧
      (goldRoyalties.q = "" ∧
        (SearchV2 sampleVocabulary goldRoyalties).query.filterClauses = [] →
        ∃ t ∈ goldRoyalties.annotationCategory,
          matchesTermsOnly (Query.matchPhrase "annotations_category" (GoValue.str t))
            = true)) :=
  ⟨by decide, should_required_only_alone sampleVocabulary _ matchesTermsOnly (by decide)⟩

/-! ## C3: nothing set -/

/-- C3: with an empty text query and every filter unset, the bool query has no
must-clause, no filter clause and no should-clause, and every document satisfies
it. -/
theorem nothing_set_matches_all (voc : Vocabulary) (p : SearchParams)
    (hq : p.q = "") (hy : p.years = []) (hr : p.resources = []) (hp : p.province = "")
    (hd : p.district = []) (hdt : p.documentTypes = []) (hct : p.contractTypes = [])
    (hac : p.annotationCategory = []) (hg : p.governments = "") (hc : p.companies = "") :
    (SearchV2 voc p).query.mustClauses = [] ∧
    (SearchV2 voc p).query.filterClauses = [] ∧
    (SearchV2 voc p).query.shouldClauses = [] ∧
    ∀ ev : Query → Bool, (SearchV2 voc p).query.matches ev = true := by
  have hm : (SearchV2 voc p).query.mustClauses = [] := by
    rw [SearchV2_mustClauses, if_pos hq]
  have hf : (SearchV2 voc p).query.filterClauses = [] := by
    rw [SearchV2_filterClauses]
    simp [filterGroups, hy, hr, hp, hd, hdt, hct, hg, hc]
  have hs : (SearchV2 voc p).query.shouldClauses = [] := by
    rw [SearchV2_shouldClauses, hac]; rfl
  refine ⟨hm, hf, hs, ?_⟩
  intro ev
  simp [BoolQuery.matches, hm, hf, hs]

/-- Witness for C3: the parameters built from seven empty strings. -/
theorem nothing_set_matches_all_witness :
    (SearchV2 sampleVocabulary nothingSet).query.mustClauses = [] ∧
    (SearchV2 sampleVocabulary nothingSet).query.filterClauses = [] ∧
    (SearchV2 sampleVocabulary nothingSet).query.shouldClauses = [] ∧
    ∀ ev : Query → Bool, (SearchV2 sampleVocabulary nothingSet).query.matches ev = true :=
  nothing_set_matches_all sampleVocabulary nothingSet (by decide) (by decide) (by decide)
    (by decide) (by decide) (by decide) (by decide) (by decide) (by decide) (by decide)

/-! ## C4: a resource filter alone -/

/-- C4, evaluated on the code: with `q` empty, resources non-empty and every other
filter unset, the compiled query has exactly one filter clause, the terms clause on
the resource field with the given values, and no must-clause; the request still
carries a highlight directive (the two tags, no field). -/
theorem resource_only_request (voc : Vocabulary) (p : SearchParams)
    (hq : p.q = "") (hr : p.resources ≠ []) (hy : p.years = []) (hp : p.province = "")
    (hd : p.district = []) (hdt : p.documentTypes = []) (hct : p.contractTypes = [])
    (hg : p.governments = "") (hc : p.companies = "") :
    (SearchV2 voc p).query.filterClauses
      = [Query.terms "metadata.resource" (p.resources.map GoValue.str)] ∧
    (SearchV2 voc p).query.mustClauses = [] ∧
    (SearchV2 voc p).highlight
      = some { fields := [], preTags := ["<strong>"], postTags := ["</strong>"],
               fragmentSize := none, numOfFragments := none } := by
  refine ⟨?_, ?_, ?_⟩
  · rw [SearchV2_filterClauses]
    simp [filterGroups, hy, hr, hp, hd, hdt, hct, hg, hc]
  · rw [SearchV2_mustClauses, if_pos hq]
  · simp [SearchV2, hq, NewHighlight, Highlight.PreTags, Highlight.PostTags]

/-- Witness for C4: `q = ""`, `resources = ["gold"]`, no document type. -/
theorem resource_only_request_witness :
    (SearchV2 sampleVocabulary goldOnly).query.filterClauses
      = [Query.terms "metadata.resource" (goldOnly.resources.map GoValue.str)] ∧
    (SearchV2 sampleVocabulary goldOnly).query.mustClauses = [] ∧
    (SearchV2 sampleVocabulary goldOnly).highlight
      = some { fields := [], preTags := ["<strong>"], postTags := ["</strong>"],
               fragmentSize := none, numOfFragments := none } :=
  resource_only_request sampleVocabulary goldOnly (by decide) (by decide) (by decide)
    (by decide) (by decide) (by decide) (by decide) (by decide) (by decide)

/-! ## C5: the full-text clause -/

/-- C5: the compiled query has a must-clause exactly when `q` is non-empty, and then
it is the single simple-query-string clause carrying `q`, with default operator
`AND`, over one fixed list of fourteen fields. -/
theorem must_clause_iff_text (voc : Vocabulary) (p : SearchParams) :
    (SearchV2 voc p).query.mustClauses
      = if p.q = "" then []
        else [Query.simpleQueryString p.q
          [ "metadata.contract_name", "metadata.project_title",
            "metadata.open_contracting_id", "metadata.country_code",
            "metadata.country_name", "metadata.resource", "metadata.resource_raw",
            "metadata.language", "metadata.company_name", "metadata.type_of_contract",
            "metadata.show_pdf_text", "metadata.category", "metadata_string",
            "pdf_text_string" ]
          (some "AND")] := by
  rw [SearchV2_mustClauses]; rfl

/-! ## C6: highlighting -/

/-- C6, evaluated on the code: the request always carries a highlight directive.
For a non-empty `q` it names exactly `pdf_text_string` and `metadata_string`, with
fragment size 50 and 2 fragments; for an empty `q` it is still attached, with the
two tags and no field. -/
theorem highlight_always_attached (voc : Vocabulary) (p : SearchParams) :
    (SearchV2 voc p).highlight
      = some (if p.q = "" then
          { fields := [], preTags := ["<strong>"], postTags := ["</strong>"],
            fragmentSize := none, numOfFragments := none }
        else
          { fields := ["pdf_text_string", "metadata_string"],
            preTags := ["<strong>"], postTags := ["</strong>"],
            fragmentSize := some 50, numOfFragments := some 2 }) := by
  by_cases hq : p.q = ""
  · simp [SearchV2, hq, NewHighlight, Highlight.PreTags, Highlight.PostTags]
  · simp [SearchV2, hq, NewHighlight, Highlight.PreTags, Highlight.PostTags,
      highlightFields, Highlight.Field, Highlight.FragmentSize, Highlight.NumOfFragments]

/-! ## C7: labels without a reverse mapping -/

/-- C7, as stated, fails: for the document type `Permit` and the contract type
`Lease`, which the reverse tables do not map, no filter clause carries the label;
the clauses carry the empty string. -/
theorem unmapped_label_counterexample :
    sampleVocabulary.DocumentTypesReverse.lookup "Permit" = none ∧
    sampleVocabulary.ContractTypesReverse.lookup "Lease" = none ∧
    (SearchV2 sampleVocabulary
      (NewSearchParams "" "" "Lease" "" "" "" "Permit")).query.filterClauses
      = [ Query.terms "metadata.document_type.keyword" [GoValue.str ""],
          Query.terms "metadata.contract_type.keyword" [GoValue.str ""] ] ∧
    Query.terms "metadata.document_type.keyword" [GoValue.str "Permit"] ∉
      (SearchV2 sampleVocabulary
        (NewSearchParams "" "" "Lease" "" "" "" "Permit")).query.filterClauses ∧
    Query.terms "metadata.contract_type.keyword" [GoValue.str "Lease"] ∉
      (SearchV2 sampleVocabulary
        (NewSearchParams "" "" "Lease" "" "" "" "Permit")).query.filterClauses := by
  decide

/-- C7, amended: for every document-type label and every contract-type label that
has no entry in the reverse table, the filter clause built for it carries the empty
string (the zero value of the table lookup) as the value to match. -/
theorem unmapped_label_gives_empty (voc : Vocabulary) (p : SearchParams) (label : String) :
    (label ∈ p.documentTypes → voc.DocumentTypesReverse.lookup label = none →
      Query.terms "metadata.document_type.keyword" [GoValue.str ""]
        ∈ (SearchV2 voc p).query.filterClauses) ∧
    (label ∈ p.contractTypes → voc.ContractTypesReverse.lookup label = none →
      Query.terms "metadata.contract_type.keyword" [GoValue.str ""]
        ∈ (SearchV2 voc p).query.filterClauses) := by
  constructor
  · intro hmem hnone
    rw [SearchV2_filterClauses]
    simp only [filterGroups, List.flatten, List.mem_append, List.mem_map]
    refine Or.inr (Or.inr (Or.inr (Or.inr (Or.inl ⟨label, hmem, ?_⟩))))
    simp [GoMap.index, hnone]
  · intro hmem hnone
    rw [SearchV2_filterClauses]
    simp only [filterGroups, List.flatten, List.mem_append, List.mem_map]
    refine Or.inr (Or.inr (Or.inr (Or.inr (Or.inr (Or.inl ⟨label, hmem, ?_⟩)))))
    simp [GoMap.index, hnone]

/-- Witness for C7 (amended): the unmapped labels `Permit` and `Lease`. -/
theorem unmapped_label_gives_empty_witness :
    Query.terms "metadata.document_type.keyword" [GoValue.str ""]
      ∈ (SearchV2 sampleVocabulary
          (NewSearchParams "" "" "Lease" "" "" "" "Permit")).query.filterClauses ∧
    Query.terms "metadata.contract_type.keyword" [GoValue.str ""]
      ∈ (SearchV2 sampleVocabulary
          (NewSearchParams "" "" "Lease" "" "" "" "Permit")).query.filterClauses :=
  ⟨(unmapped_label_gives_empty sampleVocabulary
      (NewSearchParams "" "" "Lease" "" "" "" "Permit") "Permit").1 (by decide) (by decide),
   (unmapped_label_gives_empty sampleVocabulary
      (NewSearchParams "" "" "Lease" "" "" "" "Permit") "Lease").2 (by decide) (by decide)⟩

/-! ## C8: raw values without a display label in the export -/

theorem string_join_cons (x : String) (xs : List String) :
    String.join (x :: xs) = x ++ String.join xs := by
  apply String.ext
  simp [String.data_join]

theorem resourcesLoop_strings (voc : Vocabulary) (raws : List String) (acc : String) :
    resourcesLoop voc acc (raws.map JSON.str)
      = Except.ok (acc ++ String.join (raws.map (fun r => voc.Resources.index r ++ ";"))) := by
  induction raws generalizing acc with
  | nil => simp [resourcesLoop, String.join]
  | cons r raws ih =>
    have step : resourcesLoop voc acc ((r :: raws).map JSON.str)
        = resourcesLoop voc (acc ++ (voc.Resources.index r ++ ";")) (raws.map JSON.str) := rfl
    rw [step, ih, List.map_cons, string_join_cons, String.append_assoc]

/-- The row of a hit that is exported, cell by cell. -/
theorem csvRow_cells (env : ExportEnv) (voc : Vocabulary) (index : Nat) (hit : Hit)
    (contract metadata : JObject) (cells : List String)
    (hsrc : hit.Source = some (JSON.obj contract))
    (hmeta : JObject.index contract "metadata" = JSON.obj metadata)
    (hrow : csvRow env voc index hit = Except.ok cells) :
    ∃ provinces governments resources contractName ocid metadataString items,
      JObject.index metadata "resource" = JSON.arr items ∧
      resourcesLoop voc "" items = Except.ok resources ∧
      cells =
        [ Itoa (index + 1) ++ ".", contractName, resources,
          voc.ContractTypes.index
            (convertToString env (JObject.index metadata "contract_type")),
          convertToString env (JObject.index metadata "signature_date"),
          voc.DocumentTypes.index
            (convertToString env (JObject.index metadata "document_type")),
          provinces, governments,
          convertToString env (JObject.index metadata "company_name"),
          convertToString env (JObject.index metadata "project_title"),
          env.PUBLIC_URL ++ "/api/contracts/download/" ++ hit.Id ++ "/pdf",
          ocid,
          convertToString env (JObject.index contract "annotations_string"),
          metadataString ] := by
  unfold csvRow at hrow
  simp only [hsrc, hmeta] at hrow
  simp only [except_bind_eq_ok] at hrow
  obtain ⟨a, ha, hrow⟩ := hrow
  cases ha
  rw [hmeta] at hrow
  simp only [except_bind_eq_ok] at hrow
  obtain ⟨y, hy, items1, _, provinces, _, items2, _, governments, _, items, hitems, resources,
    hres, contractName, _, ocid, _, hcells⟩ := hrow
  cases hy
  cases hcells
  refine ⟨provinces, governments, resources, contractName, ocid, _, items, ?_, hres, rfl⟩
  revert hitems
  cases JObject.index metadata "resource" <;> simp [JSON.assertArray]


/-- C8, as stated, fails: the resource `copper`, the contract type `lease` and the
document type `permit` have no display label, and the exported row shows `;` in the
resource cell and the empty string in the contract-type and document-type cells,
not the raw values. -/
theorem unmapped_raw_counterexample :
    sampleVocabulary.Resources.lookup "copper" = none ∧
    sampleVocabulary.ContractTypes.lookup "lease" = none ∧
    sampleVocabulary.DocumentTypes.lookup "permit" = none ∧
    (csvRow sampleEnv sampleVocabulary 0 unmappedHit).toOption
      = some [ "1.", "Oyu", ";", "", "", "", "", "", "", "",
               "https://public.example/api/contracts/download/h1/pdf", "ocds-1", "", "" ] := by
  decide

/-- C8, amended: in the row of an exported hit, a raw contract-type or document-type
value without an entry in the display table gives the empty cell, and the resource
cell is the concatenation, over the raw resource values, of the display label
followed by `;`, the label of a value without an entry being empty. -/
theorem unmapped_raw_exported_empty (env : ExportEnv) (voc : Vocabulary) (index : Nat)
    (hit : Hit) (contract metadata : JObject) (cells : List String)
    (hsrc : hit.Source = some (JSON.obj contract))
    (hmeta : JObject.index contract "metadata" = JSON.obj metadata)
    (hrow : csvRow env voc index hit = Except.ok cells) :
    (∀ raw, JObject.index metadata "contract_type" = JSON.str raw →
      voc.ContractTypes.lookup raw = none → cells[3]? = some "") ∧
    (∀ raw, JObject.index metadata "document_type" = JSON.str raw →
      voc.DocumentTypes.lookup raw = none → cells[5]? = some "") ∧
    (∀ raws : List String, JObject.index metadata "resource" = JSON.arr (raws.map JSON.str) →
      cells[2]? = some (String.join (raws.map (fun raw =>
        (match voc.Resources.lookup raw with
          | some label => label
          | none => "") ++ ";")))) := by
  obtain ⟨provinces, governments, resources, contractName, ocid, metadataString, items,
    hitems, hres, hcells⟩ := csvRow_cells env voc index hit contract metadata cells hsrc hmeta hrow
  subst hcells
  refine ⟨?_, ?_, ?_⟩
  · intro raw hraw hnone
    simp [hraw, convertToString, GoMap.index, hnone]
  · intro raw hraw hnone
    simp [hraw, convertToString, GoMap.index, hnone]
  · intro raws hraws
    rw [hraws] at hitems
    cases hitems
    rw [resourcesLoop_strings] at hres
    cases hres
    simp [GoMap.index]

/-- Witness for C8 (amended): the hit with `copper`, `lease` and `permit`. -/
theorem unmapped_raw_exported_empty_witness :
    [ "1.", "Oyu", ";", "", "", "", "", "", "", "",
      "https://public.example/api/contracts/download/h1/pdf", "ocds-1", "", "" ][3]?
      = some "" ∧
    [ "1.", "Oyu", ";", "", "", "", "", "", "", "",
      "https://public.example/api/contracts/download/h1/pdf", "ocds-1", "", "" ][5]?
      = some "" ∧
    [ "1.", "Oyu", ";", "", "", "", "", "", "", "",
      "https://public.example/api/contracts/download/h1/pdf", "ocds-1", "", "" ][2]?
      = some (String.join (["copper"].map (fun raw =>
          (match sampleVocabulary.Resources.lookup raw with
            | some label => label
            | none => "") ++ ";"))) :=
  ⟨(unmapped_raw_exported_empty sampleEnv sampleVocabulary 0 unmappedHit
      [("metadata", JSON.obj unmappedMetadata)] unmappedMetadata _ rfl rfl rfl).1
      "lease" rfl rfl,
   (unmapped_raw_exported_empty sampleEnv sampleVocabulary 0 unmappedHit
      [("metadata", JSON.obj unmappedMetadata)] unmappedMetadata _ rfl rfl rfl).2.1
      "permit" rfl rfl,
   (unmapped_raw_exported_empty sampleEnv sampleVocabulary 0 unmappedHit
      [("metadata", JSON.obj unmappedMetadata)] unmappedMetadata _ rfl rfl rfl).2.2
      ["copper"] rfl⟩

/-! ## C9 and C10: comma-separated facets -/

theorem appendParsedInts_eq (parts : List String) (acc : List Int) :
    appendParsedInts acc parts
      = acc ++ parts.filterMap (fun token =>
          if (Atoi token).2 = none then some (Atoi token).1 else none) := by
  induction parts generalizing acc with
  | nil => simp [appendParsedInts]
  | cons part parts ih =>
    have step : appendParsedInts acc (part :: parts)
        = appendParsedInts (match (Atoi part).2 with
            | some _ => acc
            | none => acc ++ [(Atoi part).1]) parts := rfl
    rw [step, ih]
    cases h : (Atoi part).2 <;> simp [List.filterMap_cons, h]

theorem parsedTokens_empty : parsedTokens "" = [] := by decide

/-- C9: for every input string, the years list of `NewSearchParams` and the district
list of `SetDistrict` are the integers of the comma-separated tokens that `Atoi`
accepts, in input order, the other tokens being dropped one by one; in particular
`2019,2020,abc` gives `[2019, 2020]` for both. -/
theorem years_and_district_parsed :
    (∀ q years contractTypes resources companies governments documentTypes : String,
      (NewSearchParams q years contractTypes resources companies governments
        documentTypes).years = parsedTokens years) ∧
    (∀ (s : SearchParams) (district : String),
      (SetDistrict s district).district = parsedTokens district) ∧
    (NewSearchParams "" "2019,2020,abc" "" "" "" "" "").years = [2019, 2020] ∧
    (SetDistrict nothingSet "2019,2020,abc").district = [2019, 2020] := by
  refine ⟨?_, ?_, by decide, by decide⟩
  · intro q years contractTypes resources companies governments documentTypes
    by_cases h : years = ""
    · subst h
      rw [parsedTokens_empty]
      simp [NewSearchParams]
    · simp [NewSearchParams, h, appendParsedInts_eq, parsedTokens]
  · intro s district
    by_cases h : district = ""
    · subst h
      rw [parsedTokens_empty]
      simp [SetDistrict]
    · simp [SetDistrict, h, appendParsedInts_eq, parsedTokens]

theorem facetLists_SetSize (s : SearchParams) (size : String) :
    facetLists (SetSize s size) = facetLists s := by
  unfold SetSize; split <;> rfl

theorem facetLists_SetFrom (s : SearchParams) (fromArg : String) :
    facetLists (SetFrom s fromArg) = facetLists s := by
  unfold SetFrom; split <;> rfl

theorem facetLists_SetSortBy (s : SearchParams) (sortBy : String) :
    facetLists (SetSortBy s sortBy) = facetLists s := by
  unfold SetSortBy; split_ifs <;> rfl

theorem facetLists_SetOrder (s : SearchParams) (order : String) :
    facetLists (SetOrder s order) = facetLists s := by
  unfold SetOrder; split <;> rfl

theorem facetLists_SetAnnotated (s : SearchParams) (annotated : Bool) :
    facetLists (SetAnnotated s annotated) = facetLists s := rfl

/-- The facet lists of the parameters the handler hands on are those left by
`NewSearchParams`, `SetProvince`, `SetDistrict` and `SetAnnotationCategories`. -/
theorem handler_facetLists (query : String → String) (p : SearchParams)
    (h : searchHandlerParams query = Except.ok p) :
    facetLists p = facetLists
      (if query "annotation_category" ≠ "" then
        SetAnnotationCategories
          (if query "district" ≠ "" then
            SetDistrict
              (if query "province" ≠ "" then
                SetProvince (NewSearchParams (query "q") (query "year") (query "contract_type")
                  (query "resource") (query "company") (query "government")
                  (query "document_type")) (query "province")
               else NewSearchParams (query "q") (query "year") (query "contract_type")
                  (query "resource") (query "company") (query "government")
                  (query "document_type")) (query "district")
           else
              (if query "province" ≠ "" then
                SetProvince (NewSearchParams (query "q") (query "year") (query "contract_type")
                  (query "resource") (query "company") (query "government")
                  (query "document_type")) (query "province")
               else NewSearchParams (query "q") (query "year") (query "contract_type")
                  (query "resource") (query "company") (query "government")
                  (query "document_type"))) (query "annotation_category")
       else
          (if query "district" ≠ "" then
            SetDistrict
              (if query "province" ≠ "" then
                SetProvince (NewSearchParams (query "q") (query "year") (query "contract_type")
                  (query "resource") (query "company") (query "government")
                  (query "document_type")) (query "province")
               else NewSearchParams (query "q") (query "year") (query "contract_type")
                  (query "resource") (query "company") (query "government")
                  (query "document_type")) (query "district")
           else
              (if query "province" ≠ "" then
                SetProvince (NewSearchParams (query "q") (query "year") (query "contract_type")
                  (query "resource") (query "company") (query "government")
                  (query "document_type")) (query "province")
               else NewSearchParams (query "q") (query "year") (query "contract_type")
                  (query "resource") (query "company") (query "government")
                  (query "document_type")))) := by
  unfold searchHandlerParams at h
  simp only [except_bind_eq_ok] at h
  obtain ⟨a, ha, h⟩ := h
  cases h
  rw [facetLists_SetOrder, facetLists_SetSortBy, facetLists_SetFrom, facetLists_SetSize]
  split at ha
  · split at ha
    · cases ha
    · cases ha
      rw [facetLists_SetAnnotated]
  · cases ha
    rfl

/-- C10: an empty raw string for a multi-value facet leaves that facet's list empty.
In `NewSearchParams` this holds for years, contract types, resources and document
types; `SetDistrict` on the empty string gives no district; freshly built parameters
have no district and no annotation category, and `SetAnnotationCategories` on the
empty string adds none; hence in the parameters the `/api/search` handler builds,
each of the six facets whose request parameter is empty has the empty list. -/
theorem empty_facet_gives_empty_list :
    (∀ q contractTypes resources companies governments documentTypes : String,
      (NewSearchParams q "" contractTypes resources companies governments
        documentTypes).years = []) ∧
    (∀ q years resources companies governments documentTypes : String,
      (NewSearchParams q years "" resources companies governments
        documentTypes).contractTypes = []) ∧
    (∀ q years contractTypes companies governments documentTypes : String,
      (NewSearchParams q years contractTypes "" companies governments
        documentTypes).resources = []) ∧
    (∀ q years contractTypes resources companies governments : String,
      (NewSearchParams q years contractTypes resources companies governments
        "").documentTypes = []) ∧
    (∀ s : SearchParams, (SetDistrict s "").district = []) ∧
    (∀ q years contractTypes resources companies governments documentTypes : String,
      (NewSearchParams q years contractTypes resources companies governments
        documentTypes).district = [] ∧
      (NewSearchParams q years contractTypes resources companies governments
        documentTypes).annotationCategory = [] ∧
      (SetAnnotationCategories (NewSearchParams q years contractTypes resources companies
        governments documentTypes) "").annotationCategory = []) ∧
    (∀ (query : String → String) (p : SearchParams),
      searchHandlerParams query = Except.ok p →
        (query "year" = "" → p.years = []) ∧
        (query "contract_type" = "" → p.contractTypes = []) ∧
        (query "resource" = "" → p.resources = []) ∧
        (query "document_type" = "" → p.documentTypes = []) ∧
        (query "district" = "" → p.district = []) ∧
        (query "annotation_category" = "" → p.annotationCategory = [])) := by
  refine ⟨?_, ?_, ?_, ?_, ?_, ?_, ?_⟩
  · intros; simp [NewSearchParams]
  · intros; simp [NewSearchParams]
  · intros; simp [NewSearchParams]
  · intros; simp [NewSearchParams]
  · intros; simp [SetDistrict]
  · intros; simp [NewSearchParams, SetAnnotationCategories]
  · intro query p h
    have hf := handler_facetLists query p h
    by_cases hc : query "annotation_category" = "" <;>
      by_cases hd : query "district" = "" <;>
      by_cases hp : query "province" = "" <;>
      simp [hc, hd, hp, facetLists, SetAnnotationCategories, SetDistrict, SetProvince]
        at hf <;>
      obtain ⟨h1, h2, h3, h4, h5, h6⟩ := hf <;>
      refine ⟨?_, ?_, ?_, ?_, ?_, ?_⟩ <;> intro he <;>
      simp_all [NewSearchParams]

/-- Witness for C10: the request `year=2019,2020,abc`, whose other five facets are
empty. -/
theorem empty_facet_gives_empty_list_witness :
    yearsOnlyParams.contractTypes = [] ∧ yearsOnlyParams.resources = [] ∧
    yearsOnlyParams.documentTypes = [] ∧ yearsOnlyParams.district = [] ∧
    yearsOnlyParams.annotationCategory = [] :=
  ⟨(empty_facet_gives_empty_list.2.2.2.2.2.2 yearsOnlyRequest yearsOnlyParams rfl).2.1 rfl,
   (empty_facet_gives_empty_list.2.2.2.2.2.2 yearsOnlyRequest yearsOnlyParams rfl).2.2.1 rfl,
   (empty_facet_gives_empty_list.2.2.2.2.2.2 yearsOnlyRequest yearsOnlyParams rfl).2.2.2.1 rfl,
   (empty_facet_gives_empty_list.2.2.2.2.2.2 yearsOnlyRequest yearsOnlyParams rfl).2.2.2.2.1
     rfl,
   (empty_facet_gives_empty_list.2.2.2.2.2.2 yearsOnlyRequest yearsOnlyParams rfl).2.2.2.2.2
     rfl⟩

/-! ## C11: segments of a multi-value field -/

theorem splitChars_ne_nil (sep : Char) (cs : List Char) : splitChars sep cs ≠ [] := by
  cases cs with
  | nil => simp [splitChars]
  | cons c cs =>
    unfold splitChars
    split
    · simp
    · split <;> simp

theorem splitChars_intercalate (sep : Char) (cs : List Char) :
    [sep].intercalate (splitChars sep cs) = cs := by
  induction cs with
  | nil => simp [splitChars, List.intercalate]
  | cons c cs ih =>
    unfold splitChars
    split
    · rename_i h
      have hne := splitChars_ne_nil sep cs
      cases hs : splitChars sep cs with
      | nil => exact absurd hs hne
      | cons piece pieces =>
        rw [hs] at ih
        simp [List.intercalate, List.intersperse] at ih ⊢
        exact ⟨h.symm, ih⟩
    · split
      · rename_i hs
        exact absurd hs (splitChars_ne_nil sep cs)
      · rename_i piece pieces hs
        rw [hs] at ih
        cases pieces with
        | nil => simp [List.intercalate, List.intersperse] at ih ⊢; exact ih
        | cons p ps => simp [List.intercalate, List.intersperse] at ih ⊢; exact ih

theorem splitChars_no_sep (sep : Char) (cs : List Char) :
    ∀ piece ∈ splitChars sep cs, sep ∉ piece := by
  induction cs with
  | nil => simp [splitChars]
  | cons c cs ih =>
    unfold splitChars
    split
    · intro piece hp
      simp at hp
      rcases hp with h | h
      · simp [h]
      · exact ih piece h
    · rename_i hc
      split
      · simp [Ne.symm hc]
      · rename_i piece pieces hs
        rw [hs] at ih
        intro p hp
        simp at hp
        rcases hp with h | h
        · subst h
          have := ih piece (by simp)
          simp [Ne.symm hc, this]
        · exact ih p (by simp [h])

theorem appendParts_eq (parts acc : List String) : appendParts acc parts = acc ++ parts := by
  unfold appendParts
  rw [foldl_append_singleton (fun part => part) parts acc]
  simp

/-- C11, as stated, fails: `a,,b` gives the three segments `a`, the empty string and
`b`, and ` gold` keeps its leading blank, whereas trimming and dropping empty
segments would give `[a, b]` and `[gold]`. -/
theorem segments_trimmed_counterexample :
    (NewSearchParams "" "" "" "a,,b" "" "" "").resources = ["a", "", "b"] ∧
    trimmedSegments "a,,b" = ["a", "b"] ∧
    (NewSearchParams "" "" "" " gold" "" "" "").resources = [" gold"] ∧
    trimmedSegments " gold" = ["gold"] ∧
    (SetAnnotationCategories nothingSet "a,,b").annotationCategory = ["a", "", "b"] := by
  decide

/-- C11, amended: for every input string of a comma-separated multi-value field
(resource, contract type, document type, annotation category), the normalised list
is empty for the empty input and otherwise holds the segments between the commas
verbatim, in order: no segment is trimmed and empty segments are kept. The segments
are those of `strings.Split`: none contains a comma, and joined with commas they
give back the input. -/
theorem segments_verbatim :
    (∀ q years contractTypes resources companies governments documentTypes : String,
      (NewSearchParams q years contractTypes resources companies governments
        documentTypes).resources = (if resources = "" then [] else Split resources ',') ∧
      (NewSearchParams q years contractTypes resources companies governments
        documentTypes).contractTypes
          = (if contractTypes = "" then [] else Split contractTypes ',') ∧
      (NewSearchParams q years contractTypes resources companies governments
        documentTypes).documentTypes
          = (if documentTypes = "" then [] else Split documentTypes ',')) ∧
    (∀ (s : SearchParams) (categories : String),
      (SetAnnotationCategories s categories).annotationCategory
        = s.annotationCategory ++ (if categories = "" then [] else Split categories ',')) ∧
    (∀ input : String,
      [','].intercalate ((Split input ',').map String.data) = input.data ∧
      ∀ segment ∈ Split input ',', ',' ∉ segment.data) := by
  refine ⟨?_, ?_, ?_⟩
  · intro q years contractTypes resources companies governments documentTypes
    refine ⟨?_, ?_, ?_⟩
    · by_cases h : resources = "" <;> simp [NewSearchParams, h, appendParts_eq]
    · by_cases h : contractTypes = "" <;> simp [NewSearchParams, h, appendParts_eq]
    · by_cases h : documentTypes = "" <;> simp [NewSearchParams, h, appendParts_eq]
  · intro s categories
    by_cases h : categories = "" <;> simp [SetAnnotationCategories, h, appendParts_eq]
  · intro input
    constructor
    · have h := splitChars_intercalate ',' input.data
      simpa [Split, List.map_map, Function.comp_def] using h
    · intro segment hmem
      simp only [Split, List.mem_map] at hmem
      obtain ⟨piece, hpiece, rfl⟩ := hmem
      exact splitChars_no_sep ',' input.data piece hpiece

/-! ## Sort, pagination and the handler -/

theorem SearchV2_sort (voc : Vocabulary) (p : SearchParams) :
    (SearchV2 voc p).sort = some { field := p.sortBy, ascending := p.order } := by
  simp [SearchV2]

theorem SearchV2_paging (voc : Vocabulary) (p : SearchParams) :
    (SearchV2 voc p).size = sentInt p.size ∧ (SearchV2 voc p).from_ = sentInt p.from_ := by
  simp [SearchV2]

theorem sortState_SetProvince (s : SearchParams) (x : String) :
    sortState (SetProvince s x) = sortState s := rfl

theorem sortState_SetDistrict (s : SearchParams) (x : String) :
    sortState (SetDistrict s x) = sortState s := rfl

theorem sortState_SetAnnotationCategories (s : SearchParams) (x : String) :
    sortState (SetAnnotationCategories s x) = sortState s := by
  unfold SetAnnotationCategories; split <;> rfl

theorem sortState_SetAnnotated (s : SearchParams) (x : Bool) :
    sortState (SetAnnotated s x) = sortState s := rfl

theorem sortState_SetSize (s : SearchParams) (x : String) :
    sortState (SetSize s x) = sortState s := by
  unfold SetSize; split <;> rfl

theorem sortState_SetFrom (s : SearchParams) (x : String) :
    sortState (SetFrom s x) = sortState s := by
  unfold SetFrom; split <;> rfl

theorem sortState_NewSearchParams (q years contractTypes resources companies governments
    documentTypes : String) :
    sortState (NewSearchParams q years contractTypes resources companies governments
      documentTypes) = ("", false) := rfl

/-- Shape of a successful parameter normalisation: the `annotated` parameter is
absent or well-formed, and the result is the four last setters applied to
parameters whose sort field and order are still those of `NewSearchParams`. -/
theorem handler_ok_shape (query : String → String) (p : SearchParams)
    (h : searchHandlerParams query = Except.ok p) :
    (query "annotated" = "" ∨ (ParseBool (query "annotated")).2 = none) ∧
    ∃ a : SearchParams, sortState a = ("", false) ∧
      p = SetOrder (SetSortBy (SetFrom (SetSize a (query "size")) (query "from"))
            (query "sort_by")) (query "is_asc") := by
  unfold searchHandlerParams at h
  simp only [except_bind_eq_ok] at h
  obtain ⟨a, ha, h⟩ := h
  cases h
  have base : ∀ b : SearchParams, sortState b = ("", false) →
      sortState (if query "annotation_category" ≠ "" then
        SetAnnotationCategories b (query "annotation_category") else b) = ("", false) := by
    intro b hb
    split
    · rw [sortState_SetAnnotationCategories, hb]
    · exact hb
  have base2 : ∀ b : SearchParams, sortState b = ("", false) →
      sortState (if query "district" ≠ "" then SetDistrict b (query "district") else b)
        = ("", false) := by
    intro b hb
    split
    · rw [sortState_SetDistrict, hb]
    · exact hb
  have base3 : ∀ b : SearchParams, sortState b = ("", false) →
      sortState (if query "province" ≠ "" then SetProvince b (query "province") else b)
        = ("", false) := by
    intro b hb
    split
    · rw [sortState_SetProvince, hb]
    · exact hb
  have hall := base _ (base2 _ (base3 _ (sortState_NewSearchParams (query "q") (query "year")
    (query "contract_type") (query "resource") (query "company") (query "government")
    (query "document_type"))))
  split at ha
  · rename_i hann
    split at ha
    · cases ha
    · rename_i hparse
      cases ha
      exact ⟨Or.inr hparse, _, by rw [sortState_SetAnnotated]; exact hall, rfl⟩
  · rename_i hann
    cases ha
    exact ⟨Or.inl (by simpa using hann), _, hall, rfl⟩

/-- The handler returns parameters whenever `annotated` is absent or well-formed. -/
theorem handler_returns (query : String → String)
    (h : query "annotated" = "" ∨ (ParseBool (query "annotated")).2 = none) :
    ∃ p, searchHandlerParams query = Except.ok p := by
  unfold searchHandlerParams
  by_cases hann : query "annotated" = ""
  · simp [hann, bind, Except.bind]
  · rcases h with h | h
    · exact absurd h hann
    · simp [hann, h, bind, Except.bind]

/-- The handler panics on a malformed `annotated` parameter. -/
theorem handler_panics (query : String → String) (hann : query "annotated" ≠ "")
    (hbad : (ParseBool (query "annotated")).2 ≠ none) :
    searchHandlerParams query = Except.error Fault.panic := by
  unfold searchHandlerParams
  cases hp : (ParseBool (query "annotated")).2 with
  | none => exact absurd hp hbad
  | some e => simp [hann, hp, bind, Except.bind]

/-! ## Reading integers: facts about `Atoi` -/

theorem parseDigitsAux_ge (cs : List Char) (acc v : Nat)
    (h : parseDigitsAux acc cs = some v) : acc ≤ v := by
  induction cs generalizing acc with
  | nil =>
    simp only [parseDigitsAux, Option.some.injEq] at h
    omega
  | cons c cs ih =>
    unfold parseDigitsAux at h
    split at h
    · have := ih _ h
      omega
    · cases h

theorem parseUintLoop_digits (cs : List Char) (acc v : Nat) (hacc : acc ≤ maxUint64)
    (h : parseDigitsAux acc cs = some v) :
    parseUintLoop acc cs
      = if v ≤ maxUint64 then (v, none) else (maxUint64, some NumError.errRange) := by
  induction cs generalizing acc with
  | nil =>
    simp only [parseDigitsAux, Option.some.injEq] at h
    subst h
    simp [parseUintLoop, hacc]
  | cons c cs ih =>
    unfold parseDigitsAux at h
    unfold parseUintLoop
    split at h
    · rename_i d hd
      rw [hd]
      have hge := parseDigitsAux_ge cs _ v h
      simp only
      by_cases h1 : maxUint64 / 10 + 1 ≤ acc
      · rw [if_pos h1]
        have h3 : ¬ v ≤ maxUint64 := by simp only [maxUint64] at h1 ⊢; omega
        rw [if_neg h3]
      · rw [if_neg h1]
        by_cases h2 : maxUint64 < acc * 10 + d
        · rw [if_pos h2]
          have h3 : ¬ v ≤ maxUint64 := by omega
          rw [if_neg h3]
        · rw [if_neg h2]
          exact ih _ (by omega) h
    · cases h

theorem parseUintLoop_error (cs : List Char) (acc : Nat)
    (h : parseDigitsAux acc cs = none) :
    parseUintLoop acc cs = (0, some NumError.errSyntax) ∨
    parseUintLoop acc cs = (maxUint64, some NumError.errRange) := by
  induction cs generalizing acc with
  | nil => simp [parseDigitsAux] at h
  | cons c cs ih =>
    unfold parseDigitsAux at h
    unfold parseUintLoop
    split at h
    · rename_i d hd
      rw [hd]
      simp only
      split_ifs
      · exact Or.inr rfl
      · exact Or.inr rfl
      · exact ih _ h
    · rename_i hd
      rw [hd]
      exact Or.inl rfl

theorem ParseUint_digits (cs : List Char) (n : Nat) (h : parseDigits cs = some n) :
    ParseUint cs
      = if n ≤ maxUint64 then (n, none) else (maxUint64, some NumError.errRange) := by
  cases cs with
  | nil => simp [parseDigits] at h
  | cons c cs =>
    exact parseUintLoop_digits (c :: cs) 0 n (by decide) (by simpa [parseDigits] using h)

theorem ParseUint_error (cs : List Char) (h : parseDigits cs = none) :
    ParseUint cs = (0, some NumError.errSyntax) ∨
    ParseUint cs = (maxUint64, some NumError.errRange) := by
  cases cs with
  | nil => exact Or.inl rfl
  | cons c cs =>
    exact parseUintLoop_error (c :: cs) 0 (by simpa [parseDigits] using h)

/-- Sign and digit part of the text that `Atoi` reads. -/
theorem Atoi_cases (s : String) :
    ∃ body : Bool × List Char,
      (body.1 = true → s.data.head? = some '-') ∧
      (s.data = '-' :: body.2 ∧ body.1 = true ∨ s.data = '+' :: body.2 ∧ body.1 = false ∨
        s.data = body.2 ∧ body.1 = false ∧ s.data.head? ≠ some '-' ∧ s.data.head? ≠ some '+') ∧
      Atoi s =
        match ParseUint body.2 with
        | (_, some NumError.errSyntax) => (0, some NumError.errSyntax)
        | (un, _) =>
          if body.1 = false ∧ intCutoff ≤ un then
            ((intCutoff : Int) - 1, some NumError.errRange)
          else if body.1 = true ∧ intCutoff < un then
            (-(intCutoff : Int), some NumError.errRange)
          else if body.1 then (-(un : Int), none)
          else ((un : Int), none) := by
  refine ⟨(match s.data with
      | '+' :: rest => (false, rest)
      | '-' :: rest => (true, rest)
      | cs => (false, cs)), ?_, ?_, ?_⟩
  · split
    · intro h; cases h
    · rename_i rest hs; intro _; simp [hs]
    · intro h; cases h
  · split
    · rename_i rest hs; exact Or.inr (Or.inl ⟨hs, rfl⟩)
    · rename_i rest hs; exact Or.inl ⟨hs, rfl⟩
    · rename_i cs h1 h2
      refine Or.inr (Or.inr ⟨rfl, rfl, ?_, ?_⟩)
      · intro h
        cases hcs : s.data with
        | nil => simp [hcs] at h
        | cons c rest =>
          simp [hcs] at h
          exact h2 rest (by rw [hcs, h])
      · intro h
        cases hcs : s.data with
        | nil => simp [hcs] at h
        | cons c rest =>
          simp [hcs] at h
          exact h1 rest (by rw [hcs, h])
  · unfold Atoi ParseInt
    by_cases hs : s.data = []
    · rw [if_pos hs, hs]
      rfl
    · rw [if_neg hs]

theorem Atoi_eq (s : String) :
    Atoi s =
      match parseDigits (unsignedPart s) with
      | none =>
        if (ParseUint (unsignedPart s)).2 = some NumError.errRange then
          if s.data.head? = some '-' then (-(intCutoff : Int), some NumError.errRange)
          else ((intCutoff : Int) - 1, some NumError.errRange)
        else (0, some NumError.errSyntax)
      | some n =>
        if s.data.head? = some '-' then
          if intCutoff < n then (-(intCutoff : Int), some NumError.errRange)
          else (-(n : Int), none)
        else
          if intCutoff ≤ n then ((intCutoff : Int) - 1, some NumError.errRange)
          else ((n : Int), none) := by
  obtain ⟨body, hneg, hcase, hA⟩ := Atoi_cases s
  rw [hA]
  have hu : unsignedPart s = body.2 := by
    unfold unsignedPart
    rcases hcase with ⟨h, _⟩ | ⟨h, _⟩ | ⟨h, _, h1, h2⟩
    · rw [h]; rfl
    · rw [h]; rfl
    · split
      · rename_i rest hs; rw [hs] at h1; simp at h1
      · rename_i rest hs; rw [hs] at h2; simp at h2
      · exact h
  have hb : (body.1 = true) ↔ s.data.head? = some '-' := by
    constructor
    · exact hneg
    · intro hh
      rcases hcase with ⟨_, h⟩ | ⟨h, _⟩ | ⟨_, _, h1, _⟩
      · exact h
      · rw [h] at hh; simp at hh
      · exact absurd hh h1
  rw [hu]
  cases hp : parseDigits body.2 with
  | none =>
    rcases ParseUint_error body.2 hp with he | he
    · rw [he]; simp
    · rw [he]
      by_cases hh : s.data.head? = some '-'
      · simp [hh, hb.mpr hh, intCutoff, maxUint64]
      · have : body.1 = false := by
          cases hb1 : body.1 with
          | false => rfl
          | true => exact absurd (hb.mp hb1) hh
        simp [hh, this, intCutoff, maxUint64]
  | some n =>
    rw [ParseUint_digits body.2 n hp]
    by_cases hh : s.data.head? = some '-'
    · have hb1 := hb.mpr hh
      by_cases hn : n ≤ maxUint64
      · simp only [hn, if_true, hh, hb1]
        by_cases hc : intCutoff < n <;> simp [hc]
      · have hc : intCutoff < n := by simp only [intCutoff, maxUint64] at hn ⊢; omega
        simp only [hn, if_false, hh, if_true, hb1, hc]
        simp [intCutoff, maxUint64]
    · have hb1 : body.1 = false := by
        cases hb1 : body.1 with
        | false => rfl
        | true => exact absurd (hb.mp hb1) hh
      by_cases hn : n ≤ maxUint64
      · simp only [hn, if_true, hh, if_false, hb1]
        by_cases hc : intCutoff ≤ n <;> simp [hc]
      · have hc : intCutoff ≤ n := by simp only [intCutoff, maxUint64] at hn ⊢; omega
        simp only [hn, if_false, hh, hb1, hc, if_true]
        simp [intCutoff, maxUint64]

theorem digitVal_digitChar (d : Nat) (h : d < 10) : digitVal (Nat.digitChar d) = some d := by
  interval_cases d <;> rfl

theorem digitChar_not_sign (d : Nat) (h : d < 10) :
    Nat.digitChar d ≠ '-' ∧ Nat.digitChar d ≠ '+' := by
  interval_cases d <;> decide

theorem digitVal_cases (c : Char) :
    (digitVal c = none ∧ decimalDigits.contains c = false) ∨
    (∃ d, d < 10 ∧ digitVal c = some d ∧ decimalDigits.contains c = true ∧
      (d = 0 ↔ c = '0')) := by
  unfold digitVal
  split_ifs with h
  · right
    obtain ⟨h1, h2⟩ := h
    have hc : c = Char.ofNat c.toNat := (Char.ofNat_toNat c).symm
    generalize c.toNat = k at hc h1 h2
    subst hc
    interval_cases k <;> exact ⟨_, by decide, rfl, by decide, by decide⟩
  · left
    refine ⟨rfl, ?_⟩
    by_contra hcon
    apply h
    have hmem : c ∈ decimalDigits :=
      List.mem_of_elem_eq_true (by simpa [List.contains] using hcon)
    simp only [decimalDigits, List.mem_cons, List.mem_singleton, List.not_mem_nil,
      or_false] at hmem
    rcases hmem with h | h | h | h | h | h | h | h | h | h <;> subst h <;> decide

theorem parseDigitsAux_none_iff (ds : List Char) (acc : Nat) :
    parseDigitsAux acc ds = none ↔ ds.all (fun c => decimalDigits.contains c) = false := by
  induction ds generalizing acc with
  | nil => simp [parseDigitsAux]
  | cons c cs ih =>
    rcases digitVal_cases c with ⟨hv, hc⟩ | ⟨d, _, hv, hc, _⟩
    · simp only [parseDigitsAux, hv, List.all_cons, hc, Bool.false_and]
    · simp only [parseDigitsAux, hv, List.all_cons, hc, Bool.true_and]
      exact ih _

theorem parseDigits_none_iff (ds : List Char) :
    parseDigits ds = none ↔
      (!ds.isEmpty && ds.all (fun c => decimalDigits.contains c)) = false := by
  cases ds with
  | nil => simp [parseDigits]
  | cons c cs =>
    have h := parseDigitsAux_none_iff (c :: cs) 0
    simpa [parseDigits] using h

/-- The four outcomes of `Atoi`: no error; a syntax error with the value 0; a range
error with the largest `int` on a text without a minus sign; a range error with the
smallest `int` on a text with a minus sign. -/
theorem Atoi_outcome (s : String) :
    (Atoi s).2 = none ∨ Atoi s = (0, some NumError.errSyntax) ∨
    (Atoi s = (9223372036854775807, some NumError.errRange) ∧ s.data.head? ≠ some '-') ∨
    (Atoi s = (-9223372036854775808, some NumError.errRange) ∧ s.data.head? = some '-') := by
  rw [Atoi_eq]
  cases parseDigits (unsignedPart s) with
  | none =>
    simp only
    by_cases hr : (ParseUint (unsignedPart s)).2 = some NumError.errRange
    · rw [if_pos hr]
      by_cases hh : s.data.head? = some '-'
      · rw [if_pos hh]
        exact Or.inr (Or.inr (Or.inr ⟨by simp [intCutoff], hh⟩))
      · rw [if_neg hh]
        exact Or.inr (Or.inr (Or.inl ⟨by simp [intCutoff], hh⟩))
    · rw [if_neg hr]
      exact Or.inr (Or.inl rfl)
  | some n =>
    simp only
    by_cases hh : s.data.head? = some '-'
    · rw [if_pos hh]
      by_cases hc : intCutoff < n
      · rw [if_pos hc]
        exact Or.inr (Or.inr (Or.inr ⟨by simp [intCutoff], hh⟩))
      · rw [if_neg hc]
        exact Or.inl rfl
    · rw [if_neg hh]
      by_cases hc : intCutoff ≤ n
      · rw [if_pos hc]
        exact Or.inr (Or.inr (Or.inl ⟨by simp [intCutoff], hh⟩))
      · rw [if_neg hc]
        exact Or.inl rfl

theorem Atoi_syntax_value (s : String) (h : (Atoi s).2 = some NumError.errSyntax) :
    (Atoi s).1 = 0 := by
  rcases Atoi_outcome s with h1 | h1 | ⟨h1, _⟩ | ⟨h1, _⟩
  · rw [h1] at h; cases h
  · rw [h1]
  · rw [h1] at h; cases h
  · rw [h1] at h; cases h

theorem Atoi_nonneg (s : String) (h : s.data.head? ≠ some '-') : 0 ≤ (Atoi s).1 := by
  rw [Atoi_eq]
  cases parseDigits (unsignedPart s) with
  | none =>
    simp only [h, if_false]
    split_ifs
    · simp [intCutoff]
    · simp
  | some n =>
    simp only [h, if_false]
    split_ifs
    · simp [intCutoff]
    · simp

/-- A text that is not a decimal integer makes `Atoi` return an error, and `Atoi`
returns no error only for a decimal integer. -/
theorem Atoi_error_iff (s : String) :
    (isDecimalInteger s = false → (Atoi s).2 ≠ none) ∧
    ((Atoi s).2 = none → isDecimalInteger s = true) := by
  have h1 : isDecimalInteger s = false → (Atoi s).2 ≠ none := by
    intro hbad
    have hp : parseDigits (unsignedPart s) = none := by
      rw [parseDigits_none_iff]; exact hbad
    rw [Atoi_eq, hp]
    simp only
    split_ifs <;> simp
  refine ⟨h1, ?_⟩
  intro hnone
  cases hd : isDecimalInteger s with
  | true => rfl
  | false => exact absurd hnone (h1 hd)

/-- The value of `Atoi` is positive exactly when `Atoi` accepts the text with a
value greater than 0, or rejects it with a range error and the largest `int`. -/
theorem Atoi_pos_iff (s : String) :
    0 < (Atoi s).1 ↔
      ((Atoi s).2 = none ∧ 0 < (Atoi s).1) ∨
      Atoi s = (9223372036854775807, some NumError.errRange) := by
  constructor
  · intro hpos
    rcases Atoi_outcome s with h1 | h1 | ⟨h1, _⟩ | ⟨h1, _⟩
    · exact Or.inl ⟨h1, hpos⟩
    · rw [h1] at hpos; exact absurd hpos (by decide)
    · exact Or.inr h1
    · rw [h1] at hpos; exact absurd hpos (by decide)
  · rintro (⟨_, h⟩ | h)
    · exact h
    · rw [h]; decide

theorem toDigitsCore_parse (fuel : Nat) :
    ∀ (n : Nat) (ds : List Char), n < fuel →
      parseDigitsAux 0 (Nat.toDigitsCore 10 fuel n ds) = parseDigitsAux n ds := by
  induction fuel with
  | zero => intro n ds h; omega
  | succ fuel ih =>
    intro n ds h
    have hd : digitVal (Nat.digitChar (n % 10)) = some (n % 10) :=
      digitVal_digitChar _ (Nat.mod_lt _ (by decide))
    unfold Nat.toDigitsCore
    by_cases h0 : n / 10 = 0
    · simp only [h0, if_true]
      have hn : n % 10 = n := Nat.mod_eq_of_lt (by omega)
      rw [hn] at hd ⊢
      simp only [parseDigitsAux, hd, Nat.zero_mul, Nat.zero_add]
    · simp only [h0, if_false]
      rw [ih (n / 10) _ (by omega)]
      simp only [parseDigitsAux, hd]
      congr 1
      omega

theorem toDigitsCore_head (fuel : Nat) :
    ∀ (n : Nat) (ds : List Char), n < fuel →
      ∃ d tail, d < 10 ∧ Nat.toDigitsCore 10 fuel n ds = Nat.digitChar d :: tail := by
  induction fuel with
  | zero => intro n ds h; omega
  | succ fuel ih =>
    intro n ds h
    unfold Nat.toDigitsCore
    by_cases h0 : n / 10 = 0
    · simp only [h0, if_true]
      exact ⟨n % 10, ds, Nat.mod_lt _ (by decide), rfl⟩
    · simp only [h0, if_false]
      exact ih (n / 10) _ (by omega)

/-- The text `Itoa` gives is the decimal text of the number: `Atoi` reads it back,
for every number of the `int` range. -/
theorem Atoi_Itoa (n : Int) (hlo : -9223372036854775808 ≤ n) (hhi : n < 9223372036854775808) :
    Atoi (Itoa n) = (n, none) := by
  cases n with
  | ofNat m =>
    obtain ⟨d, tail, hd, hhead⟩ := toDigitsCore_head (m + 1) m [] (by omega)
    have hdata : (Itoa (Int.ofNat m)).data = Nat.toDigitsCore 10 (m + 1) m [] := rfl
    have hsign := digitChar_not_sign d hd
    have hu : unsignedPart (Itoa (Int.ofNat m)) = Nat.toDigitsCore 10 (m + 1) m [] := by
      unfold unsignedPart
      rw [hdata, hhead]
      split
      · rename_i rest hs
        simp only [List.cons.injEq] at hs
        exact absurd hs.1 hsign.1
      · rename_i rest hs
        simp only [List.cons.injEq] at hs
        exact absurd hs.1 hsign.2
      · rfl
    have hp : parseDigits (Nat.toDigitsCore 10 (m + 1) m []) = some m := by
      have := toDigitsCore_parse (m + 1) m [] (by omega)
      rw [hhead] at this ⊢
      simpa [parseDigits, parseDigitsAux] using this
    have hneg : ¬ (Itoa (Int.ofNat m)).data.head? = some '-' := by
      rw [hdata, hhead]
      simp only [List.head?_cons, Option.some.injEq]
      exact hsign.1
    rw [Atoi_eq, hu, hp]
    simp only [hneg, if_false]
    have hm : ¬ intCutoff ≤ m := by
      simp only [intCutoff]
      have : (m : Int) < 9223372036854775808 := hhi
      omega
    rw [if_neg hm]
    rfl
  | negSucc m =>
    have hdata : (Itoa (Int.negSucc m)).data
        = '-' :: Nat.toDigitsCore 10 (m + 1 + 1) (m + 1) [] := rfl
    have hu : unsignedPart (Itoa (Int.negSucc m))
        = Nat.toDigitsCore 10 (m + 1 + 1) (m + 1) [] := by
      unfold unsignedPart
      rw [hdata]
      rfl
    obtain ⟨d, tail, hd, hhead⟩ := toDigitsCore_head (m + 1 + 1) (m + 1) [] (by omega)
    have hp : parseDigits (Nat.toDigitsCore 10 (m + 1 + 1) (m + 1) []) = some (m + 1) := by
      have := toDigitsCore_parse (m + 1 + 1) (m + 1) [] (by omega)
      rw [hhead] at this ⊢
      simpa [parseDigits, parseDigitsAux] using this
    have hneg : (Itoa (Int.negSucc m)).data.head? = some '-' := by
      rw [hdata]; rfl
    rw [Atoi_eq, hu, hp]
    simp only [hneg, if_true]
    have hm : ¬ intCutoff < m + 1 := by
      simp only [intCutoff]
      have : -9223372036854775808 ≤ -((m : Int) + 1) := by
        rw [← Int.negSucc_eq]; exact hlo
      omega
    rw [if_neg hm]
    rfl

/-! ## C12: an unknown sort field -/

/-- C12, evaluated on the code: for a non-empty `sort_by` that is none of `country`,
`year`, `contract_name`, `resource`, `contract_type`, the parameters the handler
builds keep the empty sort field of `NewSearchParams`, and the sort directive
`SearchV2` sends names the empty field, not the signature date; its direction is
the one `is_asc` gives. -/
theorem unknown_sort_field_sends_empty (voc : Vocabulary) (query : String → String)
    (p : SearchParams) (h : searchHandlerParams query = Except.ok p)
    (hne : query "sort_by" ≠ "") (h1 : query "sort_by" ≠ "country")
    (h2 : query "sort_by" ≠ "year") (h3 : query "sort_by" ≠ "contract_name")
    (h4 : query "sort_by" ≠ "resource") (h5 : query "sort_by" ≠ "contract_type") :
    (SearchV2 voc p).sort
      = some { field := "",
               ascending := if query "is_asc" = "" then false
                            else (ParseBool (query "is_asc")).1 } := by
  obtain ⟨_, a, ha, rfl⟩ := handler_ok_shape query p h
  have hx := (sortState_SetFrom (SetSize a (query "size")) (query "from")).trans
    ((sortState_SetSize a (query "size")).trans ha)
  generalize SetFrom (SetSize a (query "size")) (query "from") = x at hx
  have hf : x.sortBy = "" := congrArg Prod.fst hx
  have ho : x.order = false := congrArg Prod.snd hx
  rw [SearchV2_sort]
  have hs : SetSortBy x (query "sort_by") = x := by
    simp [SetSortBy, hne, h1, h2, h3, h4, h5]
  rw [hs]
  by_cases hasc : query "is_asc" = "" <;> simp [SetOrder, hasc, hf, ho]

/-- Witness for C12: the request `sort_by=population`. -/
theorem unknown_sort_field_sends_empty_witness :
    (SearchV2 sampleVocabulary unknownSortParams).sort
      = some { field := "", ascending := false } :=
  unknown_sort_field_sends_empty sampleVocabulary unknownSortRequest unknownSortParams rfl
    (by decide) (by decide) (by decide) (by decide) (by decide) (by decide)

/-! ## C13: no sort field -/

/-- C13, as stated, fails: for the request `is_asc=true` without a sort field the
sort directive is the signature date in ascending order. -/
theorem default_sort_counterexample :
    ascendingRequest "sort_by" = "" ∧
    (searchHandlerParams ascendingRequest).toOption = some ascendingParams ∧
    (SearchV2 sampleVocabulary ascendingParams).sort
      = some { field := "metadata.signature_date", ascending := true } := by
  decide

/-- C13, amended: for every request without a sort field, processed as the handler
does, the sort directive `SearchV2` sends is the signature-date field, descending
when `is_asc` is empty or is not a spelling of true (a malformed value included),
and ascending when `is_asc` is a spelling of true. -/
theorem default_sort_follows_is_asc (voc : Vocabulary) (query : String → String)
    (p : SearchParams) (h : searchHandlerParams query = Except.ok p)
    (hsort : query "sort_by" = "") :
    (SearchV2 voc p).sort
      = some { field := "metadata.signature_date",
               ascending := if query "is_asc" = "" then false
                            else (ParseBool (query "is_asc")).1 } := by
  obtain ⟨_, a, _, rfl⟩ := handler_ok_shape query p h
  rw [SearchV2_sort]
  by_cases hasc : query "is_asc" = "" <;> simp [SetOrder, SetSortBy, hasc, hsort]

/-- Witness for C13 (amended): the request `is_asc=true`. -/
theorem default_sort_follows_is_asc_witness :
    (SearchV2 sampleVocabulary ascendingParams).sort
      = some { field := "metadata.signature_date", ascending := true } :=
  default_sort_follows_is_asc sampleVocabulary ascendingRequest ascendingParams rfl rfl

theorem parseDigitsAux_digits (digits : List Nat) (acc : Nat) (h : ∀ d ∈ digits, d < 10) :
    parseDigitsAux acc (digits.map Nat.digitChar)
      = some (acc * 10 ^ digits.length + Nat.ofDigits 10 digits.reverse) := by
  induction digits generalizing acc with
  | nil => simp [parseDigitsAux]
  | cons d ds ih =>
    have hd : d < 10 := h d (by simp)
    have hds : ∀ x ∈ ds, x < 10 := fun x hx => h x (by simp [hx])
    simp only [List.map_cons, parseDigitsAux, digitVal_digitChar d hd, ih _ hds,
      List.reverse_cons, Nat.ofDigits_append, Nat.ofDigits_singleton, List.length_reverse,
      List.length_cons, Option.some.injEq]
    ring

theorem unsignedPart_decimalText (sign : List Char) (digits : List Nat)
    (hsign : sign = [] ∨ sign = ['+'] ∨ sign = ['-']) (hne : digits ≠ [])
    (h : ∀ d ∈ digits, d < 10) :
    unsignedPart (decimalText sign digits) = digits.map Nat.digitChar ∧
    ((decimalText sign digits).data.head? = some '-' ↔ sign = ['-']) := by
  cases digits with
  | nil => exact absurd rfl hne
  | cons d ds =>
    have hd := digitChar_not_sign d (h d (by simp))
    rcases hsign with rfl | rfl | rfl
    · constructor
      · unfold unsignedPart decimalText
        simp only [List.nil_append, List.map_cons]
        split
        · rename_i rest hs
          simp only [List.cons.injEq] at hs
          exact absurd hs.1 hd.1
        · rename_i rest hs
          simp only [List.cons.injEq] at hs
          exact absurd hs.1 hd.2
        · rfl
      · simp [decimalText, hd.1]
    · constructor
      · rfl
      · simp [decimalText]
    · constructor
      · rfl
      · simp [decimalText]

/-- On the text of a decimal integer within the `int` range, `Atoi` returns that
integer and no error. -/
theorem Atoi_decimalText (sign : List Char) (digits : List Nat)
    (hsign : sign = [] ∨ sign = ['+'] ∨ sign = ['-']) (hne : digits ≠ [])
    (h : ∀ d ∈ digits, d < 10)
    (hlo : -(9223372036854775808 : Int) ≤ decimalNumber sign digits)
    (hhi : decimalNumber sign digits < 9223372036854775808) :
    Atoi (decimalText sign digits) = (decimalNumber sign digits, none) := by
  obtain ⟨hu, hneg⟩ := unsignedPart_decimalText sign digits hsign hne h
  rw [Atoi_eq, hu]
  have hp : parseDigits (digits.map Nat.digitChar)
      = some (Nat.ofDigits 10 digits.reverse) := by
    cases digits with
    | nil => exact absurd rfl hne
    | cons d ds =>
      have := parseDigitsAux_digits (d :: ds) 0 h
      simpa [parseDigits] using this
  rw [hp]
  by_cases hs : sign = ['-']
  · simp only [hneg.mpr hs, if_true]
    simp only [decimalNumber, hs, if_true] at hlo hhi ⊢
    have : ¬ intCutoff < Nat.ofDigits 10 digits.reverse := by
      simp only [intCutoff, decimalMagnitude] at hlo ⊢; omega
    simp [this, decimalMagnitude]
  · have hh : ¬ (decimalText sign digits).data.head? = some '-' := fun hc => hs (hneg.mp hc)
    simp only [hh, if_false]
    simp only [decimalNumber, hs, if_false] at hlo hhi ⊢
    have : ¬ intCutoff ≤ Nat.ofDigits 10 digits.reverse := by
      simp only [intCutoff, decimalMagnitude] at hhi ⊢; omega
    simp [this, decimalMagnitude]

theorem size_of_tail (a : SearchParams) (size fromArg sortBy order : String) :
    (SetOrder (SetSortBy (SetFrom (SetSize a size) fromArg) sortBy) order).size
      = (SetSize a size).size := by
  have h1 : ∀ (s : SearchParams) (x : String), (SetOrder s x).size = s.size := by
    intro s x; unfold SetOrder; split <;> rfl
  have h2 : ∀ (s : SearchParams) (x : String), (SetSortBy s x).size = s.size := by
    intro s x; unfold SetSortBy; split_ifs <;> rfl
  have h3 : ∀ (s : SearchParams) (x : String), (SetFrom s x).size = s.size := by
    intro s x; unfold SetFrom; split <;> rfl
  rw [h1, h2, h3]

theorem from_of_tail (a : SearchParams) (size fromArg sortBy order : String) :
    (SetOrder (SetSortBy (SetFrom (SetSize a size) fromArg) sortBy) order).from_
      = (SetFrom (SetSize a size) fromArg).from_ := by
  have h1 : ∀ (s : SearchParams) (x : String), (SetOrder s x).from_ = s.from_ := by
    intro s x; unfold SetOrder; split <;> rfl
  have h2 : ∀ (s : SearchParams) (x : String), (SetSortBy s x).from_ = s.from_ := by
    intro s x; unfold SetSortBy; split_ifs <;> rfl
  rw [h1, h2]

theorem SetSize_size (s : SearchParams) (size : String) :
    (SetSize s size).size = if size = "" then 10 else (Atoi size).1 := by
  unfold SetSize; split <;> rfl

theorem SetFrom_from (s : SearchParams) (fromArg : String) :
    (SetFrom s fromArg).from_ = if fromArg = "" then 0 else (Atoi fromArg).1 := by
  unfold SetFrom; split <;> rfl

/-! ## C14: non-numeric `size` and `from` -/

/-- C14, on the code: a non-empty `size` or `from` text that is not a decimal integer
makes `Atoi` return an error, but `SetSize` / `SetFrom` report nothing and store the
value that came with the error (0 with a syntax error, an `int` bound when the
digits left the range before the first other character); the handler (when
`annotated` is absent or well-formed) returns parameters with that value, and
`SearchV2` sends it as the request's size or offset. -/
theorem non_numeric_paging_not_reported (voc : Vocabulary) (query : String → String)
    (hann : query "annotated" = "" ∨ (ParseBool (query "annotated")).2 = none) :
    (∀ text : String, isDecimalInteger text = false →
      (Atoi text).2 ≠ none ∧
      (Atoi text = (0, some NumError.errSyntax) ∨
        Atoi text = (9223372036854775807, some NumError.errRange) ∨
        Atoi text = (-9223372036854775808, some NumError.errRange))) ∧
    (∀ (s : SearchParams) (size : String), size ≠ "" →
      (SetSize s size).size = (Atoi size).1) ∧
    (∀ (s : SearchParams) (fromArg : String), fromArg ≠ "" →
      (SetFrom s fromArg).from_ = (Atoi fromArg).1) ∧
    ∃ p, searchHandlerParams query = Except.ok p ∧
      (query "size" ≠ "" → isDecimalInteger (query "size") = false →
        p.size = (Atoi (query "size")).1 ∧
        (SearchV2 voc p).size = sentInt (Atoi (query "size")).1 ∧
        (SearchV2 voc p).size ≠ none) ∧
      (query "from" ≠ "" → isDecimalInteger (query "from") = false →
        p.from_ = (Atoi (query "from")).1 ∧
        (SearchV2 voc p).from_ = sentInt (Atoi (query "from")).1 ∧
        (SearchV2 voc p).from_ ≠ none) := by
  have hbad : ∀ text : String, isDecimalInteger text = false →
      (Atoi text).2 ≠ none ∧
      (Atoi text = (0, some NumError.errSyntax) ∨
        Atoi text = (9223372036854775807, some NumError.errRange) ∨
        Atoi text = (-9223372036854775808, some NumError.errRange)) := by
    intro text hd
    have herr := (Atoi_error_iff text).1 hd
    refine ⟨herr, ?_⟩
    rcases Atoi_outcome text with h | h | ⟨h, _⟩ | ⟨h, _⟩
    · exact absurd h herr
    · exact Or.inl h
    · exact Or.inr (Or.inl h)
    · exact Or.inr (Or.inr h)
  have hsent : ∀ text : String, isDecimalInteger text = false →
      sentInt (Atoi text).1 ≠ none := by
    intro text hd
    rcases (hbad text hd).2 with h | h | h <;> rw [h] <;> decide
  have hsize : ∀ (s : SearchParams) (size : String), size ≠ "" →
      (SetSize s size).size = (Atoi size).1 := by
    intro s size hne
    rw [SetSize_size, if_neg hne]
  have hfrom : ∀ (s : SearchParams) (fromArg : String), fromArg ≠ "" →
      (SetFrom s fromArg).from_ = (Atoi fromArg).1 := by
    intro s fromArg hne
    rw [SetFrom_from, if_neg hne]
  refine ⟨hbad, hsize, hfrom, ?_⟩
  obtain ⟨p, hp⟩ := handler_returns query hann
  obtain ⟨_, a, _, rfl⟩ := handler_ok_shape query p hp
  refine ⟨_, hp, ?_, ?_⟩
  · intro hne hd
    have : (SetOrder (SetSortBy (SetFrom (SetSize a (query "size")) (query "from"))
        (query "sort_by")) (query "is_asc")).size = (Atoi (query "size")).1 := by
      rw [size_of_tail]; exact hsize a _ hne
    refine ⟨this, by rw [(SearchV2_paging voc _).1, this], ?_⟩
    rw [(SearchV2_paging voc _).1, this]
    exact hsent _ hd
  · intro hne hd
    have : (SetOrder (SetSortBy (SetFrom (SetSize a (query "size")) (query "from"))
        (query "sort_by")) (query "is_asc")).from_ = (Atoi (query "from")).1 := by
      rw [from_of_tail]; exact hfrom _ _ hne
    refine ⟨this, by rw [(SearchV2_paging voc _).2, this], ?_⟩
    rw [(SearchV2_paging voc _).2, this]
    exact hsent _ hd

/-- Witness for C14: the request `size=abc&from=x1` is answered with the parameters
`nonNumericPagingParams`, and the request sent has size 0 and offset 0; the text
`99999999999999999999x` is stored as the largest `int`. -/
theorem non_numeric_paging_not_reported_witness :
    isDecimalInteger "abc" = false ∧ isDecimalInteger "x1" = false ∧
    (searchHandlerParams nonNumericPagingRequest).toOption = some nonNumericPagingParams ∧
    (SearchV2 sampleVocabulary nonNumericPagingParams).size = some 0 ∧
    (SearchV2 sampleVocabulary nonNumericPagingParams).from_ = some 0 ∧
    Atoi "abc" = (0, some NumError.errSyntax) ∧
    Atoi "99999999999999999999x" = (9223372036854775807, some NumError.errRange) ∧
    (SetSize nothingSet "abc").size = 0 ∧
    (SetSize nothingSet "99999999999999999999x").size = 9223372036854775807 ∧
    (SetFrom nothingSet "x1").from_ = 0 :=
  ⟨by decide, by decide, by decide, by decide, by decide, by decide, by decide,
   ((non_numeric_paging_not_reported sampleVocabulary nonNumericPagingRequest
      (Or.inl rfl)).2.1 nothingSet "abc" (by decide)).trans (by decide),
   ((non_numeric_paging_not_reported sampleVocabulary nonNumericPagingRequest
      (Or.inl rfl)).2.1 nothingSet "99999999999999999999x" (by decide)).trans (by decide),
   ((non_numeric_paging_not_reported sampleVocabulary nonNumericPagingRequest
      (Or.inl rfl)).2.2.1 nothingSet "x1" (by decide)).trans (by decide)⟩

/-! ## C15: sign of `size` and `from` -/

/-- C15, as stated, fails: for `size=-5` and `from=-1` the parameters hold the
negative values; the request carries the size -5, and no offset at all, because the
client reads the offset -1 as "not set". -/
theorem paging_nonnegative_counterexample :
    (SetFrom (SetSize nothingSet "-5") "-1").size = -5 ∧
    (SetFrom (SetSize nothingSet "-5") "-1").from_ = -1 ∧
    (SearchV2 sampleVocabulary (SetFrom (SetSize nothingSet "-5") "-1")).size = some (-5) ∧
    (SearchV2 sampleVocabulary (SetFrom (SetSize nothingSet "-5") "-1")).from_ = none := by
  decide

/-- C15, amended: for every pair of raw `size` and `from` inputs, after `SetSize` and
`SetFrom` the parameters hold 10 / 0 for an empty input and otherwise the value
`Atoi` returns; `SearchV2` gives these values to the client, and the request carries
them as its size and offset unless the value is -1, for which the request has no
such key; and `size ≥ 0`, `from ≥ 0` hold whenever the input does not start with a
minus sign, in which case the request carries the very values. -/
theorem paging_values (voc : Vocabulary) (s : SearchParams) (size fromArg : String) :
    (SetFrom (SetSize s size) fromArg).size = (if size = "" then 10 else (Atoi size).1) ∧
    (SetFrom (SetSize s size) fromArg).from_
      = (if fromArg = "" then 0 else (Atoi fromArg).1) ∧
    (SearchV2 voc (SetFrom (SetSize s size) fromArg)).size
      = (if (SetFrom (SetSize s size) fromArg).size = -1 then none
         else some (SetFrom (SetSize s size) fromArg).size) ∧
    (SearchV2 voc (SetFrom (SetSize s size) fromArg)).from_
      = (if (SetFrom (SetSize s size) fromArg).from_ = -1 then none
         else some (SetFrom (SetSize s size) fromArg).from_) ∧
    (size.data.head? ≠ some '-' →
      0 ≤ (SetFrom (SetSize s size) fromArg).size ∧
      (SearchV2 voc (SetFrom (SetSize s size) fromArg)).size
        = some (SetFrom (SetSize s size) fromArg).size) ∧
    (fromArg.data.head? ≠ some '-' →
      0 ≤ (SetFrom (SetSize s size) fromArg).from_ ∧
      (SearchV2 voc (SetFrom (SetSize s size) fromArg)).from_
        = some (SetFrom (SetSize s size) fromArg).from_) := by
  have hs : (SetFrom (SetSize s size) fromArg).size
      = (if size = "" then 10 else (Atoi size).1) := by
    have h3 : ∀ (t : SearchParams) (x : String), (SetFrom t x).size = t.size := by
      intro t x; unfold SetFrom; split <;> rfl
    rw [h3, SetSize_size]
  have hf := SetFrom_from (SetSize s size) fromArg
  have hsent : ∀ n : Int, 0 ≤ n → sentInt n = some n := by
    intro n hn
    unfold sentInt
    rw [if_neg (by omega)]
  refine ⟨hs, hf, (SearchV2_paging voc _).1, (SearchV2_paging voc _).2, ?_, ?_⟩
  · intro hsign
    have h0 : 0 ≤ (SetFrom (SetSize s size) fromArg).size := by
      rw [hs]
      split
      · decide
      · exact Atoi_nonneg size hsign
    exact ⟨h0, by rw [(SearchV2_paging voc _).1]; exact hsent _ h0⟩
  · intro hsign
    have h0 : 0 ≤ (SetFrom (SetSize s size) fromArg).from_ := by
      rw [hf]
      split
      · decide
      · exact Atoi_nonneg fromArg hsign
    exact ⟨h0, by rw [(SearchV2_paging voc _).2]; exact hsent _ h0⟩

/-- Witness for C15 (amended): `size=25`, `from=50`. -/
theorem paging_values_witness :
    (0 ≤ (SetFrom (SetSize nothingSet "25") "50").size ∧
      (SearchV2 sampleVocabulary (SetFrom (SetSize nothingSet "25") "50")).size
        = some (SetFrom (SetSize nothingSet "25") "50").size) ∧
    (0 ≤ (SetFrom (SetSize nothingSet "25") "50").from_ ∧
      (SearchV2 sampleVocabulary (SetFrom (SetSize nothingSet "25") "50")).from_
        = some (SetFrom (SetSize nothingSet "25") "50").from_) :=
  ⟨(paging_values sampleVocabulary nothingSet "25" "50").2.2.2.2.1 (by decide),
   (paging_values sampleVocabulary nothingSet "25" "50").2.2.2.2.2 (by decide)⟩

/-! ## C16: defaults and decimal inputs of `size` and `from` -/

/-- C16, as stated, fails: `9223372036854775808` is a decimal integer, and `SetSize`
and `SetFrom` store `9223372036854775807` for it (the `int` bound that `Atoi`
returns with its range error); and the decimal integer `-1` is stored as it is but
not copied into the request, which then has no offset. -/
theorem decimal_paging_counterexample :
    decimalText [] [9, 2, 2, 3, 3, 7, 2, 0, 3, 6, 8, 5, 4, 7, 7, 5, 8, 0, 8]
      = "9223372036854775808" ∧
    decimalNumber [] [9, 2, 2, 3, 3, 7, 2, 0, 3, 6, 8, 5, 4, 7, 7, 5, 8, 0, 8]
      = 9223372036854775808 ∧
    (SetSize nothingSet "9223372036854775808").size = 9223372036854775807 ∧
    (SetFrom nothingSet "9223372036854775808").from_ = 9223372036854775807 ∧
    (SetFrom nothingSet "-1").from_ = -1 ∧
    (SearchV2 sampleVocabulary (SetFrom nothingSet "-1")).from_ = none := by
  refine ⟨by decide, ?_, by decide, by decide, by decide, by decide⟩
  simp [decimalNumber, decimalMagnitude, Nat.ofDigits]

/-- C16, amended: `SetSize("")` sets size to 10 and `SetFrom("")` sets from to 0; for
every input that is a decimal integer `n` (an optional sign and one or more digits)
within the range of the 64-bit `int`, `SetSize` / `SetFrom` set the field to exactly
`n`; `SearchV2` gives both values to the client with no upper bound applied, and the
request carries each of them as it is, except the value -1, for which the request
has no such key. -/
theorem decimal_paging_exact (voc : Vocabulary) (s : SearchParams) (sign : List Char)
    (digits : List Nat) (hsign : sign = [] ∨ sign = ['+'] ∨ sign = ['-'])
    (hne : digits ≠ []) (hdigit : ∀ d ∈ digits, d < 10)
    (hlo : -(9223372036854775808 : Int) ≤ decimalNumber sign digits)
    (hhi : decimalNumber sign digits < 9223372036854775808) :
    (SetSize s "").size = 10 ∧ (SetFrom s "").from_ = 0 ∧
    (SetSize s (decimalText sign digits)).size = decimalNumber sign digits ∧
    (SetFrom s (decimalText sign digits)).from_ = decimalNumber sign digits ∧
    (∀ p : SearchParams,
      (SearchV2 voc p).size = (if p.size = -1 then none else some p.size) ∧
      (SearchV2 voc p).from_ = (if p.from_ = -1 then none else some p.from_)) ∧
    (decimalNumber sign digits ≠ -1 →
      (SearchV2 voc (SetSize s (decimalText sign digits))).size
        = some (decimalNumber sign digits) ∧
      (SearchV2 voc (SetFrom s (decimalText sign digits))).from_
        = some (decimalNumber sign digits)) := by
  have hA := Atoi_decimalText sign digits hsign hne hdigit hlo hhi
  have htext : decimalText sign digits ≠ "" := by
    intro hc
    have hd := congrArg String.data hc
    cases digits with
    | nil => exact hne rfl
    | cons d ds => simp [decimalText] at hd
  have h1 : (SetSize s (decimalText sign digits)).size = decimalNumber sign digits := by
    rw [SetSize_size, if_neg htext, hA]
  have h2 : (SetFrom s (decimalText sign digits)).from_ = decimalNumber sign digits := by
    rw [SetFrom_from, if_neg htext, hA]
  refine ⟨rfl, rfl, h1, h2, fun p => SearchV2_paging voc p, ?_⟩
  intro hn
  constructor
  · rw [(SearchV2_paging voc _).1, h1]
    unfold sentInt
    rw [if_neg hn]
  · rw [(SearchV2_paging voc _).2, h2]
    unfold sentInt
    rw [if_neg hn]

/-- Witness for C16 (amended): the inputs `25` and `-3`. -/
theorem decimal_paging_exact_witness :
    (SetSize nothingSet "25").size = 25 ∧ (SetFrom nothingSet "-3").from_ = -3 ∧
    (SearchV2 sampleVocabulary (SetSize nothingSet "25")).size = some 25 ∧
    (SearchV2 sampleVocabulary (SetFrom nothingSet "-3")).from_ = some (-3) :=
  ⟨(decimal_paging_exact sampleVocabulary nothingSet [] [2, 5] (Or.inl rfl) (by decide)
      (by decide) (by decide) (by decide)).2.2.1,
   (decimal_paging_exact sampleVocabulary nothingSet ['-'] [3] (Or.inr (Or.inr rfl))
      (by decide) (by decide) (by decide) (by decide)).2.2.2.1,
   by decide, by decide⟩

/-! ## C17: malformed booleans -/

theorem ParseBool_error_value (s : String) (h : (ParseBool s).2 ≠ none) :
    (ParseBool s).1 = false := by
  unfold ParseBool at h ⊢
  split_ifs at h ⊢ <;> simp at h ⊢

theorem order_after_sort (x : SearchParams) (sortBy : String) (hx : x.order = false) :
    (SetSortBy x sortBy).order = false := by
  unfold SetSortBy
  split_ifs <;> first | exact hx | rfl

/-- C17, as stated, fails: for `annotated=maybe` the handler panics and returns no
parameters. -/
theorem malformed_boolean_counterexample :
    malformedAnnotatedRequest "annotated" ≠ "" ∧
    (ParseBool (malformedAnnotatedRequest "annotated")).2 ≠ none ∧
    searchHandlerParams malformedAnnotatedRequest = Except.error Fault.panic :=
  ⟨by decide, by decide, rfl⟩

/-- C17, amended: a non-empty `annotated` parameter that is not a valid boolean makes
the handler panic, so the request is aborted; a non-empty `is_asc` parameter that is
not a valid boolean does not (when `annotated` is absent or well-formed the handler
returns parameters), and the order flag is then false, as it is when `is_asc` is
absent. -/
theorem malformed_boolean (query : String → String) :
    (query "annotated" ≠ "" → (ParseBool (query "annotated")).2 ≠ none →
      searchHandlerParams query = Except.error Fault.panic) ∧
    ((query "annotated" = "" ∨ (ParseBool (query "annotated")).2 = none) →
      (query "is_asc" = "" ∨ (ParseBool (query "is_asc")).2 ≠ none) →
      ∃ p, searchHandlerParams query = Except.ok p ∧ p.order = false) := by
  refine ⟨handler_panics query, ?_⟩
  intro hann hasc
  obtain ⟨p, hp⟩ := handler_returns query hann
  obtain ⟨_, a, ha, rfl⟩ := handler_ok_shape query p hp
  refine ⟨_, hp, ?_⟩
  have hx := (sortState_SetFrom (SetSize a (query "size")) (query "from")).trans
    ((sortState_SetSize a (query "size")).trans ha)
  generalize SetFrom (SetSize a (query "size")) (query "from") = x at hx
  have ho : (SetSortBy x (query "sort_by")).order = false :=
    order_after_sort x _ (congrArg Prod.snd hx)
  unfold SetOrder
  split
  · rcases hasc with h | h
    · rename_i hne; exact absurd h hne
    · exact ParseBool_error_value _ h
  · exact ho

/-- Witness for C17 (amended): `annotated=maybe` panics, `is_asc=maybe` gives
parameters whose order flag is false. -/
theorem malformed_boolean_witness :
    searchHandlerParams malformedAnnotatedRequest = Except.error Fault.panic ∧
    ∃ p, searchHandlerParams malformedOrderRequest = Except.ok p ∧ p.order = false :=
  ⟨(malformed_boolean malformedAnnotatedRequest).1 (by decide) (by decide),
   (malformed_boolean malformedOrderRequest).2 (Or.inl rfl) (Or.inr (by decide))⟩

/-! ## The loops of the export -/

theorem provincesLoop_ok (env : ExportEnv) (items : List JSON) (acc result : String)
    (h : provincesLoop env acc items = Except.ok result) :
    ∃ pairs : List (String × String), List.Forall₂ carriesPair items pairs ∧
      result = acc ++ String.join (pairs.map (pairContribution env)) := by
  induction items generalizing acc with
  | nil =>
    simp only [provincesLoop, Except.ok.injEq] at h
    exact ⟨[], List.Forall₂.nil, by simp [h, String.join]⟩
  | cons item rest ih =>
    unfold provincesLoop at h
    simp only [except_bind_eq_ok] at h
    obtain ⟨u, hu, province, hp, district, hd, h⟩ := h
    have hitem : item = JSON.obj u := by
      revert hu; cases item <;> simp [JSON.assertObject]
    have hprov : JObject.index u "province" = JSON.str province := by
      revert hp; cases JObject.index u "province" <;> simp [JSON.assertString]
    have hdist : JObject.index u "district" = JSON.str district := by
      revert hd; cases JObject.index u "district" <;> simp [JSON.assertString]
    have hcarry : carriesPair item (province, district) := ⟨u, hitem, hprov, hdist⟩
    split at h
    · rename_i hpos
      obtain ⟨pairs, hall, hres⟩ := ih _ h
      refine ⟨(province, district) :: pairs, List.Forall₂.cons hcarry hall, ?_⟩
      have hc : pairContribution env (province, district)
          = env.unit (Atoi province).1 ++ " " ++ env.unit (Atoi district).1 ++ ";" := by
        unfold pairContribution
        rw [if_pos hpos]
      rw [hres, List.map_cons, string_join_cons, hc, String.append_assoc]
    · rename_i hpos
      obtain ⟨pairs, hall, hres⟩ := ih _ h
      refine ⟨(province, district) :: pairs, List.Forall₂.cons hcarry hall, ?_⟩
      have hc : pairContribution env (province, district) = "" := by
        unfold pairContribution
        rw [if_neg hpos]
      rw [hres, List.map_cons, string_join_cons, hc, String.empty_append]

theorem governmentsLoop_ok (items : List JSON) (acc result : String)
    (h : governmentsLoop acc items = Except.ok result) :
    ∃ names : List String, List.Forall₂ carriesEntity items names ∧
      result = acc ++ String.join (names.map (fun name => name ++ ";")) := by
  induction items generalizing acc with
  | nil =>
    simp only [governmentsLoop, Except.ok.injEq] at h
    exact ⟨[], List.Forall₂.nil, by simp [h, String.join]⟩
  | cons item rest ih =>
    unfold governmentsLoop at h
    simp only [except_bind_eq_ok] at h
    obtain ⟨g, hg, entity, he, h⟩ := h
    have hitem : item = JSON.obj g := by
      revert hg; cases item <;> simp [JSON.assertObject]
    have hent : JObject.index g "entity" = JSON.str entity := by
      revert he; cases JObject.index g "entity" <;> simp [JSON.assertString]
    obtain ⟨names, hall, hres⟩ := ih _ h
    refine ⟨entity :: names, List.Forall₂.cons ⟨g, hitem, hent⟩ hall, ?_⟩
    rw [hres, List.map_cons, string_join_cons, String.append_assoc]

theorem resourcesLoop_ok (voc : Vocabulary) (items : List JSON) (acc result : String)
    (h : resourcesLoop voc acc items = Except.ok result) :
    ∃ raws : List String, items = raws.map JSON.str ∧
      result = acc ++ String.join (raws.map (fun raw => voc.Resources.index raw ++ ";")) := by
  induction items generalizing acc with
  | nil =>
    simp only [resourcesLoop, Except.ok.injEq] at h
    exact ⟨[], rfl, by simp [h, String.join]⟩
  | cons item rest ih =>
    unfold resourcesLoop at h
    simp only [except_bind_eq_ok] at h
    obtain ⟨r, hr, h⟩ := h
    have hitem : item = JSON.str r := by
      revert hr; cases item <;> simp [JSON.assertString]
    obtain ⟨raws, hall, hres⟩ := ih _ h
    refine ⟨r :: raws, by rw [hitem, hall, List.map_cons], ?_⟩
    rw [hres, List.map_cons, string_join_cons, String.append_assoc]

/-- The three list cells and the metadata-text cell of the row of an exported hit. -/
theorem csvRow_loops (env : ExportEnv) (voc : Vocabulary) (index : Nat) (hit : Hit)
    (contract metadata : JObject) (cells : List String)
    (hsrc : hit.Source = some (JSON.obj contract))
    (hmeta : JObject.index contract "metadata" = JSON.obj metadata)
    (hrow : csvRow env voc index hit = Except.ok cells) :
    ∃ provinceItems governmentItems resourceItems provinces governments resources,
      JObject.index metadata "provinces" = JSON.arr provinceItems ∧
      provincesLoop env "" provinceItems = Except.ok provinces ∧
      JObject.index metadata "government_entity" = JSON.arr governmentItems ∧
      governmentsLoop "" governmentItems = Except.ok governments ∧
      JObject.index metadata "resource" = JSON.arr resourceItems ∧
      resourcesLoop voc "" resourceItems = Except.ok resources ∧
      cells.length = 14 ∧
      cells[2]? = some resources ∧ cells[6]? = some provinces ∧
      cells[7]? = some governments ∧
      cells[13]? = some
        (match JObject.index contract "metadata_string" with
          | JSON.str text => Replace text internalPrefix (env.PUBLIC_URL ++ "/storage") 2
          | _ => "") := by
  unfold csvRow at hrow
  simp only [hsrc, hmeta] at hrow
  simp only [except_bind_eq_ok] at hrow
  obtain ⟨a, ha, hrow⟩ := hrow
  cases ha
  rw [hmeta] at hrow
  simp only [except_bind_eq_ok] at hrow
  obtain ⟨y, hy, pItems, hp, provinces, hpl, gItems, hg, governments, hgl, rItems, hr,
    resources, hrl, contractName, _, ocid, _, hcells⟩ := hrow
  cases hy
  cases hcells
  have hp2 : JObject.index metadata "provinces" = JSON.arr pItems := by
    revert hp; cases JObject.index metadata "provinces" <;> simp [JSON.assertArray]
  have hg2 : JObject.index metadata "government_entity" = JSON.arr gItems := by
    revert hg; cases JObject.index metadata "government_entity" <;> simp [JSON.assertArray]
  have hr2 : JObject.index metadata "resource" = JSON.arr rItems := by
    revert hr; cases JObject.index metadata "resource" <;> simp [JSON.assertArray]
  refine ⟨pItems, gItems, rItems, provinces, governments, resources, hp2, hpl, hg2, hgl,
    hr2, hrl, rfl, rfl, rfl, rfl, ?_⟩
  cases JObject.index contract "metadata_string" <;> simp [convertToString, internalPrefix]

/-! ## C18: province/district pairs in the export -/

theorem provincesLoop_step (env : ExportEnv) (acc : String) (item : JSON)
    (pair : String × String) (rest : List JSON) (h : carriesPair item pair) :
    provincesLoop env acc (item :: rest)
      = provincesLoop env (acc ++ pairContribution env pair) rest := by
  obtain ⟨u, rfl, hp, hd⟩ := h
  have hempty : acc ++ "" = acc := by
    apply String.ext
    simp [String.data_append]
  unfold pairContribution
  simp only [provincesLoop, JSON.assertObject, hp, hd, JSON.assertString, bind, Except.bind]
  by_cases hpos : 0 < (Atoi pair.1).1 ∧ 0 < (Atoi pair.2).1
  · simp only [gt_iff_lt, hpos, and_self, if_true]
  · simp only [gt_iff_lt, hpos, if_false, hempty]

/-- C18, as stated, fails: `Atoi` rejects the id `9223372036854775808` with a range
error, so the id does not parse as an integer, yet the value that comes with the
error is the largest `int`, and the pair `(9223372036854775808, 5)` contributes to
the province/district cell of the row. -/
theorem out_of_range_id_contributes :
    Atoi "9223372036854775808" = (9223372036854775807, some NumError.errRange) ∧
    Atoi "5" = (5, none) ∧
    (csvRow sampleEnv sampleVocabulary 0 outOfRangePairHit).toOption
      = some [ "1.", "Oyu", "", "", "", "", " Erdenebulgan;", "", "", "",
               "https://public.example/api/contracts/download/h4/pdf", "ocds-1", "", "" ] := by
  decide

/-- C18, amended: in the row of an exported hit, every province/district item of the
metadata is a pair of id texts, and the province/district cell is the concatenation,
in order, of what the loop appends for each pair: the two unit names and a `;` if
and only if the values `Atoi` returns for both ids are greater than 0, and nothing
otherwise. The value of an id is greater than 0 exactly when `Atoi` accepts the id
with a value greater than 0, or rejects it with a range error and the largest
`int`. -/
theorem province_pair_contributes (env : ExportEnv) (voc : Vocabulary) (index : Nat)
    (hit : Hit) (contract metadata : JObject) (cells : List String)
    (hsrc : hit.Source = some (JSON.obj contract))
    (hmeta : JObject.index contract "metadata" = JSON.obj metadata)
    (hrow : csvRow env voc index hit = Except.ok cells) :
    (∃ (items : List JSON) (pairs : List (String × String)),
      JObject.index metadata "provinces" = JSON.arr items ∧
      List.Forall₂ carriesPair items pairs ∧
      cells[6]? = some (String.join (pairs.map (pairContribution env)))) ∧
    (∀ (acc : String) (item : JSON) (pair : String × String) (rest : List JSON),
      carriesPair item pair →
        provincesLoop env acc (item :: rest)
          = provincesLoop env (acc ++ pairContribution env pair) rest) ∧
    (∀ pair : String × String,
      (pairContribution env pair ≠ "" ↔ (0 < (Atoi pair.1).1 ∧ 0 < (Atoi pair.2).1)) ∧
      (pairContribution env pair = "" ∨
        pairContribution env pair
          = env.unit (Atoi pair.1).1 ++ " " ++ env.unit (Atoi pair.2).1 ++ ";")) ∧
    (∀ id : String,
      (0 < (Atoi id).1 ↔
        ((Atoi id).2 = none ∧ 0 < (Atoi id).1) ∨
        Atoi id = (9223372036854775807, some NumError.errRange)) ∧
      ((Atoi id).2 = some NumError.errSyntax → (Atoi id).1 = 0)) := by
  obtain ⟨pItems, _, _, provinces, _, _, hp, hpl, _, _, _, _, _, _, h6, _, _⟩ :=
    csvRow_loops env voc index hit contract metadata cells hsrc hmeta hrow
  obtain ⟨pairs, hall, hres⟩ := provincesLoop_ok env pItems "" provinces hpl
  refine ⟨⟨pItems, pairs, hp, hall, ?_⟩, ?_, ?_, ?_⟩
  · rw [h6, hres, String.empty_append]
  · intro acc item pair rest hcarry
    exact provincesLoop_step env acc item pair rest hcarry
  · intro pair
    unfold pairContribution
    by_cases hb : 0 < (Atoi pair.1).1 ∧ 0 < (Atoi pair.2).1
    · rw [if_pos hb]
      refine ⟨?_, Or.inr rfl⟩
      constructor
      · intro _; exact hb
      · intro _ hc
        have hd := congrArg String.data hc
        simp at hd
    · rw [if_neg hb]
      refine ⟨?_, Or.inl rfl⟩
      constructor
      · intro hc; exact absurd rfl hc
      · intro hc; exact absurd hc hb
  · intro id
    exact ⟨Atoi_pos_iff id, Atoi_syntax_value id⟩

/-- Witness for C18 (amended): a hit with the pairs `(0, 5)` and `(1, 5)`; only the
second one shows in the cell. -/
theorem province_pair_contributes_witness :
    (csvRow sampleEnv sampleVocabulary 0 twoPairsHit).toOption
      = some [ "1.", "Oyu", "Gold;", "", "", "", "Arkhangai Erdenebulgan;",
               "Ministry;Province;", "", "",
               "https://public.example/api/contracts/download/h2/pdf", "ocds-1", "", "" ] ∧
    pairContribution sampleEnv ("0", "5") = "" ∧
    pairContribution sampleEnv ("1", "5") = "Arkhangai Erdenebulgan;" ∧
    ∃ (items : List JSON) (pairs : List (String × String)),
      JObject.index twoPairsMetadata "provinces" = JSON.arr items ∧
      List.Forall₂ carriesPair items pairs ∧
      [ "1.", "Oyu", "Gold;", "", "", "", "Arkhangai Erdenebulgan;",
        "Ministry;Province;", "", "",
        "https://public.example/api/contracts/download/h2/pdf", "ocds-1", "", "" ][6]?
        = some (String.join (pairs.map (pairContribution sampleEnv))) :=
  ⟨by decide, by decide, by decide,
   (province_pair_contributes sampleEnv sampleVocabulary 0 twoPairsHit
    [("metadata", JSON.obj twoPairsMetadata)] twoPairsMetadata _ rfl rfl rfl).1⟩

/-! ## C19: the file-link rewrite -/

theorem replaceChars_zero (old new : List Char) (fuel : Nat) (s : List Char) :
    replaceChars old new fuel 0 s = s := by
  cases fuel <;> rfl

theorem replaceChars_none (old new : List Char) (s : List Char) (fuel n : Nat)
    (h : ∀ i, i < s.length → old.isPrefixOf (s.drop i) = false) (hold : old ≠ []) :
    replaceChars old new fuel n s = s := by
  induction s generalizing fuel n with
  | nil =>
    cases fuel with
    | zero => rfl
    | succ f =>
      cases n with
      | zero => rfl
      | succ m =>
        have : old.isPrefixOf ([] : List Char) = false := by
          cases old with
          | nil => exact absurd rfl hold
          | cons c cs => rfl
        simp [replaceChars, this]
  | cons c cs ih =>
    cases fuel with
    | zero => rfl
    | succ f =>
      cases n with
      | zero => rfl
      | succ m =>
        have h0 : old.isPrefixOf (c :: cs) = false := h 0 (by simp)
        have hrest : ∀ i, i < cs.length → old.isPrefixOf (cs.drop i) = false := by
          intro i hi
          have := h (i + 1) (by simp; omega)
          simpa using this
        simp [replaceChars, h0, ih f (m + 1) hrest]

theorem replaceChars_first (old new a r : List Char) (fuel n : Nat)
    (hfuel : a.length < fuel)
    (hfirst : ∀ i, i < a.length → old.isPrefixOf ((a ++ old ++ r).drop i) = false) :
    replaceChars old new fuel (n + 1) (a ++ old ++ r)
      = a ++ new ++ replaceChars old new (fuel - a.length - 1) n r := by
  induction a generalizing fuel with
  | nil =>
    cases fuel with
    | zero => simp at hfuel
    | succ f =>
      have hp : old.isPrefixOf (old ++ r) = true := by
        simp
      simp [replaceChars, hp]
  | cons c cs ih =>
    cases fuel with
    | zero => simp at hfuel
    | succ f =>
      have h0 : old.isPrefixOf (c :: (cs ++ old ++ r)) = false := by
        have := hfirst 0 (by simp)
        simpa using this
      have hrest : ∀ i, i < cs.length →
          old.isPrefixOf ((cs ++ old ++ r).drop i) = false := by
        intro i hi
        have := hfirst (i + 1) (by simp; omega)
        simpa using this
      have hf : cs.length < f := by simp at hfuel; omega
      have := ih f hf hrest
      simp only [List.cons_append, replaceChars, h0, Bool.false_eq_true, if_false,
        List.length_cons]
      rw [this, Nat.add_sub_add_right]

theorem Replace_none (text old new : String) (n : Nat) (hold : old ≠ "")
    (h : noOccurrenceBefore old text text.length) : Replace text old new n = text := by
  unfold Replace
  rw [replaceChars_none old.data new.data text.data _ n h
    (fun hc => hold (String.ext hc))]

theorem Replace_once (a b old new : String) (hold : old ≠ "")
    (hfirst : noOccurrenceBefore old (a ++ old ++ b) a.length)
    (hrest : noOccurrenceBefore old b b.length) :
    Replace (a ++ old ++ b) old new 2 = a ++ new ++ b := by
  apply String.ext
  simp only [Replace, String.data_append]
  rw [replaceChars_first old.data new.data a.data b.data _ 1
    (by simp only [List.length_append]; omega) (fun i hi => hfirst i hi)]
  rw [replaceChars_none old.data new.data b.data _ 1 hrest (fun hc => hold (String.ext hc))]

theorem Replace_twice (a b c old new : String) (hold : old ≠ "")
    (hfirst : noOccurrenceBefore old (a ++ old ++ b ++ old ++ c) a.length)
    (hsecond : noOccurrenceBefore old (b ++ old ++ c) b.length) :
    Replace (a ++ old ++ b ++ old ++ c) old new 2 = a ++ new ++ b ++ new ++ c := by
  have hlen : 0 < old.data.length :=
    List.length_pos.mpr (fun hc => hold (String.ext hc))
  apply String.ext
  simp only [Replace, String.data_append]
  have e1 : a.data ++ old.data ++ b.data ++ old.data ++ c.data
      = a.data ++ old.data ++ (b.data ++ old.data ++ c.data) := by
    simp only [List.append_assoc]
  rw [e1, replaceChars_first old.data new.data a.data _ _ 1
    (by simp only [List.length_append]; omega)
    (fun i hi => by have := hfirst i hi; rw [← e1]; exact this)]
  rw [replaceChars_first old.data new.data b.data c.data _ 0
    (by simp only [List.length_append]; omega) (fun i hi => hsecond i hi)]
  rw [replaceChars_zero]
  simp only [List.append_assoc]

/-- C19: the metadata-text cell of an exported hit is the metadata text in which the
internal storage prefix is replaced by the public prefix in its first two
occurrences, left to right, and nothing else is changed: a text without an
occurrence is unchanged; with one occurrence, that one is replaced; with two or
more, the first two are replaced and everything after the second, later occurrences
included, is copied as it is. -/
theorem link_rewrite_first_two (env : ExportEnv) (voc : Vocabulary) (index : Nat)
    (hit : Hit) (contract metadata : JObject) (cells : List String) (text : String)
    (hsrc : hit.Source = some (JSON.obj contract))
    (hmeta : JObject.index contract "metadata" = JSON.obj metadata)
    (hrow : csvRow env voc index hit = Except.ok cells)
    (htext : JObject.index contract "metadata_string" = JSON.str text) :
    cells[13]? = some (Replace text internalPrefix (env.PUBLIC_URL ++ "/storage") 2) ∧
    (noOccurrenceBefore internalPrefix text text.length →
      Replace text internalPrefix (env.PUBLIC_URL ++ "/storage") 2 = text) ∧
    (∀ a b : String, text = a ++ internalPrefix ++ b →
      noOccurrenceBefore internalPrefix text a.length →
      noOccurrenceBefore internalPrefix b b.length →
      Replace text internalPrefix (env.PUBLIC_URL ++ "/storage") 2
        = a ++ (env.PUBLIC_URL ++ "/storage") ++ b) ∧
    (∀ a b c : String, text = a ++ internalPrefix ++ b ++ internalPrefix ++ c →
      noOccurrenceBefore internalPrefix text a.length →
      noOccurrenceBefore internalPrefix (b ++ internalPrefix ++ c) b.length →
      Replace text internalPrefix (env.PUBLIC_URL ++ "/storage") 2
        = a ++ (env.PUBLIC_URL ++ "/storage") ++ b ++ (env.PUBLIC_URL ++ "/storage") ++ c) := by
  have hne : internalPrefix ≠ "" := by decide
  obtain ⟨_, _, _, _, _, _, _, _, _, _, _, _, _, _, _, _, h13⟩ :=
    csvRow_loops env voc index hit contract metadata cells hsrc hmeta hrow
  rw [htext] at h13
  refine ⟨h13, ?_, ?_, ?_⟩
  · intro h
    exact Replace_none text internalPrefix _ 2 hne h
  · intro a b hdec hfirst hrest
    subst hdec
    exact Replace_once a b internalPrefix _ hne hfirst hrest
  · intro a b c hdec hfirst hsecond
    subst hdec
    exact Replace_twice a b c internalPrefix _ hne hfirst hsecond

/-- Witness for C19: a metadata text with three occurrences of the prefix; the first
two are rewritten and the third is kept, so one occurrence remains. -/
theorem link_rewrite_first_two_witness :
    occurrenceCount internalPrefix threeLinksText = 3 ∧
    occurrenceCount internalPrefix
      (Replace threeLinksText internalPrefix (sampleEnv.PUBLIC_URL ++ "/storage") 2) = 1 ∧
    threeLinksRow[13]?
      = some (Replace threeLinksText internalPrefix (sampleEnv.PUBLIC_URL ++ "/storage") 2) ∧
    Replace threeLinksText internalPrefix (sampleEnv.PUBLIC_URL ++ "/storage") 2
      = "see " ++ (sampleEnv.PUBLIC_URL ++ "/storage") ++ "/1 "
          ++ (sampleEnv.PUBLIC_URL ++ "/storage") ++ "/2 https://admin.iltodgeree.mn/app/3" :=
  ⟨by decide, by decide,
   (link_rewrite_first_two sampleEnv sampleVocabulary 0 threeLinksHit
      [ ("metadata", JSON.obj unmappedMetadata),
        ("metadata_string", JSON.str threeLinksText) ] unmappedMetadata threeLinksRow
      threeLinksText rfl rfl rfl rfl).1,
   (link_rewrite_first_two sampleEnv sampleVocabulary 0 threeLinksHit
      [ ("metadata", JSON.obj unmappedMetadata),
        ("metadata_string", JSON.str threeLinksText) ] unmappedMetadata threeLinksRow
      threeLinksText rfl rfl rfl rfl).2.2.2 "see " "/1 "
      "/2 https://admin.iltodgeree.mn/app/3" (by decide)
      (by unfold noOccurrenceBefore; decide) (by unfold noOccurrenceBefore; decide)⟩

/-! ## C20: the resource and government cells -/

theorem intercalate_go_append (sep : String) (items : List String) (acc : String) :
    String.intercalate.go acc sep items ++ sep
      = acc ++ sep ++ String.join (items.map (fun item => item ++ sep)) := by
  induction items generalizing acc with
  | nil => simp [String.intercalate.go, String.join]
  | cons item rest ih =>
    simp only [String.intercalate.go, ih, List.map_cons, string_join_cons,
      String.append_assoc]

theorem semicolonTerminated_eq (items : List String) :
    semicolonTerminated items
      = if items = [] then "" else String.intercalate ";" items ++ ";" := by
  cases items with
  | nil => simp [semicolonTerminated, String.join]
  | cons item rest =>
    simp only [semicolonTerminated, reduceCtorEq, if_false, String.intercalate,
      intercalate_go_append, List.map_cons, string_join_cons, String.append_assoc]

/-- C20, as stated, fails: for a hit with the resource `gold` and the government
entities `Ministry` and `Province`, the cells are `Gold;` and `Ministry;Province;`,
with one semicolon per item, whereas joining with `;` as a separator gives `Gold`
and `Ministry;Province`. -/
theorem separator_join_counterexample :
    (csvRow sampleEnv sampleVocabulary 0 twoPairsHit).toOption
      = some [ "1.", "Oyu", "Gold;", "", "", "", "Arkhangai Erdenebulgan;",
               "Ministry;Province;", "", "",
               "https://public.example/api/contracts/download/h2/pdf", "ocds-1", "", "" ] ∧
    String.intercalate ";" ["Gold"] = "Gold" ∧
    String.intercalate ";" ["Ministry", "Province"] = "Ministry;Province" := by
  decide

/-- C20, amended: in the row of an exported hit, the resource cell is the list of the
display labels of the hit's resources, each label followed by `;`, and the
government cell is the list of its government entity names, each name followed by
`;`: n items give n semicolons (the list joined with `;` as a separator, plus one
closing `;`), and an empty list gives the empty string. -/
theorem list_cells_terminated (env : ExportEnv) (voc : Vocabulary) (index : Nat)
    (hit : Hit) (contract metadata : JObject) (cells : List String)
    (hsrc : hit.Source = some (JSON.obj contract))
    (hmeta : JObject.index contract "metadata" = JSON.obj metadata)
    (hrow : csvRow env voc index hit = Except.ok cells) :
    ∃ (raws : List String) (governmentItems : List JSON) (names : List String),
      JObject.index metadata "resource" = JSON.arr (raws.map JSON.str) ∧
      JObject.index metadata "government_entity" = JSON.arr governmentItems ∧
      List.Forall₂ carriesEntity governmentItems names ∧
      cells[2]? = some (semicolonTerminated (raws.map voc.Resources.index)) ∧
      cells[7]? = some (semicolonTerminated names) ∧
      semicolonTerminated (raws.map voc.Resources.index)
        = (if raws.map voc.Resources.index = [] then ""
           else String.intercalate ";" (raws.map voc.Resources.index) ++ ";") ∧
      semicolonTerminated names
        = (if names = [] then "" else String.intercalate ";" names ++ ";") := by
  obtain ⟨_, gItems, rItems, _, governments, resources, _, _, hg, hgl, hr, hrl, _, h2, _,
    h7, _⟩ := csvRow_loops env voc index hit contract metadata cells hsrc hmeta hrow
  obtain ⟨names, hall, hgres⟩ := governmentsLoop_ok gItems "" governments hgl
  obtain ⟨raws, hitems, hrres⟩ := resourcesLoop_ok voc rItems "" resources hrl
  refine ⟨raws, gItems, names, by rw [hr, hitems], hg, hall, ?_, ?_,
    semicolonTerminated_eq _, semicolonTerminated_eq _⟩
  · rw [h2, hrres, String.empty_append, semicolonTerminated, List.map_map]
    rfl
  · rw [h7, hgres, String.empty_append, semicolonTerminated]

/-- Witness for C20 (amended): the hit with one resource and two government
entities. -/
theorem list_cells_terminated_witness :
    semicolonTerminated (["gold"].map sampleVocabulary.Resources.index) = "Gold;" ∧
    semicolonTerminated ["Ministry", "Province"] = "Ministry;Province;" ∧
    ∃ (raws : List String) (governmentItems : List JSON) (names : List String),
      JObject.index twoPairsMetadata "resource" = JSON.arr (raws.map JSON.str) ∧
      JObject.index twoPairsMetadata "government_entity" = JSON.arr governmentItems ∧
      List.Forall₂ carriesEntity governmentItems names ∧
      [ "1.", "Oyu", "Gold;", "", "", "", "Arkhangai Erdenebulgan;",
        "Ministry;Province;", "", "",
        "https://public.example/api/contracts/download/h2/pdf", "ocds-1", "", "" ][2]?
        = some (semicolonTerminated (raws.map sampleVocabulary.Resources.index)) ∧
      [ "1.", "Oyu", "Gold;", "", "", "", "Arkhangai Erdenebulgan;",
        "Ministry;Province;", "", "",
        "https://public.example/api/contracts/download/h2/pdf", "ocds-1", "", "" ][7]?
        = some (semicolonTerminated names) ∧
      semicolonTerminated (raws.map sampleVocabulary.Resources.index)
        = (if raws.map sampleVocabulary.Resources.index = [] then ""
           else String.intercalate ";" (raws.map sampleVocabulary.Resources.index) ++ ";") ∧
      semicolonTerminated names
        = (if names = [] then "" else String.intercalate ";" names ++ ";") :=
  ⟨by decide, by decide,
   list_cells_terminated sampleEnv sampleVocabulary 0 twoPairsHit
    [("metadata", JSON.obj twoPairsMetadata)] twoPairsMetadata _ rfl rfl rfl⟩

/-! ## C21: shape of the tabular export -/

/-- A hit for which `csvRow` builds a row has an object as source, with an object
under `metadata`. -/
theorem csvRow_ok_source (env : ExportEnv) (voc : Vocabulary) (index : Nat) (hit : Hit)
    (cells : List String) (hrow : csvRow env voc index hit = Except.ok cells) :
    ∃ contract metadata : JObject, hit.Source = some (JSON.obj contract) ∧
      JObject.index contract "metadata" = JSON.obj metadata := by
  unfold csvRow at hrow
  split at hrow
  · rename_i members hs
    refine ⟨members, ?_⟩
    simp only [except_bind_eq_ok] at hrow
    obtain ⟨y, hy, hrow⟩ := hrow
    cases hy
    split at hrow
    · rename_i metadata hm
      exact ⟨metadata, hs, hm⟩
    · simp only [except_bind_eq_ok] at hrow
      obtain ⟨_, hc, _⟩ := hrow
      cases hc
  · simp only [except_bind_eq_ok] at hrow
    obtain ⟨y, hy, hrow⟩ := hrow
    cases hy
    split at hrow
    · rename_i metadata hm
      simp [JObject.index] at hm
    · simp only [except_bind_eq_ok] at hrow
      obtain ⟨_, hc, _⟩ := hrow
      cases hc
  · simp only [except_bind_eq_ok] at hrow
    obtain ⟨_, hc, _⟩ := hrow
    cases hc

/-- Every row collected by the loop of `CSV` was either collected before or is the
row `csvRow` builds for one of the hits. -/
theorem csvRows_rows (env : ExportEnv) (voc : Vocabulary) (hits : List Hit) (index : Nat)
    (data out : List (List String)) (h : csvRows env voc index hits data = Except.ok out) :
    ∀ row ∈ out, row ∈ data ∨
      ∃ (i : Nat) (hit : Hit), hit ∈ hits ∧ csvRow env voc i hit = Except.ok row := by
  induction hits generalizing index data with
  | nil =>
    simp only [csvRows, Except.ok.injEq] at h
    subst h
    intro row hrow
    exact Or.inl hrow
  | cons hit rest ih =>
    unfold csvRows at h
    intro row hrow
    split at h
    · rename_i cells hcells
      rcases ih _ _ h row hrow with hd | ⟨i, x, hx, hr⟩
      · rcases List.mem_append.mp hd with hd | hd
        · exact Or.inl hd
        · simp only [List.mem_singleton] at hd
          subst hd
          exact Or.inr ⟨index, hit, by simp, hcells⟩
      · exact Or.inr ⟨i, x, by simp [hx], hr⟩
    · rcases ih _ _ h row hrow with hd | ⟨i, x, hx, hr⟩
      · exact Or.inl hd
      · exact Or.inr ⟨i, x, by simp [hx], hr⟩
    · cases h

/-- The row of an exported hit, cell by cell, with the source of every cell. -/
theorem csvRow_row (env : ExportEnv) (voc : Vocabulary) (index : Nat) (hit : Hit)
    (contract metadata : JObject) (cells : List String)
    (hsrc : hit.Source = some (JSON.obj contract))
    (hmeta : JObject.index contract "metadata" = JSON.obj metadata)
    (hrow : csvRow env voc index hit = Except.ok cells) :
    ∃ provinceItems governmentItems resourceItems provinces governments resources
        contractName ocid,
      JObject.index metadata "provinces" = JSON.arr provinceItems ∧
      provincesLoop env "" provinceItems = Except.ok provinces ∧
      JObject.index metadata "government_entity" = JSON.arr governmentItems ∧
      governmentsLoop "" governmentItems = Except.ok governments ∧
      JObject.index metadata "resource" = JSON.arr resourceItems ∧
      resourcesLoop voc "" resourceItems = Except.ok resources ∧
      JObject.index metadata "contract_name" = JSON.str contractName ∧
      JObject.index metadata "open_contracting_id" = JSON.str ocid ∧
      cells =
        [ Itoa (index + 1) ++ ".",
          contractName,
          resources,
          voc.ContractTypes.index
            (convertToString env (JObject.index metadata "contract_type")),
          convertToString env (JObject.index metadata "signature_date"),
          voc.DocumentTypes.index
            (convertToString env (JObject.index metadata "document_type")),
          provinces,
          governments,
          convertToString env (JObject.index metadata "company_name"),
          convertToString env (JObject.index metadata "project_title"),
          env.PUBLIC_URL ++ "/api/contracts/download/" ++ hit.Id ++ "/pdf",
          ocid,
          convertToString env (JObject.index contract "annotations_string"),
          (match JObject.index contract "metadata_string" with
            | JSON.str text => Replace text internalPrefix (env.PUBLIC_URL ++ "/storage") 2
            | _ => "") ] := by
  unfold csvRow at hrow
  simp only [hsrc, hmeta] at hrow
  simp only [except_bind_eq_ok] at hrow
  obtain ⟨a, ha, hrow⟩ := hrow
  cases ha
  rw [hmeta] at hrow
  simp only [except_bind_eq_ok] at hrow
  obtain ⟨y, hy, pItems, hp, provinces, hpl, gItems, hg, governments, hgl, rItems, hr,
    resources, hrl, contractName, hn, ocid, ho, hcells⟩ := hrow
  cases hy
  cases hcells
  have hp2 : JObject.index metadata "provinces" = JSON.arr pItems := by
    revert hp; cases JObject.index metadata "provinces" <;> simp [JSON.assertArray]
  have hg2 : JObject.index metadata "government_entity" = JSON.arr gItems := by
    revert hg; cases JObject.index metadata "government_entity" <;> simp [JSON.assertArray]
  have hr2 : JObject.index metadata "resource" = JSON.arr rItems := by
    revert hr; cases JObject.index metadata "resource" <;> simp [JSON.assertArray]
  have hn2 : JObject.index metadata "contract_name" = JSON.str contractName := by
    revert hn; cases JObject.index metadata "contract_name" <;> simp [JSON.assertString]
  have ho2 : JObject.index metadata "open_contracting_id" = JSON.str ocid := by
    revert ho
    cases JObject.index metadata "open_contracting_id" <;> simp [JSON.assertString]
  refine ⟨pItems, gItems, rItems, provinces, governments, resources, contractName, ocid,
    hp2, hpl, hg2, hgl, hr2, hrl, hn2, ho2, ?_⟩
  cases JObject.index contract "metadata_string" <;> simp [convertToString, internalPrefix]

/-- C21: the header of the tabular export has exactly 14 columns; the first line
`CSV` writes is that header, every line has exactly 14 cells, and every data row is
the row of one of the hits, with its cells in the order of the header: position,
contract name, resources, contract type, signature date, document type,
province/district, government bodies, company, project title, file link, OCID,
annotation text, metadata text. -/
theorem export_rows_follow_header :
    csvHeader.length = 14 ∧
    ∀ (env : ExportEnv) (voc : Vocabulary) (searchResult : SearchResult)
      (lines : List (List String)), CSV env voc searchResult = Except.ok lines →
      lines.head? = some csvHeader ∧
      (∀ row ∈ lines, row.length = 14) ∧
      ∀ row ∈ lines.tail,
        ∃ (index : Nat) (hit : Hit) (contract metadata : JObject)
          (provinces governments resources contractName ocid : String),
          hit ∈ searchResult.Hits ∧
          hit.Source = some (JSON.obj contract) ∧
          JObject.index contract "metadata" = JSON.obj metadata ∧
          JObject.index metadata "contract_name" = JSON.str contractName ∧
          JObject.index metadata "open_contracting_id" = JSON.str ocid ∧
          row =
            [ Itoa (index + 1) ++ ".",
              contractName,
              resources,
              voc.ContractTypes.index
                (convertToString env (JObject.index metadata "contract_type")),
              convertToString env (JObject.index metadata "signature_date"),
              voc.DocumentTypes.index
                (convertToString env (JObject.index metadata "document_type")),
              provinces,
              governments,
              convertToString env (JObject.index metadata "company_name"),
              convertToString env (JObject.index metadata "project_title"),
              env.PUBLIC_URL ++ "/api/contracts/download/" ++ hit.Id ++ "/pdf",
              ocid,
              convertToString env (JObject.index contract "annotations_string"),
              (match JObject.index contract "metadata_string" with
                | JSON.str text =>
                  Replace text internalPrefix (env.PUBLIC_URL ++ "/storage") 2
                | _ => "") ] := by
  refine ⟨by decide, ?_⟩
  intro env voc searchResult lines h
  have hshape : ∃ data : List (List String), lines = csvHeader :: data ∧
      (data = [] ∨ csvRows env voc 0 searchResult.Hits [] = Except.ok data) := by
    unfold CSV at h
    split at h
    · simp only [except_bind_eq_ok] at h
      obtain ⟨data, hdata, h⟩ := h
      cases h
      exact ⟨data, rfl, Or.inr hdata⟩
    · simp only [except_bind_eq_ok] at h
      obtain ⟨data, hdata, h⟩ := h
      cases h
      cases hdata
      exact ⟨[], rfl, Or.inl rfl⟩
  obtain ⟨data, rfl, hdata⟩ := hshape
  have hrows : ∀ row ∈ data,
      ∃ (i : Nat) (hit : Hit), hit ∈ searchResult.Hits ∧
        csvRow env voc i hit = Except.ok row := by
    intro row hrow
    rcases hdata with hnil | hdata
    · subst hnil
      simp at hrow
    · rcases csvRows_rows env voc _ 0 [] data hdata row hrow with hd | hd
      · simp at hd
      · exact hd
  have hfull : ∀ row ∈ data,
      ∃ (index : Nat) (hit : Hit) (contract metadata : JObject)
        (provinces governments resources contractName ocid : String),
        hit ∈ searchResult.Hits ∧
        hit.Source = some (JSON.obj contract) ∧
        JObject.index contract "metadata" = JSON.obj metadata ∧
        JObject.index metadata "contract_name" = JSON.str contractName ∧
        JObject.index metadata "open_contracting_id" = JSON.str ocid ∧
        row =
          [ Itoa (index + 1) ++ ".",
            contractName,
            resources,
            voc.ContractTypes.index
              (convertToString env (JObject.index metadata "contract_type")),
            convertToString env (JObject.index metadata "signature_date"),
            voc.DocumentTypes.index
              (convertToString env (JObject.index metadata "document_type")),
            provinces,
            governments,
            convertToString env (JObject.index metadata "company_name"),
            convertToString env (JObject.index metadata "project_title"),
            env.PUBLIC_URL ++ "/api/contracts/download/" ++ hit.Id ++ "/pdf",
            ocid,
            convertToString env (JObject.index contract "annotations_string"),
            (match JObject.index contract "metadata_string" with
              | JSON.str text =>
                Replace text internalPrefix (env.PUBLIC_URL ++ "/storage") 2
              | _ => "") ] := by
    intro row hrow
    obtain ⟨i, hit, hmem, hr⟩ := hrows row hrow
    obtain ⟨contract, metadata, hsrc, hmeta⟩ := csvRow_ok_source env voc i hit row hr
    obtain ⟨_, _, _, provinces, governments, resources, contractName, ocid, _, _, _, _, _,
      _, hn, ho, hcells⟩ := csvRow_row env voc i hit contract metadata row hsrc hmeta hr
    exact ⟨i, hit, contract, metadata, provinces, governments, resources, contractName,
      ocid, hmem, hsrc, hmeta, hn, ho, hcells⟩
  refine ⟨rfl, ?_, ?_⟩
  · intro row hrow
    rcases List.mem_cons.mp hrow with hh | hd
    · rw [hh]; decide
    · obtain ⟨_, _, _, _, _, _, _, _, _, _, _, _, _, _, hcells⟩ := hfull row hd
      rw [hcells]; rfl
  · intro row hrow
    exact hfull row hrow

/-- Witness for C21: a result with one hit gives the header and one row of 14
cells. -/
theorem export_rows_follow_header_witness :
    ∃ lines, CSV sampleEnv sampleVocabulary { TotalHits := 1, Hits := [twoPairsHit] }
        = Except.ok lines ∧
      lines.length = 2 ∧ lines.head? = some csvHeader ∧ ∀ row ∈ lines, row.length = 14 := by
  have hrun : ∃ lines, CSV sampleEnv sampleVocabulary { TotalHits := 1, Hits := [twoPairsHit] }
      = Except.ok lines ∧ lines.length = 2 := by
    cases hrun : CSV sampleEnv sampleVocabulary { TotalHits := 1, Hits := [twoPairsHit] } with
    | error fault =>
      have hopt : (CSV sampleEnv sampleVocabulary
        { TotalHits := 1, Hits := [twoPairsHit] }).toOption.isSome = true := by decide
      rw [hrun] at hopt
      exact absurd hopt (by simp [Except.toOption])
    | ok lines =>
      have hlen : ((CSV sampleEnv sampleVocabulary
        { TotalHits := 1, Hits := [twoPairsHit] }).toOption.map List.length) = some 2 := by
        decide
      rw [hrun] at hlen
      exact ⟨lines, rfl, by simpa [Except.toOption] using hlen⟩
  obtain ⟨lines, hlines, hlen⟩ := hrun
  have h := export_rows_follow_header.2 sampleEnv sampleVocabulary
    { TotalHits := 1, Hits := [twoPairsHit] } lines hlines
  exact ⟨lines, hlines, hlen, h.1, h.2.1⟩

/-! ## C28: the `annotated` flag -/

/-- C28: the request `SearchV2` builds does not depend on the `annotated` flag:
parameters that differ only in that flag give the same filter clauses,
should-clauses, must-clause, highlight, sort, from and size. -/
theorem annotated_flag_never_read (voc : Vocabulary) (p : SearchParams) (flag : Bool) :
    SearchV2 voc (SetAnnotated p flag) = SearchV2 voc p ∧
    SearchV2 voc { p with annotated := flag } = SearchV2 voc p :=
  ⟨rfl, rfl⟩

/-! ## C25: lazy creation of the clients -/

/-- C25, evaluated on the code: starting from an instance whose clients are unset, a
successful first call of `GetV5` (of `Get`) creates a client but leaves the
instance as it was, client still unset; a second call on the same instance creates
another client, different from the first, so two clients have been created. -/
theorem client_not_stored (s : ElasticState)
    (h5 : s.ElasticInstance.clientV5 = none) (h7 : s.ElasticInstance.client = none) :
    (callGetV5 true s).1 = (some { serial := s.created }, false) ∧
    (callGetV5 true s).2.ElasticInstance = s.ElasticInstance ∧
    (callGetV5 true (callGetV5 true s).2).1 = (some { serial := s.created + 1 }, false) ∧
    (callGetV5 true (callGetV5 true s).2).2.created = s.created + 2 ∧
    (callGet true s).1 = (some { serial := s.created }, false) ∧
    (callGet true s).2.ElasticInstance = s.ElasticInstance ∧
    (callGet true (callGet true s).2).1 = (some { serial := s.created + 1 }, false) ∧
    (callGet true (callGet true s).2).2.created = s.created + 2 := by
  simp [callGetV5, callGet, Elastic.GetV5, Elastic.Get, NewClient, h5, h7]

/-- Witness for C25: the state at program start. -/
theorem client_not_stored_witness :
    (callGetV5 true initialElasticState).1 = (some { serial := 0 }, false) ∧
    (callGetV5 true initialElasticState).2.ElasticInstance = {} ∧
    (callGetV5 true (callGetV5 true initialElasticState).2).1
      = (some { serial := 1 }, false) ∧
    (callGetV5 true (callGetV5 true initialElasticState).2).2.created = 2 ∧
    (callGet true initialElasticState).1 = (some { serial := 0 }, false) ∧
    (callGet true initialElasticState).2.ElasticInstance = {} ∧
    (callGet true (callGet true initialElasticState).2).1 = (some { serial := 1 }, false) ∧
    (callGet true (callGet true initialElasticState).2).2.created = 2 :=
  client_not_stored initialElasticState rfl rfl

/-! ## C26 and C27: the counting functions -/

theorem pagedIndex_respectsSize (found : IndexSearch → List ResultItem) :
    respectsSize (pagedIndex found) := by
  intro request n isError result hsize hn h
  simp only [pagedIndex, hsize, IndexReply.answered.injEq, Option.some.injEq] at h
  rw [← h.2]
  simp only [List.length_take]
  omega

/-- C26: for every province id, `GetStatesCount` sends a search of the
`state_contracts` type that asks for at most 10000 hits and whose body is the
bool / must / term query on `provinces.province` with the decimal string of the id
(the text that `Atoi` reads back as the id); for a successful response it returns the number of hits listed in the response and
no error; for a failed call, an error response or an undecodable body it returns 0
and an error. On an index that answers within the size asked for, the result is at
most 10000: on an index that lists the first `size` of the hits it finds, it is the
number of hits found, cut at 10000. -/
theorem states_count (indexName : String)
    (search : IndexSearch → IndexReply ResultWithHits) (id : Int) :
    statesCountSearch indexName id
      = { index := indexName, documentType := "state_contracts", size := some 10000,
          body := some
            ("\x7b\n\t\t\"query\": \x7b\n\t\t\t\"bool\": \x7b\n\t\t\t\t\"must\": \x7b\n\t\t\t\t\t\"term\": \x7b\"provinces.province\":\""
              ++ Itoa id
              ++ "\"\x7d\n\t\t\t\t\x7d\n\t\t\t\x7d\n\t\t\x7d\n\t\x7d") } ∧
    (-9223372036854775808 ≤ id → id < 9223372036854775808 →
      Atoi (Itoa id) = (id, none)) ∧
    (∀ result : ResultWithHits,
      search (statesCountSearch indexName id) = IndexReply.answered false (some result) →
        GetStatesCount indexName search id = ((result.Hits.length : Int), none)) ∧
    (∀ decoded : Option ResultWithHits,
      search (statesCountSearch indexName id) = IndexReply.answered true decoded →
        GetStatesCount indexName search id = (0, some QueryError.response)) ∧
    (search (statesCountSearch indexName id) = IndexReply.failed →
        GetStatesCount indexName search id = (0, some QueryError.executing)) ∧
    (search (statesCountSearch indexName id) = IndexReply.answered false none →
        GetStatesCount indexName search id = (0, some QueryError.decoding)) ∧
    (respectsSize search → (GetStatesCount indexName search id).1 ≤ 10000) ∧
    (∀ found : IndexSearch → List ResultItem,
      respectsSize (pagedIndex found) ∧
      GetStatesCount indexName (pagedIndex found) id
        = (((min (found (statesCountSearch indexName id)).length 10000 : Nat) : Int), none)) := by
  have hreq : statesCountSearch indexName id
      = { index := indexName, documentType := "state_contracts", size := some 10000,
          body := some
            ("\x7b\n\t\t\"query\": \x7b\n\t\t\t\"bool\": \x7b\n\t\t\t\t\"must\": \x7b\n\t\t\t\t\t\"term\": \x7b\"provinces.province\":\""
              ++ Itoa id
              ++ "\"\x7d\n\t\t\t\t\x7d\n\t\t\t\x7d\n\t\t\x7d\n\t\x7d") } := by
    unfold statesCountSearch BuildQueryBoolMust marshalEntry defaultSize
    simp only [IndexSearch.mk.injEq, Option.some.injEq, true_and]
    apply String.ext
    simp [String.data_append]
  have hsize : (statesCountSearch indexName id).size = some 10000 := by rw [hreq]
  refine ⟨hreq, Atoi_Itoa id, ?_, ?_, ?_, ?_, ?_, ?_⟩
  · intro result h
    simp [GetStatesCount, h]
  · intro decoded h
    simp [GetStatesCount, h]
  · intro h
    simp [GetStatesCount, h]
  · intro h
    simp [GetStatesCount, h]
  · intro hrule
    unfold GetStatesCount
    cases hreply : search (statesCountSearch indexName id) with
    | failed => simp
    | answered isError decoded =>
      cases isError with
      | true => simp
      | false =>
        cases decoded with
        | none => simp
        | some result =>
          have := hrule _ 10000 false result hsize (by decide) hreply
          simpa using this
  · intro found
    refine ⟨pagedIndex_respectsSize found, ?_⟩
    have hreply : pagedIndex found (statesCountSearch indexName id)
        = IndexReply.answered false
            (some { Total := (found (statesCountSearch indexName id)).length,
                    Hits := (found (statesCountSearch indexName id)).take 10000 }) := by
      simp only [pagedIndex, hsize]
      rfl
    simp [GetStatesCount, hreply, List.length_take, min_comm]

/-- Witness for C26: province 1 on an index that finds seven hits; the body sent is
the term query with the text `1`. -/
theorem states_count_witness :
    respectsSize (pagedIndex sevenFound) ∧
    (statesCountSearch "contracts" 1).body
      = some "\x7b\n\t\t\"query\": \x7b\n\t\t\t\"bool\": \x7b\n\t\t\t\t\"must\": \x7b\n\t\t\t\t\t\"term\": \x7b\"provinces.province\":\"1\"\x7d\n\t\t\t\t\x7d\n\t\t\t\x7d\n\t\t\x7d\n\t\x7d" ∧
    GetStatesCount "contracts" (pagedIndex sevenFound) 1 = (7, none) ∧
    (GetStatesCount "contracts" (pagedIndex sevenFound) 1).1 ≤ 10000 ∧
    GetStatesCount "contracts" sevenHitsIndex 1 = (7, none) :=
  ⟨pagedIndex_respectsSize sevenFound, by decide,
   ((states_count "contracts" sevenHitsIndex 1).2.2.2.2.2.2.2 sevenFound).2,
   (states_count "contracts" (pagedIndex sevenFound) 1).2.2.2.2.2.2.1
     (pagedIndex_respectsSize sevenFound),
   (states_count "contracts" sevenHitsIndex 1).2.2.1 sevenHits rfl⟩

/-- C27: `GetAnnotationsCount` sends a search of the `annotations` type without size
or body; for a successful response it returns the total hit count of the response
and no error, whatever hits the body lists; for a failed call, an error response or
an undecodable body it returns 0 and an error. -/
theorem annotations_count (indexName : String) (search : IndexSearch → IndexReply Result) :
    annotationsCountSearch indexName
      = { index := indexName, documentType := "annotations", size := none, body := none } ∧
    (∀ body : ResultWithHits,
      search (annotationsCountSearch indexName)
          = IndexReply.answered false (some body.toResult) →
        GetAnnotationsCount indexName search = (body.Total, none)) ∧
    (∀ decoded : Option Result,
      search (annotationsCountSearch indexName) = IndexReply.answered true decoded →
        GetAnnotationsCount indexName search = (0, some QueryError.response)) ∧
    (search (annotationsCountSearch indexName) = IndexReply.failed →
        GetAnnotationsCount indexName search = (0, some QueryError.executing)) ∧
    (search (annotationsCountSearch indexName) = IndexReply.answered false none →
        GetAnnotationsCount indexName search = (0, some QueryError.decoding)) := by
  refine ⟨rfl, ?_, ?_, ?_, ?_⟩
  · intro body h
    simp [GetAnnotationsCount, h, ResultWithHits.toResult]
  · intro decoded h
    simp [GetAnnotationsCount, h]
  · intro h
    simp [GetAnnotationsCount, h]
  · intro h
    simp [GetAnnotationsCount, h]

/-- Witness for C27: an index whose response has a total of 162 and lists no hit. -/
theorem annotations_count_witness :
    GetAnnotationsCount "contracts" totalIndex = (162, none) :=
  (annotations_count "contracts" totalIndex).2.1 { Total := 162, Hits := [] } rfl

/-- The loop of `GetAnnotationPages` panics on its first hit when the result pointer
is nil. -/
theorem appendAnnotations_nil (item : ResultItem) (rest : List ResultItem) :
    appendAnnotations none (item :: rest) = Except.error Fault.panic := rfl

/-! ## C29: `GetAnnotationPages` -/

/-- C29: for every decoded response with at least one hit, `GetAnnotationPages`
does not return: the first hit dereferences the named result pointer, which is
still nil, and the function panics; for a response without hits it returns the nil
list and no error. -/
theorem annotation_pages_panics (isError : Bool) (result : ResultWithHits) :
    (result.Hits ≠ [] →
      GetAnnotationPages (IndexReply.answered isError (some result))
        = Except.error Fault.panic) ∧
    (result.Hits = [] →
      GetAnnotationPages (IndexReply.answered isError (some result))
        = Except.ok (none, none)) := by
  constructor
  · intro h
    cases hh : result.Hits with
    | nil => exact absurd hh h
    | cons item rest => simp [GetAnnotationPages, hh, appendAnnotations_nil]
  · intro h
    simp [GetAnnotationPages, h, appendAnnotations]

/-- Witness for C29: a response with one complete annotation hit, and a response
without hits. -/
theorem annotation_pages_panics_witness :
    GetAnnotationPages (IndexReply.answered false (some oneAnnotationHit))
      = Except.error Fault.panic ∧
    GetAnnotationPages (IndexReply.answered false (some { Total := 0, Hits := [] }))
      = Except.ok (none, none) :=
  ⟨(annotation_pages_panics false oneAnnotationHit).1 (by simp [oneAnnotationHit]),
   (annotation_pages_panics false { Total := 0, Hits := [] }).2 rfl⟩

/-! ## The document export: text normalisation -/

theorem replaceAllChars_prefix (old : List Char) (x : Char) (fuel : Nat) :
    ∀ (p s : List Char), x ∉ p → p <+: replaceAllChars old [x] fuel s → p <+: s := by
  induction fuel with
  | zero => intro p s _ h; simpa [replaceAllChars] using h
  | succ fuel ih =>
    intro p s hx h
    cases p with
    | nil => exact List.nil_prefix
    | cons a p =>
      unfold replaceAllChars at h
      split at h
      · rw [List.singleton_append, List.cons_prefix_cons] at h
        exact absurd (h.1 ▸ List.mem_cons_self a p) hx
      · cases s with
        | nil => simp at h
        | cons c cs =>
          simp only [List.cons_prefix_cons] at h
          rw [List.cons_prefix_cons]
          exact ⟨h.1, ih p cs (fun hm => hx (List.mem_cons_of_mem a hm)) h.2⟩

theorem replaceAllChars_infix (old : List Char) (x : Char) (fuel : Nat) :
    ∀ (p s : List Char), x ∉ p → p <:+: replaceAllChars old [x] fuel s → p <:+: s := by
  induction fuel with
  | zero => intro p s _ h; simpa [replaceAllChars] using h
  | succ fuel ih =>
    intro p s hx h
    have hpre := replaceAllChars_prefix old x (fuel + 1) p s hx
    unfold replaceAllChars at h hpre
    split at h
    · rename_i hmatch
      rw [if_pos hmatch] at hpre
      rw [List.singleton_append, List.infix_cons_iff] at h
      rcases h with h | h
      · exact (hpre h).isInfix
      · exact (ih p _ hx h).trans (List.drop_suffix _ _).isInfix
    · rename_i hmatch
      rw [if_neg hmatch] at hpre
      cases s with
      | nil => simpa using h
      | cons c cs =>
        simp only [List.infix_cons_iff] at h
        rcases h with h | h
        · exact (hpre h).isInfix
        · exact List.infix_cons (ih p cs hx h)

theorem replaceAllChars_removes (old : List Char) (x : Char) (hold : old ≠ [])
    (hx : x ∉ old) (fuel : Nat) :
    ∀ s : List Char, s.length < fuel → ¬ old <:+: replaceAllChars old [x] fuel s := by
  induction fuel with
  | zero => intro s h; omega
  | succ fuel ih =>
    intro s hlen h
    have hpre := replaceAllChars_prefix old x (fuel + 1) old s hx
    unfold replaceAllChars at h hpre
    split at h
    · rename_i hmatch
      rw [List.singleton_append, List.infix_cons_iff] at h
      rcases h with h | h
      · cases old with
        | nil => exact hold rfl
        | cons a old =>
          rw [List.cons_prefix_cons] at h
          exact hx (h.1 ▸ List.mem_cons_self a old)
      · refine ih _ ?_ h
        have h1 : old.length ≤ s.length := (List.isPrefixOf_iff_prefix.mp hmatch).length_le
        have h2 : 0 < old.length := List.length_pos.mpr hold
        rw [List.length_drop]
        omega
    · rename_i hmatch
      rw [if_neg hmatch] at hpre
      cases s with
      | nil =>
        simp only [List.infix_nil] at h
        exact hold h
      | cons c cs =>
        simp only [List.infix_cons_iff] at h
        rcases h with h | h
        · exact hmatch (List.isPrefixOf_iff_prefix.mpr (hpre h))
        · exact ih cs (by simp only [List.length_cons] at hlen; omega) h

theorem collapse_head (fuel : Nat) (s t : List Char)
    (h : replaceAllChars ['\n', '\n'] ['\n'] fuel s = '\n' :: t) :
    ∃ rest, s = '\n' :: rest := by
  cases fuel with
  | zero => exact ⟨t, by simpa [replaceAllChars] using h⟩
  | succ fuel =>
    unfold replaceAllChars at h
    split at h
    · rename_i hmatch
      obtain ⟨rest, hrest⟩ := List.isPrefixOf_iff_prefix.mp hmatch
      exact ⟨'\n' :: rest, by simpa using hrest.symm⟩
    · cases s with
      | nil => simp at h
      | cons c cs =>
        simp only [List.cons.injEq] at h
        exact ⟨cs, by rw [h.1]⟩

theorem collapse_no_pair (fuel : Nat) :
    ∀ s : List Char, s.length < fuel → ¬ ['\n', '\n', '\n'] <:+: s →
      ¬ ['\n', '\n'] <:+: replaceAllChars ['\n', '\n'] ['\n'] fuel s := by
  induction fuel with
  | zero => intro s h; omega
  | succ fuel ih =>
    intro s hlen hthree h
    unfold replaceAllChars at h
    split at h
    · rename_i hmatch
      obtain ⟨rest, hrest⟩ := List.isPrefixOf_iff_prefix.mp hmatch
      have hs : s = '\n' :: '\n' :: rest := by simpa using hrest.symm
      subst hs
      simp only [List.length_cons, List.drop_succ_cons, List.drop_zero,
        List.singleton_append] at h hlen
      rw [List.infix_cons_iff] at h
      rcases h with h | h
      · rw [List.cons_prefix_cons] at h
        obtain ⟨t, ht⟩ := h.2
        obtain ⟨rest2, hrest2⟩ := collapse_head fuel rest t (by simpa using ht.symm)
        subst hrest2
        exact hthree ⟨[], rest2, by simp⟩
      · refine ih rest (by omega) ?_ h
        intro h3
        exact hthree (h3.trans ((List.suffix_cons _ _).trans (List.suffix_cons _ _)).isInfix)
    · rename_i hmatch
      cases s with
      | nil => simp at h
      | cons c cs =>
        simp only [List.infix_cons_iff] at h
        rcases h with h | h
        · rw [List.cons_prefix_cons] at h
          obtain ⟨t, ht⟩ := h.2
          obtain ⟨rest2, hrest2⟩ := collapse_head fuel cs t (by simpa using ht.symm)
          subst hrest2
          exact hmatch (by rw [← h.1]; simp)
        · refine ih cs (by simp only [List.length_cons] at hlen; omega) ?_ h
          intro h3
          exact hthree (List.infix_cons h3)

theorem mem_infix_intercalate (sep : List Char) :
    ∀ (pieces : List (List Char)) (piece : List Char),
      piece ∈ pieces → piece <:+: sep.intercalate pieces := by
  intro pieces
  induction pieces with
  | nil => intro piece h; simp at h
  | cons a rest ih =>
    intro piece h
    cases rest with
    | nil =>
      simp only [List.mem_singleton] at h
      subst h
      simp [List.intercalate]
    | cons b rest =>
      have hcons : sep.intercalate (a :: b :: rest)
          = a ++ (sep ++ sep.intercalate (b :: rest)) := by
        simp [List.intercalate, List.intersperse]
      rw [hcons]
      rcases List.mem_cons.mp h with h | h
      · subst h
        exact (List.prefix_append _ _).isInfix
      · exact (ih piece h).trans
          ((List.suffix_append _ _).trans (List.suffix_append _ _)).isInfix

theorem intercalate_empty_between (sep : Char) (before after : List (List Char))
    (hb : before ≠ []) (ha : after ≠ []) :
    [sep, sep] <:+: [sep].intercalate (before ++ [[]] ++ after) := by
  induction before with
  | nil => exact absurd rfl hb
  | cons a rest ih =>
    cases rest with
    | nil =>
      cases after with
      | nil => exact absurd rfl ha
      | cons b after =>
        refine ⟨a, [sep].intercalate (b :: after), ?_⟩
        cases after <;> simp [List.intercalate, List.intersperse]
    | cons c rest =>
      have hcons : [sep].intercalate ((a :: c :: rest) ++ [[]] ++ after)
          = a ++ ([sep] ++ [sep].intercalate ((c :: rest) ++ [[]] ++ after)) := by
        simp [List.intercalate, List.intersperse]
      rw [hcons]
      exact (ih (by simp)).trans
        ((List.suffix_append _ _).trans (List.suffix_append _ _)).isInfix
theorem sanitizedText_data (pdfText : String) :
    (sanitizedText pdfText).data
      = replaceAllChars "&nbsp;".data [' ']
          ((replaceAllChars ['\n', '\n'] ['\n'] (pdfText.data.length + 1) pdfText.data).length + 1)
          (replaceAllChars ['\n', '\n'] ['\n'] (pdfText.data.length + 1) pdfText.data) := rfl

theorem contentLines_data (pdfText : String) :
    (contentLines pdfText).map String.data
      = splitChars '\n' (sanitizedText pdfText).data := by
  simp [contentLines, Split, List.map_map, Function.comp_def]

/-- C22 (counterexample): a run of three newlines is collapsed to two, not to one;
the normalised text of "a\n\n\nb" is "a\n\nb", which still holds two consecutive
newlines, and splitting it gives an empty paragraph between "a" and "b". -/
theorem three_newlines_leave_empty_paragraph :
    sanitizedText threeNewlinesText = "a\n\nb" ∧
    ['\n', '\n'] <:+: (sanitizedText threeNewlinesText).data ∧
    contentLines threeNewlinesText = ["a", "", "b"] := by
  refine ⟨by decide, ?_, by decide⟩
  exact ⟨['a'], ['b'], by decide⟩

/-- C22 (amended): for every contract full text that holds no three consecutive
newlines, the normalised text that `Process` and `ProcessSingle` split holds no two
consecutive newlines, and no empty paragraph stands between two paragraphs. -/
theorem pairs_of_newlines_collapsed (pdfText : String)
    (h : ¬ ['\n', '\n', '\n'] <:+: pdfText.data) :
    ¬ ['\n', '\n'] <:+: (sanitizedText pdfText).data ∧
    ∀ before after : List String,
      contentLines pdfText = before ++ [""] ++ after → before = [] ∨ after = [] := by
  have hpair : ¬ ['\n', '\n'] <:+: (sanitizedText pdfText).data := by
    intro hin
    rw [sanitizedText_data] at hin
    have h1 := replaceAllChars_infix "&nbsp;".data ' ' _ ['\n', '\n'] _ (by decide) hin
    exact collapse_no_pair (pdfText.data.length + 1) pdfText.data (Nat.lt_succ_self _) h h1
  refine ⟨hpair, ?_⟩
  intro before after hsplit
  by_contra hne
  rw [not_or] at hne
  have hdata := contentLines_data pdfText
  rw [hsplit] at hdata
  have hjoin := splitChars_intercalate '\n' (sanitizedText pdfText).data
  rw [← hdata] at hjoin
  have hmid := intercalate_empty_between '\n' (before.map String.data)
    (after.map String.data) (by simpa using hne.1) (by simpa using hne.2)
  apply hpair
  rw [← hjoin]
  simpa using hmid

theorem pairs_of_newlines_collapsed_witness :
    ¬ ['\n', '\n', '\n'] <:+: pairedNewlinesText.data ∧
    sanitizedText pairedNewlinesText = "a\nb c\nd" ∧
    ¬ ['\n', '\n'] <:+: (sanitizedText pairedNewlinesText).data :=
  ⟨by decide, by decide,
    (pairs_of_newlines_collapsed pairedNewlinesText (by decide)).1⟩

/-- C23: for every contract full text, no paragraph of the document export holds
the text `&nbsp;`, no paragraph holds a newline, and the paragraphs joined with
single newlines are the normalised text. -/
theorem paragraphs_of_normalised_text (pdfText : String) :
    (∀ paragraph ∈ contentLines pdfText,
      ¬ "&nbsp;".data <:+: paragraph.data ∧ '\n' ∉ paragraph.data) ∧
    ['\n'].intercalate ((contentLines pdfText).map String.data)
      = (sanitizedText pdfText).data := by
  have hdata := contentLines_data pdfText
  have hjoin := splitChars_intercalate '\n' (sanitizedText pdfText).data
  rw [← hdata] at hjoin
  refine ⟨?_, hjoin⟩
  intro paragraph hmem
  have hpiece : paragraph.data ∈ splitChars '\n' (sanitizedText pdfText).data := by
    rw [← hdata]
    exact List.mem_map_of_mem String.data hmem
  refine ⟨?_, splitChars_no_sep '\n' _ _ hpiece⟩
  intro hin
  have hwhole : "&nbsp;".data <:+: (sanitizedText pdfText).data := by
    have := mem_infix_intercalate ['\n'] _ _ hpiece
    rw [splitChars_intercalate] at this
    exact hin.trans this
  rw [sanitizedText_data] at hwhole
  exact replaceAllChars_removes "&nbsp;".data ' ' (by decide) (by decide) _ _
    (Nat.lt_succ_self _) hwhole

/-! ## The document export: what is escaped -/

theorem escapeChar_no_angle (c : Char) : '<' ∉ escapeChar c ∧ '>' ∉ escapeChar c := by
  unfold escapeChar
  split_ifs with h1 h2 h3 h4 h5 h6 h7 h8 h9
  · decide
  · decide
  · decide
  · decide
  · decide
  · decide
  · decide
  · decide
  · simp only [List.mem_singleton]
    exact ⟨fun h => h4 h.symm, fun h => h5 h.symm⟩
  · decide

theorem XmlEscape_no_angle (line : String) :
    '<' ∉ (XmlEscape line).data ∧ '>' ∉ (XmlEscape line).data := by
  simp only [XmlEscape, List.mem_flatMap, not_exists, not_and]
  exact ⟨fun c _ => (escapeChar_no_angle c).1, fun c _ => (escapeChar_no_angle c).2⟩

theorem title_infix (pre post name : String) :
    ("<w:t>" ++ name ++ "</w:t>").data <:+: (pre ++ CreateTitle name ++ post).data := by
  refine ⟨pre.data ++ "<w:p><w:pPr><w:pStyle w:val=\"Heading1\" /></w:pPr><w:proofErr w:type=\"gramStart\" /><w:r>".data,
    "</w:r><w:proofErr w:type=\"gramEnd\" /></w:p>".data ++ post.data, ?_⟩
  simp [CreateTitle, String.data_append]

/-- C30: in the document export every paragraph is written as
`CreateParagraph (XmlEscape line)`, whose text holds no `<` and no `>` and has
`&lt;` for `<` and `&amp;` for `&`, while the contract name goes into the heading
through `CreateTitle` as it is: the `w:t` element of the heading holds the name
verbatim, in `ProcessSingle` and (after the number of the hit) in `Process`. -/
theorem title_not_escaped (contract metadata : JObject) (name text : String)
    (hmeta : JObject.index contract "metadata" = JSON.obj metadata)
    (hname : JObject.index metadata "contract_name" = JSON.str name)
    (htext : JObject.index contract "pdf_text_string" = JSON.str text) :
    (∃ document,
      singleDocumentXml (some (JSON.obj contract)) = Except.ok document ∧
      document = createHeader ++ CreateTitle name
        ++ String.join ((contentLines text).map
            (fun line => CreateParagraph (XmlEscape line)))
        ++ CreateFooter ∧
      ("<w:t>" ++ name ++ "</w:t>").data <:+: document.data) ∧
    (∀ (index : Nat) (id : String), ∃ written,
      processHit index { Id := id, Source := some (JSON.obj contract) }
        = Except.ok written ∧
      written = CreateTitle (Itoa (index + 1) ++ ". " ++ name)
        ++ String.join ((contentLines text).map
            (fun line => CreateParagraph (XmlEscape line))) ∧
      ("<w:t>" ++ Itoa (index + 1) ++ ". " ++ name ++ "</w:t>").data <:+: written.data) ∧
    (∀ title : String, CreateTitle title
      = "<w:p><w:pPr><w:pStyle w:val=\"Heading1\" /></w:pPr><w:proofErr w:type=\"gramStart\" /><w:r><w:t>"
        ++ title ++ "</w:t></w:r><w:proofErr w:type=\"gramEnd\" /></w:p>") ∧
    (∀ line : String, '<' ∉ (XmlEscape line).data ∧ '>' ∉ (XmlEscape line).data) ∧
    (∀ a b : String, XmlEscape (a ++ b) = XmlEscape a ++ XmlEscape b) ∧
    XmlEscape "<" = "&lt;" ∧ XmlEscape "&" = "&amp;" := by
  refine ⟨⟨_, ?_, rfl, ?_⟩, ?_, fun _ => rfl, XmlEscape_no_angle, ?_, by decide, by decide⟩
  · simp [singleDocumentXml, hmeta, hname, htext, JSON.assertObject, JSON.assertString,
      writeParagraphs, bind, Except.bind]
  · have := title_infix createHeader
      (String.join ((contentLines text).map (fun line => CreateParagraph (XmlEscape line)))
        ++ CreateFooter) name
    simpa [String.append_assoc] using this
  · intro index id
    refine ⟨_, ?_, rfl, ?_⟩
    · simp [processHit, hmeta, hname, htext, JSON.assertString, writeParagraphs, bind,
        Except.bind]
    · have := title_infix ""
        (String.join ((contentLines text).map (fun line => CreateParagraph (XmlEscape line))))
        (Itoa (index + 1) ++ ". " ++ name)
      simpa [String.append_assoc] using this
  · intro a b
    apply String.ext
    simp [XmlEscape, String.data_append]

theorem title_not_escaped_witness :
    singleDocumentXml (some (JSON.obj markupContract))
      = Except.ok (createHeader ++ CreateTitle "A<B&C"
          ++ "<w:p><w:r><w:t>x&lt;y</w:t></w:r></w:p><w:p><w:r><w:t>p&amp;q</w:t></w:r></w:p>"
          ++ CreateFooter) ∧
    ("<w:t>" ++ "A<B&C" ++ "</w:t>").data <:+:
      (createHeader ++ CreateTitle "A<B&C"
          ++ "<w:p><w:r><w:t>x&lt;y</w:t></w:r></w:p><w:p><w:r><w:t>p&amp;q</w:t></w:r></w:p>"
          ++ CreateFooter).data := by
  obtain ⟨⟨document, hrun, hdoc, hin⟩, _⟩ :=
    title_not_escaped markupContract markupMetadata "A<B&C" "x<y\n\np&q" rfl rfl rfl
  have hpar : String.join ((contentLines "x<y\n\np&q").map
      (fun line => CreateParagraph (XmlEscape line)))
      = "<w:p><w:r><w:t>x&lt;y</w:t></w:r></w:p><w:p><w:r><w:t>p&amp;q</w:t></w:r></w:p>" := by
    decide
  rw [hpar] at hdoc
  subst hdoc
  exact ⟨hrun, hin⟩

/-! ## The document export: the scratch directory -/

theorem processHits_err (hits : List Hit) :
    ∀ (index : Nat) (state result : String × Bool),
      processHits index hits state = Except.ok result →
        result.2 = (match hits.getLast? with
          | none => state.2
          | some hit => unmarshalFails hit) := by
  induction hits with
  | nil =>
    intro index state result h
    simp only [processHits, Except.ok.injEq] at h
    rw [← h]
    rfl
  | cons hit rest ih =>
    intro index state result h
    unfold processHits at h
    cases rest with
    | nil =>
      split at h
      · simp only [processHits, Except.ok.injEq] at h
        rw [← h]; rfl
      · simp only [processHits, Except.ok.injEq] at h
        rw [← h]; rfl
      · cases h
    | cons next rest =>
      have hlast : (hit :: next :: rest).getLast? = (next :: rest).getLast? := by
        simp [List.getLast?_cons_cons]
      rw [hlast]
      split at h
      · exact ih _ _ _ h
      · exact ih _ _ _ h
      · cases h

theorem processHits_skip (index : Nat) (hit : Hit) (rest : List Hit) (state : String × Bool)
    (h : unmarshalFails hit = true) :
    processHits index (hit :: rest) state = processHits (index + 1) rest (state.1, true) := by
  have hskip : processHit index hit = Except.error Fault.skip := by
    unfold unmarshalFails at h
    unfold processHit
    split at h
    · cases h
    · cases h
    · rename_i h1 h2
      cases hs : hit.Source with
      | none => rfl
      | some v =>
        cases v with
        | obj members => exact absurd hs (h1 members)
        | null => exact absurd hs h2
        | _ => rfl
  rw [processHits, hskip, h]

/-- C24 (counterexample): a run of `ProcessSingle` on a document whose source does
not decode panics before the removal is deferred, a run whose archive cannot be
closed exits, and so does a run of `Process` whose last hit does not decode when
`Check` stops on an error: all have created the scratch directory and remove
nothing. A successful run of `CSV` gives the removal the path of the file, not the
scratch directory. -/
theorem scratch_directory_left_behind :
    (ProcessSingle Outcome.panics "/srv/documents" "42" none false).finish
      = RunEnd.panicked ∧
    (ProcessSingle Outcome.panics "/srv/documents" "42" none false).effects
      = [ Effect.mkdir "/srv/documents/result/42",
          Effect.create "/srv/documents/result/42/42.docx",
          Effect.close "/srv/documents/result/42/42.docx" ] ∧
    (ProcessSingle Outcome.panics "/srv/documents" "42"
      (some (JSON.obj markupContract)) true).finish = RunEnd.exited ∧
    (ProcessSingle Outcome.panics "/srv/documents" "42"
      (some (JSON.obj markupContract)) true).removed = [] ∧
    (Process Outcome.panics "/srv/documents" "42" undecodableResult false).finish
      = RunEnd.panicked ∧
    (Process Outcome.panics "/srv/documents" "42" undecodableResult false).effects
      = [ Effect.mkdir "/srv/documents/result/42",
          Effect.create "/srv/documents/result/42/42.docx",
          Effect.close "/srv/documents/result/42/42.docx" ] ∧
    (CSV.run "/srv/documents" sampleEnv sampleVocabulary "42" emptyResult false).finish
      = RunEnd.returned ∧
    (CSV.run "/srv/documents" sampleEnv sampleVocabulary "42" emptyResult false).effects
      = [ Effect.mkdir "/srv/documents/result/42",
          Effect.create "/srv/documents/result/42/42.tsv",
          Effect.serve "/srv/documents/result/42/42.tsv",
          Effect.removeAll "/srv/documents/result/42/42.tsv",
          Effect.flush,
          Effect.close "/srv/documents/result/42/42.tsv" ] := by
  refine ⟨by decide, by decide, by decide, by decide, by decide, by decide, by decide,
    by decide⟩

/-- C24 (amended): a run of `ProcessSingle` returns exactly when no type assertion
panics while the document is built and the archive closes; a run of `Process`
returns exactly when, besides, the error that the last `json.Unmarshal` of the loop
left in `err` is nil or `Check` goes on after an error. A run that returns has
served the file and then executed one removal, whose path is the scratch directory
`DOCUMENT_PATH/result/<id>` that it created; a run that panics or exits executes no
removal. A hit of `Process` whose source does not decode is passed over; `err` holds
an error after the loop exactly when the loop ran and the last hit did not
decode. -/
theorem scratch_directory_removed_on_return (checkFailure : Outcome)
    (DOCUMENT_PATH id : String) (source : Option JSON) (searchResult : SearchResult)
    (zipCloseFails : Bool) :
    ((ProcessSingle checkFailure DOCUMENT_PATH id source zipCloseFails).finish
        = RunEnd.returned
      ↔ (∃ document, singleDocumentXml source = Except.ok document) ∧
        zipCloseFails = false) ∧
    ((ProcessSingle checkFailure DOCUMENT_PATH id source zipCloseFails).finish
        = RunEnd.returned →
      (ProcessSingle checkFailure DOCUMENT_PATH id source zipCloseFails).effects
        = [ Effect.mkdir (DOCUMENT_PATH ++ "/result/" ++ id),
            Effect.create (DOCUMENT_PATH ++ "/result/" ++ id ++ ("/" ++ id ++ ".docx")),
            Effect.serve (DOCUMENT_PATH ++ "/result/" ++ id ++ ("/" ++ id ++ ".docx")),
            Effect.removeAll (DOCUMENT_PATH ++ "/result/" ++ id),
            Effect.close (DOCUMENT_PATH ++ "/result/" ++ id ++ ("/" ++ id ++ ".docx")) ]) ∧
    ((ProcessSingle checkFailure DOCUMENT_PATH id source zipCloseFails).finish
        ≠ RunEnd.returned →
      (ProcessSingle checkFailure DOCUMENT_PATH id source zipCloseFails).removed = []) ∧
    ((Process checkFailure DOCUMENT_PATH id searchResult zipCloseFails).finish
        = RunEnd.returned
      ↔ (∃ written err, processBody searchResult = Except.ok (written, err) ∧
          (err = false ∨ checkFailure = Outcome.done)) ∧
        zipCloseFails = false) ∧
    ((Process checkFailure DOCUMENT_PATH id searchResult zipCloseFails).finish
        = RunEnd.returned →
      (Process checkFailure DOCUMENT_PATH id searchResult zipCloseFails).effects
        = [ Effect.mkdir (DOCUMENT_PATH ++ "/result/" ++ id),
            Effect.create (DOCUMENT_PATH ++ "/result/" ++ id ++ ("/" ++ id ++ ".docx")),
            Effect.serve (DOCUMENT_PATH ++ "/result/" ++ id ++ ("/" ++ id ++ ".docx")),
            Effect.removeAll (DOCUMENT_PATH ++ "/result/" ++ id),
            Effect.close (DOCUMENT_PATH ++ "/result/" ++ id ++ ("/" ++ id ++ ".docx")) ]) ∧
    ((Process checkFailure DOCUMENT_PATH id searchResult zipCloseFails).finish
        ≠ RunEnd.returned →
      (Process checkFailure DOCUMENT_PATH id searchResult zipCloseFails).removed = []) ∧
    (∀ written err, processBody searchResult = Except.ok (written, err) →
      (err = true ↔
        0 < searchResult.TotalHits ∧
        ∃ hit, searchResult.Hits.getLast? = some hit ∧ unmarshalFails hit = true)) ∧
    (∀ (index : Nat) (hit : Hit) (rest : List Hit) (state : String × Bool),
      unmarshalFails hit = true →
        processHits index (hit :: rest) state
          = processHits (index + 1) rest (state.1, true)) := by
  refine ⟨?_, ?_, ?_, ?_, ?_, ?_, ?_, ?_⟩
  · cases hdoc : singleDocumentXml source <;> cases zipCloseFails <;>
      simp [ProcessSingle, runBody, buildOutcome, Check, hdoc]
  · cases hdoc : singleDocumentXml source <;> cases zipCloseFails <;>
      simp [ProcessSingle, runBody, buildOutcome, Check, hdoc]
  · cases hdoc : singleDocumentXml source <;> cases zipCloseFails <;>
      simp [ProcessSingle, runBody, buildOutcome, Check, hdoc, ExportRun.removed]
  · cases hdoc : processBody searchResult with
    | error fault =>
      simp [Process, runBody, buildOutcome, Check, errAfterLoop, hdoc]
    | ok state =>
      obtain ⟨written, err⟩ := state
      cases err <;> cases zipCloseFails <;> cases checkFailure <;>
        simp [Process, runBody, buildOutcome, Check, errAfterLoop, hdoc]
  · cases hdoc : processBody searchResult with
    | error fault =>
      simp [Process, runBody, buildOutcome, Check, errAfterLoop, hdoc]
    | ok state =>
      obtain ⟨written, err⟩ := state
      cases err <;> cases zipCloseFails <;> cases checkFailure <;>
        simp [Process, runBody, buildOutcome, Check, errAfterLoop, hdoc]
  · cases hdoc : processBody searchResult with
    | error fault =>
      simp [Process, runBody, buildOutcome, Check, errAfterLoop, hdoc, ExportRun.removed]
    | ok state =>
      obtain ⟨written, err⟩ := state
      cases err <;> cases zipCloseFails <;> cases checkFailure <;>
        simp [Process, runBody, buildOutcome, Check, errAfterLoop, hdoc, ExportRun.removed]
  · intro written err hbody
    unfold processBody at hbody
    split_ifs at hbody with hpos
    · have herr := processHits_err searchResult.Hits 0 ("", false) (written, err) hbody
      simp only at herr
      cases hlast : searchResult.Hits.getLast? with
      | none =>
        rw [hlast] at herr
        simp [herr]
      | some hit =>
        rw [hlast] at herr
        simp [herr, hpos]
    · simp only [Except.ok.injEq, Prod.mk.injEq] at hbody
      simp [← hbody.2, hpos]
  · intro index hit rest state h
    exact processHits_skip index hit rest state h

/-- Witness for C24 (amended): a run of `ProcessSingle` on `markupContract`, and a run
of `Process` on a result whose first hit does not decode and whose second hit
does. -/
theorem scratch_directory_removed_on_return_witness :
    (ProcessSingle Outcome.panics "/srv/documents" "42"
      (some (JSON.obj markupContract)) false).finish = RunEnd.returned ∧
    (ProcessSingle Outcome.panics "/srv/documents" "42"
      (some (JSON.obj markupContract)) false).effects
      = [ Effect.mkdir "/srv/documents/result/42",
          Effect.create "/srv/documents/result/42/42.docx",
          Effect.serve "/srv/documents/result/42/42.docx",
          Effect.removeAll "/srv/documents/result/42",
          Effect.close "/srv/documents/result/42/42.docx" ] ∧
    (Process Outcome.panics "/srv/documents" "42" undecodableFirstResult false).finish
      = RunEnd.returned ∧
    (Process Outcome.panics "/srv/documents" "42" undecodableFirstResult false).effects
      = [ Effect.mkdir "/srv/documents/result/42",
          Effect.create "/srv/documents/result/42/42.docx",
          Effect.serve "/srv/documents/result/42/42.docx",
          Effect.removeAll "/srv/documents/result/42",
          Effect.close "/srv/documents/result/42/42.docx" ] := by
  have h := scratch_directory_removed_on_return Outcome.panics "/srv/documents" "42"
    (some (JSON.obj markupContract)) undecodableFirstResult false
  have hret : (ProcessSingle Outcome.panics "/srv/documents" "42"
      (some (JSON.obj markupContract)) false).finish = RunEnd.returned := by decide
  have hret2 : (Process Outcome.panics "/srv/documents" "42" undecodableFirstResult
      false).finish = RunEnd.returned := by decide
  exact ⟨hret, h.2.1 hret, hret2, h.2.2.2.2.1 hret2⟩

end ResourceContracts
